import Mathlib

/-!
# Flexi-Path route planning core

A shallow embedding of the route-planning code of the Flexi-Path application
(`RouteManager.js`, `DistanceService.js`, `routeAlgorithms/NearestNeighbour.js`,
`routeAlgorithms/SimulatedAnnealing.js` and the proximity effect of
`routeView/RoutePage.jsx`), followed by theorems about it.

Modelling conventions.

* JavaScript numbers that the code only adds and compares are `JSNum`: a natural
  number or `Infinity`.  The routing service reports metres and seconds as
  non-negative integers.
* The routing service is an oracle `Api`.  Its first argument is the number of
  requests issued so far, so the oracle may answer the same request differently
  at different times; every `axios.get` advances that counter by one.
* `null` is `none`.  An array of transport methods is a `List (Option String)`.
* `Math.random()` is a stream of rationals in `[0, 1)`, `Math.exp` is a
  parameter, and the annealing temperature is an exact rational.
* A loop without a bound in the source takes a fuel argument and reports
  `Run.outOfFuel` when the fuel does not suffice.
-/

/-! ## Numbers -/

/-- A JavaScript number as the planners use it: a finite count of metres or
seconds, or `Infinity`. -/
inductive JSNum where
  | fin (n : Nat)
  | inf
deriving DecidableEq, Repr

namespace JSNum

/-- JavaScript `+` on these numbers: anything plus `Infinity` is `Infinity`. -/
def add : JSNum → JSNum → JSNum
  | fin a, fin b => fin (a + b)
  | _, _ => inf

instance : Add JSNum := ⟨add⟩

/-- JavaScript `<` on these numbers. -/
def blt : JSNum → JSNum → Bool
  | fin a, fin b => decide (a < b)
  | fin _, inf => true
  | inf, _ => false

/-- JavaScript `<=` on these numbers. -/
def ble : JSNum → JSNum → Bool
  | fin a, fin b => decide (a ≤ b)
  | _, inf => true
  | inf, fin _ => false

instance : LT JSNum := ⟨fun a b => blt a b = true⟩
instance : LE JSNum := ⟨fun a b => ble a b = true⟩

instance (a b : JSNum) : Decidable (a < b) := inferInstanceAs (Decidable (blt a b = true))
instance (a b : JSNum) : Decidable (a ≤ b) := inferInstanceAs (Decidable (ble a b = true))

instance : OfNat JSNum n := ⟨fin n⟩

end JSNum

/-! ## Data model -/

/-- A pair of coordinates.  The code only forwards and compares them. -/
structure Coords where
  lat : Int
  lng : Int
deriving DecidableEq, Repr

/-- A stop of a route: `{ name, direction, coords }`. -/
structure Destination where
  name : String
  direction : String
  coords : Coords
deriving DecidableEq, Repr

/-- What a cost query returns when it succeeds:
`{ distanceValue, durationValue, transportMethod }`. -/
structure DistanceData where
  distanceValue : JSNum
  durationValue : JSNum
  transportMethod : String
deriving DecidableEq, Repr

/-- The outcome of running code that may throw or may not terminate. -/
inductive Run (α : Type) where
  | ok (a : α)
  | outOfFuel
  | thrown (msg : String)
deriving DecidableEq, Repr

/-- The record `{ optimizedRoute, totalDistance, totalTime, optimizedRouteMethod }`
that both planners return (`optimizedResult` in `optimizeRoute`). -/
structure OptimizedResult where
  optimizedRoute : List Destination
  totalDistance : JSNum
  totalTime : JSNum
  optimizedRouteMethod : List (Option String)
deriving DecidableEq, Repr

/-! ## The routing service -/

/-- A Distance Matrix request: origin, destination and the `mode` parameter of
the URL (`none` when the URL carries no `mode`). -/
structure Request where
  origin : Coords
  destination : Coords
  mode : Option String
deriving DecidableEq, Repr

/-- The element `rows[0].elements[0]` of a response.  `distance` and `duration`
are the `value` fields, absent when the service sends none. -/
structure Element where
  status : String
  distance : Option Nat
  duration : Option Nat
deriving DecidableEq, Repr

/-- A response of the routing service: the request failed (`axios.get` throws),
the response has no usable `rows`, or it carries an element. -/
inductive Response where
  | requestError
  | noRows
  | element (e : Element)
deriving DecidableEq, Repr

/-- The routing service: the answer to a request, given how many requests were
issued before it. -/
abbrev Api := Nat → Request → Response

/-- JavaScript `toLowerCase` on the characters transport methods are made of. -/
def toLowerCase (s : String) : String := String.mk (s.data.map Char.toLower)

namespace DistanceService

/-- The variables `bestDistance`, `bestDuration`, `bestMethod` of `getDistance`. -/
structure Best where
  bestDistance : JSNum
  bestDuration : JSNum
  bestMethod : Option String
deriving DecidableEq, Repr

/-- One pass of the `for (let currentMethod of transportMethods)` loop of
`getDistance`, on the best-so-far and the request counter. -/
def tryMethod (api : Api) (origin destination : Coords) (mode : String)
    (acc : Best × Nat) (currentMethod : String) : Best × Nat :=
  match api acc.2 ⟨origin, destination, some currentMethod⟩ with
  | .element e =>
    if e.status = "OK" then
      match e.distance, e.duration with
      | some distance, some duration =>
        if mode = "time" ∧ JSNum.fin duration < acc.1.bestDuration then
          (⟨.fin distance, .fin duration, some currentMethod⟩, acc.2 + 1)
        else if mode ≠ "time" ∧ JSNum.fin distance < acc.1.bestDistance then
          (⟨.fin distance, .fin duration, some currentMethod⟩, acc.2 + 1)
        else (acc.1, acc.2 + 1)
      | _, _ => (acc.1, acc.2 + 1)
    else (acc.1, acc.2 + 1)
  | _ => (acc.1, acc.2 + 1)

/-- The list `transportMethods` of `getDistance`. -/
def transportMethods (method : String) : List String :=
  if method = "shuffle" then ["driving", "walking", "bicycling", "transit"]
  else [toLowerCase method]

/-- The function `DistanceService.getDistance(origin, destination, method, mode)` at request
counter `t`: the result (`none` is `null`) and the counter afterwards. -/
def getDistance (api : Api) (t : Nat) (origin destination : Coords)
    (method mode : String) : Option DistanceData × Nat :=
  let r := (transportMethods method).foldl (tryMethod api origin destination mode)
    (⟨.inf, .inf, none⟩, t)
  match r.1.bestMethod with
  | some m =>
    if m ≠ "" then (some ⟨r.1.bestDistance, r.1.bestDuration, m⟩, r.2) else (none, r.2)
  | none => (none, r.2)

end DistanceService

/-! ## Nearest neighbour -/

namespace NearestNeighbour

/-- The variables of one round of the `while` loop: `minDistance`,
`nearestCityIndex` (`none` is `-1`), `minDuration`, `bestMethod`. -/
structure Scan where
  minDistance : JSNum
  nearestCityIndex : Option Nat
  minDuration : JSNum
  bestMethod : Option String
deriving DecidableEq, Repr

/-- The state of `nearestNeighbourSolution` between rounds.  `visitedCities` is
the `Set` of visited indices in insertion order; `clock` counts the requests
issued. -/
structure State where
  currentCityIndex : Nat
  visitedCities : List Nat
  totalDistance : JSNum
  totalTime : JSNum
  optimizedRoute : List Destination
  optimizedRouteMethod : List (Option String)
  clock : Nat
deriving DecidableEq, Repr

/-- The method `Set.prototype.add`. -/
def setAdd (s : List Nat) (i : Nat) : List Nat := if i ∈ s then s else s ++ [i]

/-- The body of `for (let i = 0; i < route.length; i++)` for one `i`. -/
def scanStep (api : Api) (route : List Destination) (mode transportMethod : String)
    (currentCityIndex : Nat) (visitedCities : List Nat)
    (acc : Scan × Nat) (i : Nat) : Scan × Nat :=
  if i ≠ currentCityIndex ∧ i ∉ visitedCities then
    match route[currentCityIndex]?, route[i]? with
    | some cur, some city =>
      let q := DistanceService.getDistance api acc.2 cur.coords city.coords transportMethod mode
      match q.1 with
      | some distanceData =>
        if mode = "distance" ∧ distanceData.distanceValue < acc.1.minDistance then
          (⟨distanceData.distanceValue, some i, distanceData.durationValue,
            some distanceData.transportMethod⟩, q.2)
        else if mode = "time" ∧ distanceData.durationValue < acc.1.minDuration then
          (⟨distanceData.distanceValue, some i, distanceData.durationValue,
            some distanceData.transportMethod⟩, q.2)
        else (acc.1, q.2)
      | none => (acc.1, q.2)
    | _, _ => acc
  else acc

/-- The whole `for` loop of one round. -/
def scan (api : Api) (route : List Destination) (mode transportMethod : String)
    (currentCityIndex : Nat) (visitedCities : List Nat) (clock : Nat) : Scan × Nat :=
  (List.range route.length).foldl
    (scanStep api route mode transportMethod currentCityIndex visitedCities)
    (⟨.inf, none, .inf, none⟩, clock)

/-- One round: the body of `while (visitedCities.size < route.length)`. -/
def round (api : Api) (route : List Destination) (mode transportMethod : String)
    (s : State) : State :=
  let r := scan api route mode transportMethod s.currentCityIndex s.visitedCities s.clock
  match r.1.nearestCityIndex with
  | some nearestCityIndex =>
    { currentCityIndex := nearestCityIndex
      visitedCities := setAdd s.visitedCities nearestCityIndex
      totalDistance := s.totalDistance + r.1.minDistance
      totalTime := s.totalTime + r.1.minDuration
      optimizedRoute := s.optimizedRoute ++ (route[nearestCityIndex]?).toList
      optimizedRouteMethod := s.optimizedRouteMethod ++ [r.1.bestMethod]
      clock := r.2 }
  | none => { s with clock := r.2 }

/-- The `while (visitedCities.size < route.length)` loop, with fuel: one unit per
round. -/
def loop (api : Api) (route : List Destination) (mode transportMethod : String) :
    Nat → State → Run State
  | fuel, s =>
    if s.visitedCities.length < route.length then
      match fuel with
      | 0 => .outOfFuel
      | fuel + 1 => loop api route mode transportMethod fuel (round api route mode transportMethod s)
    else .ok s

/-- The state before the first round.  `[route[0]]` of an empty array holds
`undefined`, which is no stop; the model starts from the empty order there. -/
def init (route : List Destination) (clock : Nat) : State :=
  { currentCityIndex := 0
    visitedCities := [0]
    totalDistance := 0
    totalTime := 0
    optimizedRoute := (route[0]?).toList
    optimizedRouteMethod := [some "none"]
    clock := clock }

/-- The function `NearestNeighbour.nearestNeighbourSolution(route, mode, transportMethod)` run
with `fuel` rounds at request counter `clock`: the result and the counter
afterwards. -/
def nearestNeighbourSolution (api : Api) (fuel : Nat) (clock : Nat)
    (route : List Destination) (mode transportMethod : String) : Run (OptimizedResult × Nat) :=
  match loop api route mode transportMethod fuel (init route clock) with
  | .ok s => .ok (⟨s.optimizedRoute, s.totalDistance, s.totalTime, s.optimizedRouteMethod⟩, s.clock)
  | .outOfFuel => .outOfFuel
  | .thrown m => .thrown m

end NearestNeighbour

/-! ## Simulated annealing -/

/-- A value of `Math.random()`: a rational in `[0, 1)`. -/
abbrev Draw := {q : ℚ // 0 ≤ q ∧ q < 1}

/-- The key of `distanceCache`: the string built from the two coordinate pairs,
then the transport method. -/
abbrev CacheKey := Coords × Coords × String

/-- The object `SimulatedAnnealing.distanceCache`: the most recent entry for a
key comes first. -/
abbrev Cache := List (CacheKey × DistanceData)

/-- What the planners read and change besides their arguments: the module-level
`distanceCache`, the number of requests issued to the routing service and the
number of `Math.random()` values drawn. -/
structure World where
  distanceCache : Cache
  clock : Nat
  draws : Nat
deriving DecidableEq, Repr

/-- What the planners are run against: the routing service, the values that
`Math.random()` returns in order, and `Math.exp`. -/
structure Env where
  api : Api
  rand : Nat → Draw
  mathExp : ℚ → ℚ

namespace SimulatedAnnealing

/-- The function `getOptimalDistance(startCoords, endCoords, transportMethod, mode)`. -/
def getOptimalDistance (api : Api) (w : World) (startCoords endCoords : Coords)
    (transportMethod mode : String) : Option DistanceData × World :=
  match w.distanceCache.lookup (startCoords, endCoords, transportMethod) with
  | some entry => (some entry, w)
  | none =>
    let q := DistanceService.getDistance api w.clock startCoords endCoords transportMethod mode
    match q.1 with
    | some distanceData =>
      (some distanceData,
        { w with
          distanceCache := ((startCoords, endCoords, transportMethod), distanceData) :: w.distanceCache
          clock := q.2 })
    | none => (none, { w with clock := q.2 })

/-- The loop of `calculateTotalDistance` from leg `i` on, as a recursion over the
stops `route[i], route[i+1], ...`; every stop of the model has coordinates, so
the branch for missing coordinates is never taken. -/
def totalDistanceLoop (api : Api) (mode transportMethod : String) :
    List Destination → JSNum × World → JSNum × World
  | a :: b :: rest, acc =>
    let q := getOptimalDistance api acc.2 a.coords b.coords transportMethod mode
    totalDistanceLoop api mode transportMethod (b :: rest)
      (match q.1 with
        | some distanceData => acc.1 + distanceData.distanceValue
        | none => acc.1 + JSNum.inf,
       q.2)
  | _, acc => acc

/-- The function `calculateTotalDistance(route, mode, transportMethod)`. -/
def calculateTotalDistance (api : Api) (route : List Destination)
    (mode transportMethod : String) (w : World) : JSNum × World :=
  totalDistanceLoop api mode transportMethod route (0, w)

/-- The loop of `calculateTotalTime` from leg `i` on.  `transportMethods[i + 1]`
that does not exist is `undefined`, which as a property name reads "undefined". -/
def totalTimeLoop (cache : Cache) (transportMethods : List String) :
    Nat → List Destination → JSNum → JSNum
  | i, a :: b :: rest, totalTime =>
    let transportMethod := (transportMethods[i + 1]?).getD "undefined"
    totalTimeLoop cache transportMethods (i + 1) (b :: rest)
      (match cache.lookup (a.coords, b.coords, transportMethod) with
        | some entry => totalTime + entry.durationValue
        | none => totalTime + JSNum.inf)
  | _, _, totalTime => totalTime

/-- The function `calculateTotalTime(route, transportMethods)`; it reads the cache only. -/
def calculateTotalTime (cache : Cache) (route : List Destination)
    (transportMethods : List String) : JSNum :=
  totalTimeLoop cache transportMethods 0 route 0

/-- Indexing a JavaScript string: `s[i]` is the one-character string at `i`. -/
def stringIndices (s : String) : List String := s.data.map String.singleton

/-- The loop of lines 31-40: fills `optimizedRouteMethods[i + 1]` for the legs of
the initial order. -/
def initMethodsLoop (api : Api) (mode transportMethod : String) :
    Nat → List Destination → List (Option String) × World → List (Option String) × World
  | i, a :: b :: rest, acc =>
    let q := getOptimalDistance api acc.2 a.coords b.coords transportMethod mode
    initMethodsLoop api mode transportMethod (i + 1) (b :: rest)
      (match q.1 with
        | some distanceData =>
          if distanceData.transportMethod ≠ "" then
            acc.1.set (i + 1) (some distanceData.transportMethod)
          else acc.1
        | none => acc.1,
       q.2)
  | _, _, acc => acc

/-- The loop of lines 67-77: the transport methods and the duration of the legs
of a new best order. -/
def bestLegsLoop (api : Api) (mode transportMethod : String) :
    List Destination → List (Option String) × JSNum × World → List (Option String) × JSNum × World
  | a :: b :: rest, acc =>
    let q := getOptimalDistance api acc.2.2 a.coords b.coords transportMethod mode
    bestLegsLoop api mode transportMethod (b :: rest)
      (match q.1 with
        | some distanceData =>
          if distanceData.transportMethod ≠ "" then
            (acc.1 ++ [some distanceData.transportMethod], acc.2.1 + distanceData.durationValue, q.2)
          else (acc.1 ++ [none], acc.2.1, q.2)
        | none => (acc.1 ++ [none], acc.2.1, q.2))
  | _, acc => acc

/-- The function `acceptanceProbability(currentDistance, newDistance, temperature)`; `none` is
`NaN`, the value of `Math.exp((Infinity - Infinity) / temperature)`, and
`Math.exp(-Infinity)` is `0`. -/
def acceptanceProbability (mathExp : ℚ → ℚ) (currentDistance newDistance : JSNum)
    (temperature : ℚ) : Option ℚ :=
  if newDistance < currentDistance then some 1
  else
    match currentDistance, newDistance with
    | .fin c, .fin n => some (mathExp (((c : ℚ) - (n : ℚ)) / temperature))
    | .fin _, .inf => some 0
    | .inf, _ => none

/-- The value `Math.floor(r * n)` for a draw `r`. -/
def floorMul (r : Draw) (n : Nat) : Nat := (Int.floor (r.1 * (n : ℚ))).toNat

/-- The destructuring swap `[a[i], a[j]] = [a[j], a[i]]` on valid indices. -/
def swap (l : List Destination) (i j : Nat) : List Destination :=
  match l[i]?, l[j]? with
  | some a, some b => (l.set i b).set j a
  | _, _ => l

/-- The variables of `simulatedAnnealingSolution` that the `while` loop changes. -/
structure State where
  currentSolution : List Destination
  bestSolution : List Destination
  currentDistance : JSNum
  bestDistance : JSNum
  bestTime : JSNum
  optimizedRouteMethods : List (Option String)
  temperature : ℚ
  world : World

/-- The constant `coolingRate`. -/
def coolingRate : ℚ := 3 / 1000

/-- Lines 46-52: the neighbour `newSolution`, from two draws. -/
def newSolution (env : Env) (s : State) : List Destination :=
  let n := s.currentSolution.length
  let swapIndex1 := floorMul (env.rand s.world.draws) n
  let swapIndex2 := (swapIndex1 + floorMul (env.rand (s.world.draws + 1)) (n - 1) + 1) % n
  swap s.currentSolution swapIndex1 swapIndex2

/-- Lines 54-57: whether `acceptanceProbability(...) > Math.random()`. -/
def accepts (env : Env) (currentDistance newDistance : JSNum) (temperature : ℚ)
    (draw : Nat) : Bool :=
  match acceptanceProbability env.mathExp currentDistance newDistance temperature with
  | some p => decide ((env.rand draw).1 < p)
  | none => false

/-- Lines 46-57: the state after the acceptance test. -/
def move (env : Env) (mode transportMethod : String) (s : State) : State :=
  let new := newSolution env s
  let d := calculateTotalDistance env.api new mode transportMethod
    { s.world with draws := s.world.draws + 2 }
  let w := { d.2 with draws := d.2.draws + 1 }
  if accepts env s.currentDistance d.1 s.temperature (s.world.draws + 2) then
    { s with currentSolution := new, currentDistance := d.1, world := w }
  else { s with world := w }

/-- Lines 59-78: the best order is replaced when the current one is cheaper. -/
def updateBest (env : Env) (mode transportMethod : String) (s : State) : State :=
  if s.currentDistance < s.bestDistance then
    let legs := bestLegsLoop env.api mode transportMethod s.currentSolution
      ([some ""], 0, s.world)
    { s with
      bestSolution := s.currentSolution
      bestDistance := s.currentDistance
      optimizedRouteMethods := legs.1
      bestTime := legs.2.1
      world := legs.2.2 }
  else s

/-- One pass of `while (temperature > 1)`. -/
def step (env : Env) (mode transportMethod : String) (s : State) : State :=
  let s1 := updateBest env mode transportMethod (move env mode transportMethod s)
  { s1 with temperature := s1.temperature * (1 - coolingRate) }

/-- The loop `while (temperature > 1)`.  It ends because each pass takes at least
three thousandths off a temperature above one. -/
def anneal (env : Env) (mode transportMethod : String) (s : State) : State :=
  if 1 < s.temperature then anneal env mode transportMethod (step env mode transportMethod s)
  else s
termination_by (Int.ceil (1000 * s.temperature)).toNat
decreasing_by
  rename_i h
  have ht : (step env mode transportMethod s).temperature = s.temperature * (1 - coolingRate) := by
    simp only [step, updateBest, move]
    split <;> split <;> rfl
  rw [ht, coolingRate]
  have h1 : Int.ceil (1000 * (s.temperature * (1 - 3 / 1000))) + 3 ≤ Int.ceil (1000 * s.temperature) := by
    rw [← Int.ceil_add_int]
    apply Int.ceil_le_ceil
    push_cast
    linarith
  have h2 : (0 : ℤ) < Int.ceil (1000 * s.temperature) := by
    apply Int.ceil_pos.mpr
    linarith
  omega

/-- Lines 21-43: the variables of `simulatedAnnealingSolution` when the `while`
loop is entered. -/
def initialState (env : Env) (w : World) (route : List Destination)
    (mode transportMethod : String) : State :=
  let d := calculateTotalDistance env.api route mode transportMethod w
  let bestTime := calculateTotalTime d.2.distanceCache route (stringIndices transportMethod)
  let m := initMethodsLoop env.api mode transportMethod 0 route
    ((route.map (fun _ => none)).set 0 (some ""), d.2)
  { currentSolution := route
    bestSolution := route
    currentDistance := d.1
    bestDistance := d.1
    bestTime := bestTime
    optimizedRouteMethods := m.1
    temperature := 10000
    world := m.2 }

/-- The function `SimulatedAnnealing.simulatedAnnealingSolution(route, mode, transportMethod)`:
the result and the world afterwards. -/
def simulatedAnnealingSolution (env : Env) (w : World) (route : List Destination)
    (mode transportMethod : String) : Run (OptimizedResult × World) :=
  if route.length = 0 then .thrown "Route is undefined or empty"
  else
    let s := anneal env mode transportMethod (initialState env w route mode transportMethod)
    .ok (⟨s.bestSolution, s.bestDistance, s.bestTime, s.optimizedRouteMethods⟩, s.world)

end SimulatedAnnealing

/-! ## RouteManager -/

/-- The fields of the `RouteManager` object. -/
structure RouteManager where
  route : List Destination
  optimizedRoute : List Destination
  optimizedRouteMethod : List (Option String)
  totalDistance : JSNum
  totalTime : JSNum
  currentDestination : Nat
  mode : String
  transportMethod : String
  routeStarted : Bool
deriving DecidableEq, Repr

/-- What `RouteManager.getDistance` returns when it succeeds; `transportMethod` is
the `method` argument as it was passed. -/
structure ProximityData where
  distanceValue : JSNum
  durationValue : JSNum
  transportMethod : Option String
deriving DecidableEq, Repr

namespace RouteManager

/-- The object literal `RouteManager` as the module defines it. -/
def initial : RouteManager :=
  { route := []
    optimizedRoute := []
    optimizedRouteMethod := []
    totalDistance := 0
    totalTime := 0
    currentDestination := 1
    mode := "time"
    transportMethod := "shuffle"
    routeStarted := false }

/-- The method `addDestination(destination)`. -/
def addDestination (rm : RouteManager) (destination : Destination) : RouteManager :=
  { rm with route := rm.route ++ [destination] }

/-- The method `removeDestination(index)`; `splice(index, 1)` removes the element at
`index`. -/
def removeDestination (rm : RouteManager) (index : Int) : RouteManager :=
  if 0 ≤ index ∧ index < (rm.route.length : Int) then
    { rm with route := rm.route.eraseIdx index.toNat }
  else rm

/-- The method `clearRoute()`. -/
def clearRoute (rm : RouteManager) : RouteManager :=
  { rm with
    route := []
    optimizedRoute := []
    optimizedRouteMethod := []
    totalDistance := 0
    totalTime := 0
    mode := "time"
    transportMethod := "shuffle"
    currentDestination := 1 }

/-- The assignments of `optimizeRoute` after a planner returned.  Both planners
return defined arrays and numbers, so the test for missing properties passes. -/
def store (rm : RouteManager) (r : OptimizedResult) : RouteManager :=
  { rm with
    optimizedRoute := r.optimizedRoute
    totalDistance := r.totalDistance
    totalTime := r.totalTime
    optimizedRouteMethod := r.optimizedRouteMethod }

/-- The method `optimizeRoute()`.  An error thrown by a planner is caught and leaves the
fields as they were; a planner that does not return within `fuel` rounds makes
the call `Run.outOfFuel`. -/
def optimizeRoute (env : Env) (fuel : Nat) (rm : RouteManager) (w : World) :
    Run (RouteManager × World) :=
  if rm.route.length > 1 then
    if (rm.route[0]?).map (fun d => d.name) = some "Current Location" then
      match NearestNeighbour.nearestNeighbourSolution env.api fuel w.clock rm.route rm.mode
          rm.transportMethod with
      | .ok r => .ok (store rm r.1, { w with clock := r.2 })
      | .outOfFuel => .outOfFuel
      | .thrown _ => .ok (rm, w)
    else
      match SimulatedAnnealing.simulatedAnnealingSolution env w rm.route rm.mode
          rm.transportMethod with
      | .ok r => .ok (store rm r.1, r.2)
      | .outOfFuel => .outOfFuel
      | .thrown _ => .ok (rm, w)
  else .ok (rm, w)

/-- The method `RouteManager.getDistance(origin, destination, method)` at request counter
`t`.  The URL carries no `mode`.  Reading `distance.value` or `duration.value`
of an element that lacks it throws, which the `try` catches with `bestDuration`
still `Infinity`. -/
def getDistance (api : Api) (t : Nat) (origin destination : Coords)
    (method : Option String) : Option ProximityData × Nat :=
  match api t ⟨origin, destination, none⟩ with
  | .element e =>
    if e.status ≠ "NOT_FOUND" then
      match e.distance, e.duration with
      | some distance, some duration => (some ⟨.fin distance, .fin duration, method⟩, t + 1)
      | _, _ => (none, t + 1)
    else (none, t + 1)
  | _ => (none, t + 1)

end RouteManager

/-! ## The route page -/

/-- The document that `handleLastDestination` adds to `RouteHistory`, without its
date: the distance in kilometres (`none` is `Infinity`), the time, and the stops
with their indices. -/
structure HistoryDoc where
  distance : Option ℚ
  time : JSNum
  route : List (Nat × Destination)
deriving DecidableEq

/-- The route page together with what it works on: the `RouteManager` object, the
component state `routeCompleted` and `currentLocation`, the `RouteHistory`
documents handed to the store (one per call of `handleLastDestination`, oldest
first) and the request counter of the routing service. -/
structure RoutePage where
  rm : RouteManager
  routeCompleted : Bool
  currentLocation : Option Coords
  routeHistory : List HistoryDoc
  clock : Nat
deriving DecidableEq

namespace RoutePage

/-- The quotient `RouteManager.totalDistance / 1000`. -/
def kilometres : JSNum → Option ℚ
  | .fin n => some ((n : ℚ) / 1000)
  | .inf => none

/-- The handler `handleLastDestination()`: its synchronous part and the history document it
builds from the `RouteManager` fields. -/
def handleLastDestination (p : RoutePage) : RoutePage :=
  { p with
    routeCompleted := true
    rm := { p.rm with routeStarted := false }
    routeHistory := p.routeHistory ++
      [{ distance := kilometres p.rm.totalDistance
         time := p.rm.totalTime
         route := p.rm.optimizedRoute.enum }] }

/-- The part of `checkProximity` before `await`: the guard, the read of the
current target and the request.  The result is the pending answer of
`RouteManager.getDistance`, or `none` when no request was made (the guard
failed, or the target does not exist and reading its `coords` throws). -/
def checkProximityBegin (api : Api) (p : RoutePage) : Option (Option ProximityData) × RoutePage :=
  match p.currentLocation with
  | some currentLocation =>
    if !p.routeCompleted ∧ p.rm.optimizedRoute.length > 0 then
      match p.rm.optimizedRoute[p.rm.currentDestination]? with
      | some destination =>
        let q := RouteManager.getDistance api p.clock currentLocation destination.coords
          ((p.rm.optimizedRouteMethod[p.rm.currentDestination]?).join)
        (some q.1, { p with clock := q.2 })
      | none => (none, p)
    else (none, p)
  | none => (none, p)

/-- The part of `checkProximity` after `await`, run when the answer arrives. -/
def checkProximityResume (distanceData : Option ProximityData) (p : RoutePage) : RoutePage :=
  match distanceData with
  | some d =>
    if d.distanceValue < 75 then
      let nextDestinationIndex := min (p.rm.currentDestination + 1) p.rm.optimizedRoute.length
      let p1 := if nextDestinationIndex = p.rm.optimizedRoute.length then handleLastDestination p else p
      { p1 with rm := { p1.rm with currentDestination := nextDestinationIndex } }
    else p
  | none => p

/-- The function `checkProximity()` when its answer arrives before anything else
happens. -/
def checkProximity (api : Api) (p : RoutePage) : RoutePage :=
  match checkProximityBegin api p with
  | (some distanceData, p1) => checkProximityResume distanceData p1
  | (none, p1) => p1

/-- A position update handled to its end, with nothing else run while its request
is awaited: the location callback stores the new position and the effect runs
`checkProximity`.  The two halves as separate events, with other events in
between, are `RouteManager.Step.request` and `RouteManager.Step.answer`. -/
def positionUpdate (api : Api) (p : RoutePage) (location : Coords) : RoutePage :=
  checkProximity api { p with currentLocation := some location }

end RoutePage

/-! ## Example data -/

/-- The stop that stands for the live position. -/
def stopA : Destination := ⟨"Current Location", "", ⟨0, 0⟩⟩

/-- A second stop. -/
def stopB : Destination := ⟨"B", "", ⟨1, 0⟩⟩

/-- A third stop. -/
def stopC : Destination := ⟨"C", "", ⟨2, 0⟩⟩

/-- A routing service for driving only: A to B is 100 m and 10 s, A to C 500 m and
50 s, B to C 50 m and 5 s, any other leg 1000 m and 100 s; a request without
`mode` is answered with
the distance in metres between the two latitudes times one thousand. -/
def exampleApi : Api := fun _ r =>
  match r.mode with
  | some m =>
    if m = "driving" then
      if r.origin = ⟨0, 0⟩ ∧ r.destination = ⟨1, 0⟩ then .element ⟨"OK", some 100, some 10⟩
      else if r.origin = ⟨0, 0⟩ ∧ r.destination = ⟨2, 0⟩ then .element ⟨"OK", some 500, some 50⟩
      else if r.origin = ⟨1, 0⟩ ∧ r.destination = ⟨2, 0⟩ then .element ⟨"OK", some 50, some 5⟩
      else .element ⟨"OK", some 1000, some 100⟩
    else .element ⟨"ZERO_RESULTS", none, none⟩
  | none =>
    .element ⟨"OK", some ((r.origin.lat - r.destination.lat).natAbs * 1000),
      some ((r.origin.lat - r.destination.lat).natAbs * 100)⟩

/-- An environment over `exampleApi` whose random draws are all zero. -/
def exampleEnv : Env := ⟨exampleApi, fun _ => ⟨0, le_refl 0, one_pos⟩, fun _ => 0⟩

/-- A world with an empty cache, before any request and any draw. -/
def emptyWorld : World := ⟨[], 0, 0⟩

/-- A route manager after the user entered A and B with `driving` chosen. -/
def managerAB : RouteManager :=
  { RouteManager.initial with route := [stopA, stopB], transportMethod := "driving" }

/-- A route manager after the user entered B and C with `driving` chosen. -/
def managerBC : RouteManager :=
  { RouteManager.initial with route := [stopB, stopC], transportMethod := "driving" }

/-- The route manager `managerAB` after `optimizeRoute()` over `exampleApi`. -/
def managerABOptimized : RouteManager :=
  { managerAB with
    optimizedRoute := [stopA, stopB]
    optimizedRouteMethod := [some "none", some "driving"]
    totalDistance := 100
    totalTime := 10 }

/-- A route page on the optimized order A, B, C with B as the current target. -/
def pageABC : RoutePage :=
  { rm := { RouteManager.initial with
      route := [stopA, stopB, stopC]
      optimizedRoute := [stopA, stopB, stopC]
      optimizedRouteMethod := [some "none", some "driving", some "driving"]
      totalDistance := 150
      totalTime := 15
      routeStarted := true }
    routeCompleted := false
    currentLocation := none
    routeHistory := []
    clock := 0 }

/-- A route page on the optimized order A, B with B, the last stop, as the
current target. -/
def pageAB : RoutePage :=
  { rm := { RouteManager.initial with
      route := [stopA, stopB]
      optimizedRoute := [stopA, stopB]
      optimizedRouteMethod := [some "none", some "driving"]
      totalDistance := 100
      totalTime := 10
      routeStarted := true }
    routeCompleted := false
    currentLocation := none
    routeHistory := []
    clock := 0 }

namespace RoutePage

/-- Two position updates whose requests are both issued before either answer is
handled: the second location arrives while the first `checkProximity` awaits. -/
def overlappingUpdates (api : Api) (p : RoutePage) (location1 location2 : Coords) : RoutePage :=
  let b1 := checkProximityBegin api { p with currentLocation := some location1 }
  let b2 := checkProximityBegin api { b1.2 with currentLocation := some location2 }
  let r1 := match b1.1 with
    | some distanceData => checkProximityResume distanceData b2.2
    | none => b2.2
  match b2.1 with
  | some distanceData => checkProximityResume distanceData r1
  | none => r1

end RoutePage

/-! ## Invariants and the vocabulary of the claims -/

/-- The sums of distance and duration over the consecutive pairs of an order,
for a cost query `cost`; `none` when the query fails for some leg. -/
def legTotals (cost : Destination → Destination → Option DistanceData) :
    List Destination → Option (JSNum × JSNum)
  | a :: b :: rest =>
    match cost a b, legTotals cost (b :: rest) with
    | some d, some t => some (d.distanceValue + t.1, d.durationValue + t.2)
    | _, _ => none
  | _ => some (0, 0)

/-- The cost query of the planners for a leg, with a routing service whose
answers do not change over time. -/
def legCost (api : Api) (mode transportMethod : String) (a b : Destination) :
    Option DistanceData :=
  (DistanceService.getDistance api 0 a.coords b.coords transportMethod mode).1

/-- The totals of an order as sums over its legs, each leg with the distance and
the duration that a cost query for that leg returned at some time. -/
def legTotalsQueried (api : Api) (mode transportMethod : String) :
    List Destination → JSNum × JSNum → Prop
  | a :: b :: rest, total =>
    ∃ (t : Nat) (d : DistanceData) (sub : JSNum × JSNum),
      (DistanceService.getDistance api t a.coords b.coords transportMethod mode).1 = some d ∧
      legTotalsQueried api mode transportMethod (b :: rest) sub ∧
      total = (d.distanceValue + sub.1, d.durationValue + sub.2)
  | _, total => total = (0, 0)

namespace DistanceService

/-- Once a method is recorded, the recorded distance and duration are finite. -/
def Best.Finite (b : Best) : Prop :=
  b.bestMethod ≠ none → (∃ x, b.bestDistance = .fin x) ∧ (∃ y, b.bestDuration = .fin y)

end DistanceService

namespace NearestNeighbour

/-- What holds of the scan variables at any point of the `for` loop: without a
candidate the minima are still `Infinity`; a candidate is an index of the route
that is neither visited nor the current city. -/
def Scan.Good (route : List Destination) (currentCityIndex : Nat) (visitedCities : List Nat)
    (s : Scan) : Prop :=
  (s.nearestCityIndex = none → s.minDistance = .inf ∧ s.minDuration = .inf) ∧
  (∀ j, s.nearestCityIndex = some j →
    j < route.length ∧ j ∉ visitedCities ∧ j ≠ currentCityIndex)

/-- The candidate of the scan carries the values of its own cost query, made at
some time. -/
def Scan.FromQuery (api : Api) (route : List Destination) (mode transportMethod : String)
    (currentCityIndex : Nat) (s : Scan) : Prop :=
  ∀ j, s.nearestCityIndex = some j →
    ∃ t a b d, route[currentCityIndex]? = some a ∧ route[j]? = some b ∧
      (DistanceService.getDistance api t a.coords b.coords transportMethod mode).1 = some d ∧
      s.minDistance = d.distanceValue ∧ s.minDuration = d.durationValue

/-- What holds of the planner state between rounds. -/
structure State.Good (route : List Destination) (s : State) : Prop where
  nodup : s.visitedCities.Nodup
  bound : ∀ i ∈ s.visitedCities, i < route.length
  current : s.currentCityIndex ∈ s.visitedCities
  order : s.optimizedRoute = s.visitedCities.filterMap (fun i => route[i]?)
  methods : s.optimizedRouteMethod.length = s.optimizedRoute.length
  first : s.visitedCities.head? = some 0
  methodsFirst : s.optimizedRouteMethod.head? = some (some "none")
  last : s.optimizedRoute.getLast? = route[s.currentCityIndex]?

/-- The totals are the sums over the legs of the order built so far. -/
def State.Totals (api : Api) (mode transportMethod : String) (s : State) : Prop :=
  legTotalsQueried api mode transportMethod s.optimizedRoute (s.totalDistance, s.totalTime)

end NearestNeighbour

namespace SimulatedAnnealing

/-- What holds of the annealing state at every pass, for the input `route` and
the cost `initial` of its input order. -/
structure State.Good (route : List Destination) (initial : JSNum) (s : State) : Prop where
  current : s.currentSolution.Perm route
  best : s.bestSolution.Perm route
  bound : s.bestDistance ≤ initial
  methods : s.optimizedRouteMethods.length = s.bestSolution.length
  methodsFirst : s.optimizedRouteMethods[0]? = some (some "")

end SimulatedAnnealing

/-! ## Saved routes -/

namespace RoutePage

/-- The document that `handleLastDestination` builds from the `RouteManager`
fields: the distance in kilometres, the time, and the stops with their indices.
It holds no transport methods. -/
def historyDoc (rm : RouteManager) : HistoryDoc :=
  { distance := kilometres rm.totalDistance
    time := rm.totalTime
    route := rm.optimizedRoute.enum }

end RoutePage

namespace RouteDataView

/-- The handler `handleSetRoute()` of the history view (the bookmark view has the
same one): `RouteManager.route = selectedRoute.route`, for a document read
back from the store as it was written.  The stored stops carry an `index` next
to `name`, `direction` and `coords`; no reader of `route` uses it, and a
`Destination` has none. -/
def handleSetRoute (rm : RouteManager) (selectedRoute : HistoryDoc) : RouteManager :=
  { rm with route := selectedRoute.route.map (fun stop => stop.2) }

end RouteDataView

/-- A route manager after A and B were optimized and the user pressed start. -/
def managerABStarted : RouteManager :=
  { managerABOptimized with routeStarted := true }

/-! ## The choice among transport methods -/

/-- What `DistanceService.getDistance` takes from a response: the distance and the
duration of an element whose status is OK.  It is `none` for a failed request,
for missing rows, for another status, and for an element without the two values
(reading them throws, and the `catch` treats that like a failed request). -/
def Response.usable : Response → Option (Nat × Nat)
  | .element e =>
    if e.status = "OK" then
      match e.distance, e.duration with
      | some distance, some duration => some (distance, duration)
      | _, _ => none
    else none
  | _ => none

namespace DistanceService

/-- The figure that `getDistance` minimises over (distance, duration) pairs: the
duration in mode `time`, the distance otherwise. -/
def figure (mode : String) (v : Nat × Nat) : Nat := if mode = "time" then v.2 else v.1

/-- What holds of the best-so-far after the methods `methods` were queried from
request counter `t` on: either every response was unusable and nothing is
recorded, or the record is the usable response of the method at some position
`i`, whose figure is at most that of every usable response and strictly below
that of every earlier one. -/
def Best.Chosen (api : Api) (t : Nat) (origin destination : Coords) (mode : String)
    (methods : List String) (b : Best) : Prop :=
  (b = ⟨.inf, .inf, none⟩ ∧
    ∀ j m, methods[j]? = some m →
      (api (t + j) ⟨origin, destination, some m⟩).usable = none) ∨
  (∃ i m v, methods[i]? = some m ∧
    (api (t + i) ⟨origin, destination, some m⟩).usable = some v ∧
    b = ⟨.fin v.1, .fin v.2, some m⟩ ∧
    ∀ j m2 v2, methods[j]? = some m2 →
      (api (t + j) ⟨origin, destination, some m2⟩).usable = some v2 →
      (j < i → figure mode v < figure mode v2) ∧ figure mode v ≤ figure mode v2)

end DistanceService

/-- A routing service with four different answers: driving 300 m in 30 s, walking
200 m in 90 s, no result for bicycling, transit 200 m in 30 s. -/
def fourModesApi : Api := fun _ r =>
  match r.mode with
  | some m =>
    if m = "driving" then .element ⟨"OK", some 300, some 30⟩
    else if m = "walking" then .element ⟨"OK", some 200, some 90⟩
    else if m = "transit" then .element ⟨"OK", some 200, some 30⟩
    else .element ⟨"ZERO_RESULTS", none, none⟩
  | none => .noRows

/-- A routing service that is out of reach: every request fails. -/
def failingApi : Api := fun _ _ => .requestError

/-- An environment over `failingApi` whose random draws are all zero. -/
def failingEnv : Env := ⟨failingApi, fun _ => ⟨0, le_refl 0, one_pos⟩, fun _ => 0⟩

/-- The routing service `exampleApi` with stop C out of reach: no route is found
to the coordinates of C. -/
def unreachableCApi : Api := fun t r =>
  if r.destination = ⟨2, 0⟩ then .element ⟨"ZERO_RESULTS", none, none⟩ else exampleApi t r

/-! ## Reachable states -/

/-- The `RouteManager` object of a running application, together with the
answers of `RouteManager.getDistance` that calls of `checkProximity` still
await. -/
structure Session where
  rm : RouteManager
  pending : List (Option ProximityData)

/-- One event of a session: a call of `addDestination`, `removeDestination`,
`clearRoute` or `optimizeRoute`, the cleanup that runs when the route page is
left (`RouteManager.optimizedRoute = []`), the request that a call of
`checkProximity` makes, or the handling of an answer that is awaited.  A position
update is a request followed, at any later time, by the handling of its answer;
the request changes nothing of `RouteManager`.  An optimization may start in any
world, and the route page that makes a request or handles an answer holds the
state of the session, whatever its own state is. -/
inductive RouteManager.Step (env : Env) : Session → Session → Prop
  | addDestination (s : Session) (destination : Destination) :
      RouteManager.Step env s { s with rm := s.rm.addDestination destination }
  | removeDestination (s : Session) (index : Int) :
      RouteManager.Step env s { s with rm := s.rm.removeDestination index }
  | clearRoute (s : Session) :
      RouteManager.Step env s { s with rm := s.rm.clearRoute }
  | optimizeRoute (s : Session) (fuel : Nat) (w w2 : World) (rm2 : RouteManager) :
      RouteManager.optimizeRoute env fuel s.rm w = .ok (rm2, w2) →
      RouteManager.Step env s { s with rm := rm2 }
  | leaveRoutePage (s : Session) :
      RouteManager.Step env s { s with rm := { s.rm with optimizedRoute := [] } }
  | request (s : Session) (p : RoutePage) (location : Coords)
      (distanceData : Option ProximityData) (p1 : RoutePage) :
      p.rm = s.rm →
      RoutePage.checkProximityBegin env.api { p with currentLocation := some location }
        = (some distanceData, p1) →
      RouteManager.Step env s { s with pending := s.pending ++ [distanceData] }
  | answer (s : Session) (p : RoutePage) (distanceData : Option ProximityData) :
      p.rm = s.rm → distanceData ∈ s.pending →
      RouteManager.Step env s
        ⟨(RoutePage.checkProximityResume distanceData p).rm, s.pending.erase distanceData⟩

/-- The sessions that a sequence of events reaches from the initial
`RouteManager` object with no answer awaited. -/
inductive RouteManager.ReachableSession (env : Env) : Session → Prop
  | initial : RouteManager.ReachableSession env ⟨RouteManager.initial, []⟩
  | step {s s2 : Session} :
      RouteManager.ReachableSession env s → RouteManager.Step env s s2 →
      RouteManager.ReachableSession env s2

/-- The states of `RouteManager` in the reachable sessions. -/
def RouteManager.Reachable (env : Env) (rm : RouteManager) : Prop :=
  ∃ pending, RouteManager.ReachableSession env ⟨rm, pending⟩

/-- The route manager after the user entered A and B, optimized over
`exampleApi`. -/
def managerEnteredAB : RouteManager :=
  { (RouteManager.initial.addDestination stopA).addDestination stopB with
    optimizedRoute := [stopA, stopB]
    optimizedRouteMethod := [some "none", some "driving"]
    totalDistance := 100
    totalTime := 10 }

/-- A fresh route page around a route manager. -/
def pageOf (rm : RouteManager) : RoutePage :=
  { rm := rm, routeCompleted := false, currentLocation := none, routeHistory := [], clock := 0 }

/-! ## Optimizations in flight -/

namespace RouteManager

/-- The call `optimizeRoute()` up to the point where its planner has returned: the
guard, the choice of the planner and the planner's run.  The result is what the
assignments will store (`none` when the route is too short or the planner
threw); no field of `RouteManager` is read after the call was made and none is
written. -/
def optimizeRouteBegin (env : Env) (fuel : Nat) (rm : RouteManager) (w : World) :
    Run (Option OptimizedResult × World) :=
  if rm.route.length > 1 then
    if (rm.route[0]?).map (fun d => d.name) = some "Current Location" then
      match NearestNeighbour.nearestNeighbourSolution env.api fuel w.clock rm.route rm.mode
          rm.transportMethod with
      | .ok r => .ok (some r.1, { w with clock := r.2 })
      | .outOfFuel => .outOfFuel
      | .thrown _ => .ok (none, w)
    else
      match SimulatedAnnealing.simulatedAnnealingSolution env w rm.route rm.mode
          rm.transportMethod with
      | .ok r => .ok (some r.1, r.2)
      | .outOfFuel => .outOfFuel
      | .thrown _ => .ok (none, w)
  else .ok (none, w)

/-- The rest of `optimizeRoute()`: the four assignments, run on the state the
object has when the planner's result arrives. -/
def optimizeRouteResume (pending : Option OptimizedResult) (rm : RouteManager) : RouteManager :=
  match pending with
  | some r => store rm r
  | none => rm

/-- Two calls of `optimizeRoute()`, the second made while the first still awaits
the routing service, and the second answered first.  The requests of the first
call are numbered before those of the second.  The result is the state after the
assignments of the second call and the state after the assignments of both. -/
def overlappingOptimizations (env : Env) (fuel : Nat) (rm : RouteManager) (w : World) :
    Run (RouteManager × RouteManager) :=
  match optimizeRouteBegin env fuel rm w with
  | .ok first =>
    match optimizeRouteBegin env fuel rm first.2 with
    | .ok second =>
      .ok (optimizeRouteResume second.1 rm,
        optimizeRouteResume first.1 (optimizeRouteResume second.1 rm))
    | .outOfFuel => .outOfFuel
    | .thrown m => .thrown m
  | .outOfFuel => .outOfFuel
  | .thrown m => .thrown m

end RouteManager

/-- A routing service under changing traffic: the first request is answered as
by `exampleApi`, every later one with 120 m and 12 s. -/
def trafficApi : Api := fun t r =>
  if t = 0 then exampleApi t r else .element ⟨"OK", some 120, some 12⟩

/-- An environment over `trafficApi` whose random draws are all zero. -/
def trafficEnv : Env := ⟨trafficApi, fun _ => ⟨0, le_refl 0, one_pos⟩, fun _ => 0⟩

/-! ## The nearest stop of a round -/

namespace NearestNeighbour

/-- The figure that a round of `nearestNeighbourSolution` compares: the duration
in mode `time`, the distance otherwise. -/
def figure (mode : String) (d : DistanceData) : JSNum :=
  if mode = "time" then d.durationValue else d.distanceValue

/-- The request counter when the `for` loop of a round reaches the index `n`. -/
def scanClock (api : Api) (route : List Destination) (mode transportMethod : String)
    (cur : Nat) (visited : List Nat) (clock : Nat) (n : Nat) : Nat :=
  ((List.range n).foldl (scanStep api route mode transportMethod cur visited)
    (⟨.inf, none, .inf, none⟩, clock)).2

/-- The result of the cost query that the `for` loop of a round makes from the
stop `a` for the stop `c` at index `i`. -/
def scanCost (api : Api) (route : List Destination) (mode transportMethod : String)
    (cur : Nat) (visited : List Nat) (clock : Nat) (a : Destination) (i : Nat)
    (c : Destination) : Option DistanceData :=
  (DistanceService.getDistance api
    (scanClock api route mode transportMethod cur visited clock i) a.coords c.coords
    transportMethod mode).1

/-- What holds of the scan variables once the indices below `n` were tried, for
the cost `cost i c` of the stop `c` at index `i`: either no unvisited stop below
`n` has a cost and nothing is recorded, or the record is the cost of an
unvisited stop `j` below `n` whose figure is at most that of every unvisited
stop below `n` with a cost, and strictly below that of every such stop before
`j`. -/
def Scan.Nearest (cost : Nat → Destination → Option DistanceData)
    (route : List Destination) (mode : String) (cur : Nat) (visited : List Nat) (n : Nat)
    (s : Scan) : Prop :=
  (s.nearestCityIndex = none ∧ s.minDistance = .inf ∧ s.minDuration = .inf ∧
    ∀ (i : Nat) (c : Destination), i < n → i ≠ cur → i ∉ visited → route[i]? = some c →
      cost i c = none) ∨
  (∃ (j : Nat) (b : Destination) (d : DistanceData),
    j < n ∧ j ≠ cur ∧ j ∉ visited ∧ route[j]? = some b ∧ cost j b = some d ∧
    s = ⟨d.distanceValue, some j, d.durationValue, some d.transportMethod⟩ ∧
    ∀ (i : Nat) (c : Destination) (d2 : DistanceData),
      i < n → i ≠ cur → i ∉ visited → route[i]? = some c → cost i c = some d2 →
      figure mode d ≤ figure mode d2 ∧ (i < j → figure mode d < figure mode d2))

end NearestNeighbour

/-! ## The cost of an order -/

namespace SimulatedAnnealing

/-- The answer of `getOptimalDistance` for a leg when the cache is `cache` and the
answers of the routing service do not change over time: the stored entry if
there is one, else the result of the cost query. -/
def answer (api : Api) (mode transportMethod : String) (cache : Cache) (a b : Coords) :
    Option DistanceData :=
  match cache.lookup (a, b, transportMethod) with
  | some entry => some entry
  | none => (DistanceService.getDistance api 0 a b transportMethod mode).1

/-- The sum that `calculateTotalDistance` forms over the legs of an order from
those answers: the `distanceValue` of each leg, `Infinity` for a leg without an
answer. -/
def orderCost (api : Api) (mode transportMethod : String) (cache : Cache) :
    List Destination → JSNum
  | a :: b :: rest =>
    (match answer api mode transportMethod cache a.coords b.coords with
      | some d => d.distanceValue
      | none => JSNum.inf) + orderCost api mode transportMethod cache (b :: rest)
  | _ => 0

/-- The cache `c2` gives every leg the answer that the cache `c` gives it. -/
def SameAnswers (api : Api) (mode transportMethod : String) (c c2 : Cache) : Prop :=
  ∀ a b, answer api mode transportMethod c2 a b = answer api mode transportMethod c a b

/-- The cost of an order under the optimization mode, as a sum over its legs of
the result of the cost query: the duration of the leg in mode `time`, its
distance otherwise, `Infinity` for a leg without a result. -/
def costUnderMode (api : Api) (mode transportMethod : String) : List Destination → JSNum
  | a :: b :: rest =>
    (match legCost api mode transportMethod a b with
      | some d => if mode = "time" then d.durationValue else d.distanceValue
      | none => JSNum.inf) + costUnderMode api mode transportMethod (b :: rest)
  | _ => 0

end SimulatedAnnealing

/-- A routing service for a hill: from B down to C is 80 m in 8 s, from C up to B
a path of 50 m takes 500 s. -/
def hillApi : Api := fun _ r =>
  if r.origin = ⟨1, 0⟩ ∧ r.destination = ⟨2, 0⟩ then .element ⟨"OK", some 80, some 8⟩
  else .element ⟨"OK", some 50, some 500⟩

/-! ## The two swap positions -/

namespace SimulatedAnnealing

/-- Line 47: the position `swapIndex1`, from the first draw of a pass. -/
def swapIndex1 (env : Env) (s : State) : Nat :=
  floorMul (env.rand s.world.draws) s.currentSolution.length

/-- Line 48: the position `swapIndex2`, from `swapIndex1` and the second draw. -/
def swapIndex2 (env : Env) (s : State) : Nat :=
  (swapIndex1 env s + floorMul (env.rand (s.world.draws + 1)) (s.currentSolution.length - 1)
    + 1) % s.currentSolution.length

end SimulatedAnnealing

/-- The variables of simulated annealing on the order B, C when the loop is
entered over `exampleEnv`. -/
def stateBC : SimulatedAnnealing.State :=
  SimulatedAnnealing.initialState exampleEnv emptyWorld [stopB, stopC] "time" "driving"

/-! ## Counting the swap positions -/

namespace SimulatedAnnealing

/-- Line 48 as a function of the list length, of `swapIndex1` and of the offset
`Math.floor(Math.random() * (n - 1))`. -/
def secondPosition (n swapIndex1 offset : Nat) : Nat := (swapIndex1 + offset + 1) % n

/-- The number of pairs (first position `k` below `n`, offset `m` below `n - 1`)
that lead to the positions `(i, j)`. -/
def pairCount (n i j : Nat) : Nat :=
  ((Finset.range n ×ˢ Finset.range (n - 1)).filter
    (fun km => km.1 = i ∧ secondPosition n km.1 km.2 = j)).card

end SimulatedAnnealing

/-! ## Entries of the cache and the mode -/

namespace SimulatedAnnealing

/-- Every entry of the cache is what the cost query returns for its key in the
optimization mode `mode`. -/
def Coherent (api : Api) (mode : String) (cache : Cache) : Prop :=
  ∀ (a b : Coords) (transportMethod : String) (entry : DistanceData),
    cache.lookup (a, b, transportMethod) = some entry →
    (DistanceService.getDistance api 0 a b transportMethod mode).1 = some entry

end SimulatedAnnealing

/-! ## The orders a run visits -/

namespace SimulatedAnnealing

/-- The current order after `i` passes of the loop from the state `s0`: the
order of `s0` for `i = 0`; a pass replaces it by its neighbour when the
neighbour is accepted and keeps it otherwise. -/
def visited (env : Env) (mode transportMethod : String) (s0 : State) (i : Nat) :
    List Destination :=
  ((step env mode transportMethod)^[i] s0).currentSolution

/-- What holds of the state `s` after `k` passes, for a cost function on orders
and the orders visited so far: the two distances are the costs of the two
orders, the best distance is at most the cost of every order visited, and the
best order is the first order visited whose cost is the best distance. -/
structure State.Tracked (cost : List Destination → JSNum) (orders : Nat → List Destination)
    (k : Nat) (s : State) : Prop where
  current : s.currentSolution = orders k
  currentCost : s.currentDistance = cost s.currentSolution
  bestCost : s.bestDistance = cost s.bestSolution
  least : ∀ i, i ≤ k → s.bestDistance ≤ cost (orders i)
  first : ∃ i, i ≤ k ∧ s.bestSolution = orders i ∧ ∀ j, j < i → s.bestDistance < cost (orders j)

end SimulatedAnnealing

/-! ## Facts about numbers -/

namespace JSNum

theorem lt_iff_blt (a b : JSNum) : a < b ↔ blt a b = true := Iff.rfl

theorem le_iff_ble (a b : JSNum) : a ≤ b ↔ ble a b = true := Iff.rfl

theorem le_rfl (a : JSNum) : a ≤ a := by
  cases a <;> simp [le_iff_ble, ble]

theorem le_of_lt {a b : JSNum} (h : a < b) : a ≤ b := by
  cases a <;> cases b <;> simp_all [le_iff_ble, lt_iff_blt, ble, blt]
  omega

theorem le_trans {a b c : JSNum} (h1 : a ≤ b) (h2 : b ≤ c) : a ≤ c := by
  cases a <;> cases b <;> cases c <;> simp_all [le_iff_ble, ble]
  omega

theorem fin_lt_inf (n : Nat) : fin n < inf := by
  simp [lt_iff_blt, blt]

theorem not_lt_self (a : JSNum) : ¬ a < a := by
  cases a <;> simp [lt_iff_blt, blt]

theorem zero_add (a : JSNum) : (0 : JSNum) + a = a := by
  cases a
  · show fin (0 + _) = _
    rw [Nat.zero_add]
  · rfl

theorem add_zero (a : JSNum) : a + (0 : JSNum) = a := by
  cases a <;> rfl

theorem add_assoc (a b c : JSNum) : a + b + c = a + (b + c) := by
  cases a <;> cases b <;> cases c <;> try rfl
  show fin (_ + _ + _) = fin (_ + (_ + _))
  rw [Nat.add_assoc]

end JSNum

/-! ## Removing a stop -/

/-- C10: `removeDestination(index)` with `0 <= index < route.length` removes
exactly the element at `index`: the route splits as `before ++ x :: after` with
`before` of length `index`, and the new route is `before ++ after`, every other
field kept.  With `index` negative or at least `route.length` the state is
unchanged, so a repeated out-of-range removal changes nothing either. -/
theorem removeDestination_removes_exactly_or_nothing (rm : RouteManager) (index : Int) :
    (0 ≤ index ∧ index < (rm.route.length : Int) →
      ∃ before x after, rm.route = before ++ x :: after ∧ (before.length : Int) = index ∧
        rm.removeDestination index = { rm with route := before ++ after }) ∧
    (index < 0 ∨ (rm.route.length : Int) ≤ index →
      rm.removeDestination index = rm ∧
        (rm.removeDestination index).removeDestination index = rm) := by
  constructor
  · rintro ⟨h0, h1⟩
    have hi : index.toNat < rm.route.length := by omega
    refine ⟨rm.route.take index.toNat, rm.route[index.toNat], rm.route.drop (index.toNat + 1),
      ?_, ?_, ?_⟩
    · rw [List.getElem_cons_drop _ _ hi, List.take_append_drop]
    · rw [List.length_take]
      omega
    · simp only [RouteManager.removeDestination, h0, h1, and_self, if_true]
      rw [List.eraseIdx_eq_take_drop_succ]
  · intro h
    have hno : ¬ (0 ≤ index ∧ index < (rm.route.length : Int)) := by omega
    have h1 : rm.removeDestination index = rm := by
      simp only [RouteManager.removeDestination, hno, if_false]
    exact ⟨h1, by rw [h1, h1]⟩

/-- C10 at concrete inputs: removing index 1 of A, B, C leaves A, C; removing
index 3 or index -1 leaves the route as it is. -/
theorem removeDestination_examples :
    ({ RouteManager.initial with route := [stopA, stopB, stopC] }.removeDestination 1).route
        = [stopA, stopC] ∧
      ({ RouteManager.initial with route := [stopA, stopB, stopC] }.removeDestination 3).route
        = [stopA, stopB, stopC] ∧
      ({ RouteManager.initial with route := [stopA, stopB, stopC] }.removeDestination (-1)).route
        = [stopA, stopB, stopC] := by
  have h := removeDestination_removes_exactly_or_nothing
    { RouteManager.initial with route := [stopA, stopB, stopC] }
  refine ⟨by decide, ?_, ?_⟩
  · rw [((h 3).2 (by decide)).1]
  · rw [((h (-1)).2 (by decide)).1]

/-! ## Optimizing a short route -/

/-- C1, as the code has it: with fewer than 2 stops `optimizeRoute()` returns
without changing any field, so `optimizedRoute`, `totalDistance` and `totalTime`
are what they were before the call: empty and zero when they were empty and
zero. -/
theorem optimizeRoute_short_route_unchanged (env : Env) (fuel : Nat) (rm : RouteManager)
    (w : World) (h : rm.route.length < 2) :
    RouteManager.optimizeRoute env fuel rm w = .ok (rm, w) := by
  have hno : ¬ rm.route.length > 1 := by omega
  simp only [RouteManager.optimizeRoute, hno, if_false]

/-- C1 at a concrete input: on the initial state with one stop the call changes
nothing, and the order and totals are still empty and zero. -/
theorem optimizeRoute_short_route_witness :
    ({ RouteManager.initial with route := [stopB] } : RouteManager).route.length < 2 ∧
      RouteManager.optimizeRoute exampleEnv 0 { RouteManager.initial with route := [stopB] }
        emptyWorld = .ok ({ RouteManager.initial with route := [stopB] }, emptyWorld) :=
  ⟨by decide, optimizeRoute_short_route_unchanged exampleEnv 0 _ emptyWorld (by decide)⟩

/-- C1 fails as stated: after A and B were optimized and B was removed, the route
holds one stop, and a further `optimizeRoute()` leaves `optimizedRoute` at its
two stops and the totals at 100 m and 10 s, not empty and zero. -/
theorem optimizeRoute_short_route_keeps_old_result :
    RouteManager.optimizeRoute exampleEnv 1 managerAB emptyWorld
        = .ok (managerABOptimized, ⟨[], 1, 0⟩) ∧
      (managerABOptimized.removeDestination 1).route.length < 2 ∧
      RouteManager.optimizeRoute exampleEnv 1 (managerABOptimized.removeDestination 1) ⟨[], 1, 0⟩
        = .ok ({ managerABOptimized with route := [stopA] }, ⟨[], 1, 0⟩) ∧
      ({ managerABOptimized with route := [stopA] } : RouteManager).optimizedRoute ≠ [] ∧
      ({ managerABOptimized with route := [stopA] } : RouteManager).totalDistance ≠ 0 ∧
      ({ managerABOptimized with route := [stopA] } : RouteManager).totalTime ≠ 0 := by
  decide

/-! ## Position updates -/

namespace RoutePage

theorem positionUpdate_of_target (api : Api) (p : RoutePage) (location : Coords)
    (target : Destination) (hc : p.routeCompleted = false)
    (ht : p.rm.optimizedRoute[p.rm.currentDestination]? = some target) :
    positionUpdate api p location =
      checkProximityResume
        (RouteManager.getDistance api p.clock location target.coords
          ((p.rm.optimizedRouteMethod[p.rm.currentDestination]?).join)).1
        { p with
          currentLocation := some location
          clock := (RouteManager.getDistance api p.clock location target.coords
            ((p.rm.optimizedRouteMethod[p.rm.currentDestination]?).join)).2 } := by
  have hlen : p.rm.optimizedRoute.length > 0 := by
    have := (List.getElem?_eq_some_iff.mp ht).1
    omega
  simp only [positionUpdate, checkProximity, checkProximityBegin, hc, ht, hlen]
  simp

theorem positionUpdate_of_no_target (api : Api) (p : RoutePage) (location : Coords)
    (h : p.routeCompleted = true ∨ p.rm.optimizedRoute[p.rm.currentDestination]? = none) :
    positionUpdate api p location = { p with currentLocation := some location } := by
  rcases h with h | h
  · simp [positionUpdate, checkProximity, checkProximityBegin, h]
  · simp [positionUpdate, checkProximity, checkProximityBegin, h]

theorem checkProximityResume_currentDestination (d : Option ProximityData) (p : RoutePage) :
    (checkProximityResume d p).rm.currentDestination =
      match d with
      | some d =>
        if d.distanceValue < 75 then min (p.rm.currentDestination + 1) p.rm.optimizedRoute.length
        else p.rm.currentDestination
      | none => p.rm.currentDestination := by
  cases d with
  | none => rfl
  | some d =>
    simp only [checkProximityResume]
    split <;> rfl

end RoutePage

/-- C8, as the code has it.  A position update handled to its end, with nothing
else run while its request is awaited, moves `currentDestination` by at most one
step and never past `optimizedRoute.length`.  When the page is not completed and
the current target `optimizedRoute[currentDestination]` exists, the pointer
advances by exactly one if `RouteManager.getDistance` returns a distance below 75
for that target, and stays if the distance is 75 or more or the result is
`null`.  Only the current target is tested: the update depends on the routing
service through the one request for that target alone.  In general, the request
is made for the stop that is the target when `checkProximity` is called, and
when its answer is handled, on whatever state `p2` the page and `RouteManager`
have then, an answer below 75 sets the pointer to
`min(currentDestination + 1, optimizedRoute.length)` of that state, and any
other answer leaves it. -/
theorem positionUpdate_advances_on_arrival_only (api : Api) (p : RoutePage)
    (location : Coords) :
    ((RoutePage.positionUpdate api p location).rm.currentDestination = p.rm.currentDestination ∨
      ((RoutePage.positionUpdate api p location).rm.currentDestination
          = p.rm.currentDestination + 1 ∧
        p.rm.currentDestination + 1 ≤ p.rm.optimizedRoute.length)) ∧
    (∀ target, p.routeCompleted = false →
      p.rm.optimizedRoute[p.rm.currentDestination]? = some target →
      (RoutePage.positionUpdate api p location).rm.currentDestination =
        match (RouteManager.getDistance api p.clock location target.coords
            ((p.rm.optimizedRouteMethod[p.rm.currentDestination]?).join)).1 with
        | some d =>
          if d.distanceValue < 75 then p.rm.currentDestination + 1 else p.rm.currentDestination
        | none => p.rm.currentDestination) ∧
    (∀ api2 : Api,
      (∀ target, p.rm.optimizedRoute[p.rm.currentDestination]? = some target →
        api2 p.clock ⟨location, target.coords, none⟩
          = api p.clock ⟨location, target.coords, none⟩) →
      RoutePage.positionUpdate api2 p location = RoutePage.positionUpdate api p location) ∧
    (∀ target, p.routeCompleted = false →
      p.rm.optimizedRoute[p.rm.currentDestination]? = some target →
      (RoutePage.checkProximityBegin api { p with currentLocation := some location }).1
        = some (RouteManager.getDistance api p.clock location target.coords
            ((p.rm.optimizedRouteMethod[p.rm.currentDestination]?).join)).1) ∧
    (∀ (distanceData : Option ProximityData) (p2 : RoutePage),
      (RoutePage.checkProximityResume distanceData p2).rm.currentDestination =
        match distanceData with
        | some d =>
          if d.distanceValue < 75 then
            min (p2.rm.currentDestination + 1) p2.rm.optimizedRoute.length
          else p2.rm.currentDestination
        | none => p2.rm.currentDestination) := by
  have key : ∀ target, p.routeCompleted = false →
      p.rm.optimizedRoute[p.rm.currentDestination]? = some target →
      (RoutePage.positionUpdate api p location).rm.currentDestination =
        match (RouteManager.getDistance api p.clock location target.coords
            ((p.rm.optimizedRouteMethod[p.rm.currentDestination]?).join)).1 with
        | some d =>
          if d.distanceValue < 75 then p.rm.currentDestination + 1 else p.rm.currentDestination
        | none => p.rm.currentDestination := by
    intro target hc ht
    have hlt : p.rm.currentDestination < p.rm.optimizedRoute.length :=
      (List.getElem?_eq_some_iff.mp ht).1
    rw [RoutePage.positionUpdate_of_target api p location target hc ht,
      RoutePage.checkProximityResume_currentDestination]
    have hmin : min (p.rm.currentDestination + 1) p.rm.optimizedRoute.length
        = p.rm.currentDestination + 1 := by omega
    cases (RouteManager.getDistance api p.clock location target.coords
        ((p.rm.optimizedRouteMethod[p.rm.currentDestination]?).join)).1 with
    | none => rfl
    | some d => simp only [hmin]
  refine ⟨?_, key, ?_, ?_, RoutePage.checkProximityResume_currentDestination⟩
  · cases hc : p.routeCompleted with
    | true => left; rw [RoutePage.positionUpdate_of_no_target api p location (Or.inl hc)]
    | false =>
      cases ht : p.rm.optimizedRoute[p.rm.currentDestination]? with
      | none => left; rw [RoutePage.positionUpdate_of_no_target api p location (Or.inr ht)]
      | some target =>
        have hlt : p.rm.currentDestination < p.rm.optimizedRoute.length :=
          (List.getElem?_eq_some_iff.mp ht).1
        rw [key target hc ht]
        cases (RouteManager.getDistance api p.clock location target.coords
            ((p.rm.optimizedRouteMethod[p.rm.currentDestination]?).join)).1 with
        | none => left; rfl
        | some d =>
          by_cases hd : d.distanceValue < 75
          · right; simp only [hd, if_true]; exact ⟨trivial, hlt⟩
          · left; simp only [hd, if_false]
  · intro api2 hagree
    cases hc : p.routeCompleted with
    | true =>
      rw [RoutePage.positionUpdate_of_no_target api p location (Or.inl hc),
        RoutePage.positionUpdate_of_no_target api2 p location (Or.inl hc)]
    | false =>
      cases ht : p.rm.optimizedRoute[p.rm.currentDestination]? with
      | none =>
        rw [RoutePage.positionUpdate_of_no_target api p location (Or.inr ht),
          RoutePage.positionUpdate_of_no_target api2 p location (Or.inr ht)]
      | some target =>
        rw [RoutePage.positionUpdate_of_target api p location target hc ht,
          RoutePage.positionUpdate_of_target api2 p location target hc ht]
        simp only [RouteManager.getDistance, hagree target ht]
  · intro target hc ht
    have hlen : p.rm.optimizedRoute.length > 0 := by
      have := (List.getElem?_eq_some_iff.mp ht).1
      omega
    simp only [RoutePage.checkProximityBegin, hc, ht, hlen]
    simp

/-- C8 at the route A, B, C with B as the target: an update at B (distance 0)
moves the pointer from 1 to 2, an update one kilometre away leaves it at 1. -/
theorem positionUpdate_examples :
    (RoutePage.positionUpdate exampleApi pageABC ⟨1, 0⟩).rm.currentDestination = 2 ∧
      (RoutePage.positionUpdate exampleApi pageABC ⟨0, 0⟩).rm.currentDestination = 1 := by
  have h := fun l => (positionUpdate_advances_on_arrival_only exampleApi pageABC l).2.1 stopB
    (by decide) (by decide)
  exact ⟨(h ⟨1, 0⟩).trans (by decide), (h ⟨0, 0⟩).trans (by decide)⟩

/-- C8 fails as stated.  On the route A, B, C with B as the target, two position
updates at B whose requests are both made before either answer is handled move
the pointer from 1 to 3: the second answer, the distance 0 m to B, is handled
when the target is C, which is 1000 m away, and the route counts as completed.
And when `clearRoute()` runs while the request of one update at B is awaited, the
answer moves the pointer from 1 to `min(1 + 1, 0) = 0`. -/
theorem overlapping_updates_advance_on_stale_target :
    (RoutePage.overlappingUpdates exampleApi pageABC ⟨1, 0⟩ ⟨1, 0⟩).rm.currentDestination = 3 ∧
      (RoutePage.overlappingUpdates exampleApi pageABC ⟨1, 0⟩ ⟨1, 0⟩).routeCompleted = true ∧
      pageABC.rm.optimizedRoute[2]? = some stopC ∧
      (RouteManager.getDistance exampleApi 2 ⟨1, 0⟩ stopC.coords (some "driving")).1
        = some ⟨1000, 100, some "driving"⟩ ∧
      RoutePage.checkProximityBegin exampleApi { pageABC with currentLocation := some ⟨1, 0⟩ }
        = (some (some ⟨0, 0, some "driving"⟩),
            { pageABC with currentLocation := some ⟨1, 0⟩, clock := 1 }) ∧
      (RoutePage.checkProximityResume (some ⟨0, 0, some "driving"⟩)
        { pageABC with
          currentLocation := some ⟨1, 0⟩
          clock := 1
          rm := pageABC.rm.clearRoute }).rm.currentDestination = 0 := by
  decide

/-! ## Completion -/

namespace RoutePage

theorem checkProximityResume_cases (d : Option ProximityData) (p : RoutePage) :
    checkProximityResume d p = p ∨
      (∃ next, next ≠ p.rm.optimizedRoute.length ∧
        checkProximityResume d p = { p with rm := { p.rm with currentDestination := next } }) ∨
      checkProximityResume d p =
        { handleLastDestination p with
          rm := { (handleLastDestination p).rm with
            currentDestination := p.rm.optimizedRoute.length } } := by
  cases d with
  | none => left; rfl
  | some d =>
    simp only [checkProximityResume]
    by_cases hd : d.distanceValue < 75
    · simp only [hd, if_true]
      by_cases hn : min (p.rm.currentDestination + 1) p.rm.optimizedRoute.length
          = p.rm.optimizedRoute.length
      · right; right
        simp only [hn, if_true]
      · right; left
        exact ⟨_, hn, by simp only [hn, if_false]⟩
    · left
      simp only [hd, if_false]

/-- A position update handled to its end either leaves the completion state and
the history as they were, or it is the completing update: the page was not
completed, now it is, `routeStarted` is false, the pointer equals
`optimizedRoute.length`, and the history has one document more. -/
theorem positionUpdate_completes_or_not (api : Api) (p : RoutePage) (location : Coords) :
    ((positionUpdate api p location).routeCompleted = p.routeCompleted ∧
      (positionUpdate api p location).routeHistory = p.routeHistory ∧
      (p.rm.currentDestination ≠ p.rm.optimizedRoute.length →
        (positionUpdate api p location).rm.currentDestination
          ≠ (positionUpdate api p location).rm.optimizedRoute.length)) ∨
    (p.routeCompleted = false ∧
      (positionUpdate api p location).routeCompleted = true ∧
      (positionUpdate api p location).rm.routeStarted = false ∧
      (positionUpdate api p location).rm.currentDestination
        = (positionUpdate api p location).rm.optimizedRoute.length ∧
      (positionUpdate api p location).routeHistory.length = p.routeHistory.length + 1) := by
  cases hc : p.routeCompleted with
  | true =>
    left
    rw [positionUpdate_of_no_target api p location (Or.inl hc)]
    exact ⟨hc, rfl, fun h => h⟩
  | false =>
    cases ht : p.rm.optimizedRoute[p.rm.currentDestination]? with
    | none =>
      left
      rw [positionUpdate_of_no_target api p location (Or.inr ht)]
      exact ⟨hc, rfl, fun h => h⟩
    | some target =>
      rw [positionUpdate_of_target api p location target hc ht]
      rcases checkProximityResume_cases
        (RouteManager.getDistance api p.clock location target.coords
          ((p.rm.optimizedRouteMethod[p.rm.currentDestination]?).join)).1
        { p with
          currentLocation := some location
          clock := (RouteManager.getDistance api p.clock location target.coords
            ((p.rm.optimizedRouteMethod[p.rm.currentDestination]?).join)).2 }
        with h | ⟨next, hn, h⟩ | h
      · left
        rw [h]
        exact ⟨hc, rfl, fun h => h⟩
      · left
        rw [h]
        exact ⟨hc, rfl, fun _ => hn⟩
      · right
        rw [h]
        refine ⟨rfl, rfl, rfl, rfl, ?_⟩
        simp [handleLastDestination]

/-- Position updates handled one after the other, each to its end, call
`handleLastDestination` at most once: the history grows by at most one
document, and by none once the page is completed. -/
theorem sequential_updates_complete_at_most_once (api : Api) (locations : List Coords) :
    ∀ p : RoutePage,
      (p.routeCompleted = true →
        (locations.foldl (positionUpdate api) p).routeHistory = p.routeHistory) ∧
      (locations.foldl (positionUpdate api) p).routeHistory.length
        ≤ p.routeHistory.length + 1 := by
  induction locations with
  | nil => intro p; exact ⟨fun _ => rfl, Nat.le_succ _⟩
  | cons l ls ih =>
    intro p
    rw [List.foldl_cons]
    rcases positionUpdate_completes_or_not api p l with ⟨h1, h2, _⟩ | ⟨h0, h1, _, _, h4⟩
    · constructor
      · intro hp
        rw [(ih _).1 (h1.trans hp), h2]
      · rw [← h2]; exact (ih _).2
    · constructor
      · intro hp; rw [hp] at h0; cases h0
      · rw [(ih _).1 h1, h4]

end RoutePage

/-- C9, the code at its failing input: on the route A, B with B as the last
target, two position updates at B whose requests are both in flight before
either answer is handled call `handleLastDestination` twice (two history
documents), while the same two updates handled one after the other call it
once. -/
theorem completion_handler_runs_twice_when_updates_overlap :
    (RoutePage.overlappingUpdates exampleApi pageAB ⟨1, 0⟩ ⟨1, 0⟩).routeHistory.length = 2 ∧
      (RoutePage.overlappingUpdates exampleApi pageAB ⟨1, 0⟩ ⟨1, 0⟩).rm.routeStarted = false ∧
      (RoutePage.overlappingUpdates exampleApi pageAB ⟨1, 0⟩ ⟨1, 0⟩).rm.currentDestination = 2 ∧
      ([(⟨1, 0⟩ : Coords), ⟨1, 0⟩].foldl (RoutePage.positionUpdate exampleApi)
        pageAB).routeHistory.length = 1 := by
  decide

/-! ## Facts about the cost query -/

namespace DistanceService

theorem tryMethod_finite (api : Api) (origin destination : Coords) (mode : String)
    (acc : Best × Nat) (currentMethod : String) (h : acc.1.Finite) :
    (tryMethod api origin destination mode acc currentMethod).1.Finite := by
  unfold tryMethod
  split
  · split
    · split
      · split
        · intro _; exact ⟨⟨_, rfl⟩, ⟨_, rfl⟩⟩
        · split
          · intro _; exact ⟨⟨_, rfl⟩, ⟨_, rfl⟩⟩
          · exact h
      · exact h
    · exact h
  · exact h

theorem foldl_tryMethod_finite (api : Api) (origin destination : Coords) (mode : String)
    (methods : List String) :
    ∀ acc : Best × Nat, acc.1.Finite →
      (methods.foldl (tryMethod api origin destination mode) acc).1.Finite := by
  induction methods with
  | nil => intro acc h; exact h
  | cons m ms ih =>
    intro acc h
    rw [List.foldl_cons]
    exact ih _ (tryMethod_finite api origin destination mode acc m h)

/-- A successful cost query returns a finite distance and a finite duration. -/
theorem getDistance_finite (api : Api) (t : Nat) (origin destination : Coords)
    (method mode : String) (d : DistanceData)
    (h : (getDistance api t origin destination method mode).1 = some d) :
    (∃ x, d.distanceValue = .fin x) ∧ (∃ y, d.durationValue = .fin y) := by
  have hf := foldl_tryMethod_finite api origin destination mode (transportMethods method)
    (⟨.inf, .inf, none⟩, t) (fun hne => absurd rfl hne)
  unfold getDistance at h
  simp only at h
  split at h
  · rename_i m hm
    split at h
    · simp only [Option.some.injEq] at h
      subst h
      exact hf (by rw [hm]; simp)
    · cases h
  · cases h

theorem tryMethod_clock (api : Api) (origin destination : Coords) (mode : String)
    (b : Best) (t u : Nat) (m : String) (hconst : ∀ t u q, api t q = api u q) :
    (tryMethod api origin destination mode (b, t) m).1
      = (tryMethod api origin destination mode (b, u) m).1 := by
  unfold tryMethod
  simp only
  rw [hconst t u]
  split
  · split
    · split
      · split
        · rfl
        · split <;> rfl
      · rfl
    · rfl
  · rfl

theorem foldl_tryMethod_clock (api : Api) (origin destination : Coords) (mode : String)
    (hconst : ∀ t u q, api t q = api u q) (methods : List String) :
    ∀ (b : Best) (t u : Nat),
      (methods.foldl (tryMethod api origin destination mode) (b, t)).1
        = (methods.foldl (tryMethod api origin destination mode) (b, u)).1 := by
  induction methods with
  | nil => intro b t u; rfl
  | cons m ms ih =>
    intro b t u
    simp only [List.foldl_cons]
    have h := tryMethod_clock api origin destination mode b t u m hconst
    have e1 : tryMethod api origin destination mode (b, t) m
        = ((tryMethod api origin destination mode (b, t) m).1,
            (tryMethod api origin destination mode (b, t) m).2) := rfl
    have e2 : tryMethod api origin destination mode (b, u) m
        = ((tryMethod api origin destination mode (b, u) m).1,
            (tryMethod api origin destination mode (b, u) m).2) := rfl
    rw [e1, e2, h]
    exact ih _ _ _

/-- With a routing service that answers a request the same way at all times, the
result of a cost query does not depend on when it is made. -/
theorem getDistance_clock (api : Api) (hconst : ∀ t u q, api t q = api u q) (t u : Nat)
    (origin destination : Coords) (method mode : String) :
    (getDistance api t origin destination method mode).1
      = (getDistance api u origin destination method mode).1 := by
  unfold getDistance
  simp only
  rw [foldl_tryMethod_clock api origin destination mode hconst (transportMethods method) _ t u]
  split
  · split <;> rfl
  · rfl

end DistanceService

/-! ## Nearest neighbour: the scan of one round -/

namespace NearestNeighbour

theorem scanStep_cases (api : Api) (route : List Destination) (mode transportMethod : String)
    (cur : Nat) (visited : List Nat) (acc : Scan × Nat) (i : Nat) :
    (scanStep api route mode transportMethod cur visited acc i).1 = acc.1 ∨
      (i ≠ cur ∧ i ∉ visited ∧
        ∃ a b d, route[cur]? = some a ∧ route[i]? = some b ∧
          (DistanceService.getDistance api acc.2 a.coords b.coords transportMethod mode).1
            = some d ∧
          (scanStep api route mode transportMethod cur visited acc i).1
            = ⟨d.distanceValue, some i, d.durationValue, some d.transportMethod⟩) := by
  unfold scanStep
  split
  · rename_i hcand
    split
    · rename_i a b ha hb
      simp only
      split
      · rename_i d hd
        split
        · right; exact ⟨hcand.1, hcand.2, a, b, d, ha, hb, hd, rfl⟩
        · split
          · right; exact ⟨hcand.1, hcand.2, a, b, d, ha, hb, hd, rfl⟩
          · left; rfl
      · left; rfl
    · left; rfl
  · left; rfl

theorem scanStep_good (api : Api) (route : List Destination) (mode transportMethod : String)
    (cur : Nat) (visited : List Nat) (acc : Scan × Nat) (i : Nat)
    (h : acc.1.Good route cur visited) :
    (scanStep api route mode transportMethod cur visited acc i).1.Good route cur visited := by
  rcases scanStep_cases api route mode transportMethod cur visited acc i with
    h1 | ⟨hc, hv, a, b, d, _, hb, _, h1⟩
  · rw [h1]; exact h
  · rw [h1]
    refine ⟨fun hn => (by cases hn), ?_⟩
    intro j hj
    simp only [Option.some.injEq] at hj
    subst hj
    exact ⟨(List.getElem?_eq_some_iff.mp hb).1, hv, hc⟩

theorem scanStep_fromQuery (api : Api)
    (route : List Destination) (mode transportMethod : String)
    (cur : Nat) (visited : List Nat) (acc : Scan × Nat) (i : Nat)
    (h : acc.1.FromQuery api route mode transportMethod cur) :
    (scanStep api route mode transportMethod cur visited acc i).1.FromQuery api route mode
      transportMethod cur := by
  rcases scanStep_cases api route mode transportMethod cur visited acc i with
    h1 | ⟨_, _, a, b, d, ha, hb, hd, h1⟩
  · rw [h1]; exact h
  · rw [h1]
    intro j hj
    simp only [Option.some.injEq] at hj
    subst hj
    exact ⟨acc.2, a, b, d, ha, hb, hd, rfl, rfl⟩

theorem scanStep_keeps_candidate (api : Api) (route : List Destination)
    (mode transportMethod : String) (cur : Nat) (visited : List Nat) (acc : Scan × Nat) (i : Nat)
    (h : acc.1.nearestCityIndex ≠ none) :
    (scanStep api route mode transportMethod cur visited acc i).1.nearestCityIndex ≠ none := by
  rcases scanStep_cases api route mode transportMethod cur visited acc i with
    h1 | ⟨_, _, a, b, d, _, _, _, h1⟩
  · rw [h1]; exact h
  · rw [h1]; simp

/-- A candidate whose query succeeds leaves the scan with a nearest city. -/
theorem scanStep_finds (api : Api) (route : List Destination) (mode transportMethod : String)
    (cur : Nat) (visited : List Nat) (acc : Scan × Nat) (i : Nat) (a b : Destination)
    (hmode : mode = "time" ∨ mode = "distance")
    (hgood : acc.1.Good route cur visited)
    (hc : i ≠ cur) (hv : i ∉ visited) (ha : route[cur]? = some a) (hb : route[i]? = some b)
    (havail : (DistanceService.getDistance api acc.2 a.coords b.coords transportMethod mode).1
      ≠ none) :
    (scanStep api route mode transportMethod cur visited acc i).1.nearestCityIndex ≠ none := by
  by_cases hacc : acc.1.nearestCityIndex = none
  · obtain ⟨d, hd⟩ := Option.ne_none_iff_exists'.mp havail
    obtain ⟨⟨x, hx⟩, ⟨y, hy⟩⟩ := DistanceService.getDistance_finite api _ _ _ _ _ d hd
    have hinf := hgood.1 hacc
    unfold scanStep
    simp only [hc, hv, ha, hb, hd, hinf.1, hinf.2, hx, hy, ne_eq, not_false_eq_true, and_self,
      if_true, JSNum.fin_lt_inf, and_true]
    rcases hmode with hm | hm
    · subst hm
      simp
    · subst hm
      simp
  · exact scanStep_keeps_candidate api route mode transportMethod cur visited acc i hacc

theorem foldl_scanStep_good (api : Api) (route : List Destination) (mode transportMethod : String)
    (cur : Nat) (visited : List Nat) (is : List Nat) :
    ∀ acc : Scan × Nat, acc.1.Good route cur visited →
      (is.foldl (scanStep api route mode transportMethod cur visited) acc).1.Good route cur
        visited := by
  induction is with
  | nil => intro acc h; exact h
  | cons i is ih =>
    intro acc h
    rw [List.foldl_cons]
    exact ih _ (scanStep_good api route mode transportMethod cur visited acc i h)

theorem foldl_scanStep_fromQuery (api : Api)
    (route : List Destination) (mode transportMethod : String)
    (cur : Nat) (visited : List Nat) (is : List Nat) :
    ∀ acc : Scan × Nat, acc.1.FromQuery api route mode transportMethod cur →
      (is.foldl (scanStep api route mode transportMethod cur visited) acc).1.FromQuery api route
        mode transportMethod cur := by
  induction is with
  | nil => intro acc h; exact h
  | cons i is ih =>
    intro acc h
    rw [List.foldl_cons]
    exact ih _ (scanStep_fromQuery api route mode transportMethod cur visited acc i h)

theorem foldl_scanStep_keeps_candidate (api : Api) (route : List Destination)
    (mode transportMethod : String) (cur : Nat) (visited : List Nat) (is : List Nat) :
    ∀ acc : Scan × Nat, acc.1.nearestCityIndex ≠ none →
      (is.foldl (scanStep api route mode transportMethod cur visited) acc).1.nearestCityIndex
        ≠ none := by
  induction is with
  | nil => intro acc h; exact h
  | cons i is ih =>
    intro acc h
    rw [List.foldl_cons]
    exact ih _ (scanStep_keeps_candidate api route mode transportMethod cur visited acc i h)

theorem foldl_scanStep_finds (api : Api) (route : List Destination)
    (mode transportMethod : String) (cur : Nat) (visited : List Nat) (a : Destination)
    (hmode : mode = "time" ∨ mode = "distance") (ha : route[cur]? = some a)
    (havail : ∀ t j (hj : j < route.length), j ≠ cur →
      (DistanceService.getDistance api t a.coords route[j].coords transportMethod mode).1 ≠ none)
    (is : List Nat) :
    ∀ acc : Scan × Nat, acc.1.Good route cur visited →
      (∃ i ∈ is, i ≠ cur ∧ i ∉ visited ∧ i < route.length) →
      (is.foldl (scanStep api route mode transportMethod cur visited) acc).1.nearestCityIndex
        ≠ none := by
  induction is with
  | nil => intro acc _ ⟨i, hi, _⟩; cases hi
  | cons k ks ih =>
    intro acc hgood ⟨i, hi, hc, hv, hlt⟩
    rw [List.foldl_cons]
    rcases List.mem_cons.mp hi with hik | hik
    · subst hik
      apply foldl_scanStep_keeps_candidate
      have hb : route[i]? = some route[i] := List.getElem?_eq_getElem hlt
      exact scanStep_finds api route mode transportMethod cur visited acc i a route[i] hmode
        hgood hc hv ha hb (havail _ i hlt hc)
    · exact ih _ (scanStep_good api route mode transportMethod cur visited acc k hgood)
        ⟨i, hik, hc, hv, hlt⟩

theorem scan_good (api : Api) (route : List Destination) (mode transportMethod : String)
    (cur : Nat) (visited : List Nat) (clock : Nat) :
    (scan api route mode transportMethod cur visited clock).1.Good route cur visited :=
  foldl_scanStep_good api route mode transportMethod cur visited _ _
    ⟨fun _ => ⟨rfl, rfl⟩, fun j hj => by cases hj⟩

theorem scan_fromQuery (api : Api)
    (route : List Destination) (mode transportMethod : String)
    (cur : Nat) (visited : List Nat) (clock : Nat) :
    (scan api route mode transportMethod cur visited clock).1.FromQuery api route mode
      transportMethod cur :=
  foldl_scanStep_fromQuery api route mode transportMethod cur visited _ _
    (fun j hj => by cases hj)

theorem scan_finds (api : Api) (route : List Destination) (mode transportMethod : String)
    (cur : Nat) (visited : List Nat) (clock : Nat) (a : Destination)
    (hmode : mode = "time" ∨ mode = "distance") (ha : route[cur]? = some a)
    (havail : ∀ t j (hj : j < route.length), j ≠ cur →
      (DistanceService.getDistance api t a.coords route[j].coords transportMethod mode).1 ≠ none)
    (i : Nat) (hc : i ≠ cur) (hv : i ∉ visited) (hlt : i < route.length) :
    (scan api route mode transportMethod cur visited clock).1.nearestCityIndex ≠ none :=
  foldl_scanStep_finds api route mode transportMethod cur visited a hmode ha havail _ _
    ⟨fun _ => ⟨rfl, rfl⟩, fun j hj => by cases hj⟩
    ⟨i, List.mem_range.mpr hlt, hc, hv, hlt⟩

end NearestNeighbour

/-! ## Nearest neighbour: rounds and the loop -/

theorem legTotalsQueried_append (api : Api) (mode transportMethod : String)
    (b : Destination) (d : DistanceData) :
    ∀ (l : List Destination) (a : Destination) (total : JSNum × JSNum) (t : Nat),
      l.getLast? = some a →
      (DistanceService.getDistance api t a.coords b.coords transportMethod mode).1 = some d →
      legTotalsQueried api mode transportMethod l total →
      legTotalsQueried api mode transportMethod (l ++ [b])
        (total.1 + d.distanceValue, total.2 + d.durationValue) := by
  intro l
  induction l with
  | nil => intro a total t h; cases h
  | cons x xs ih =>
    intro a total t hlast hcost htot
    cases xs with
    | nil =>
      simp only [List.getLast?_singleton, Option.some.injEq] at hlast
      subst hlast
      simp only [legTotalsQueried] at htot
      subst htot
      show legTotalsQueried api mode transportMethod [x, b] _
      refine ⟨t, d, (0, 0), hcost, rfl, ?_⟩
      show ((0 : JSNum) + d.distanceValue, (0 : JSNum) + d.durationValue)
        = (d.distanceValue + (0 : JSNum), d.durationValue + (0 : JSNum))
      rw [JSNum.add_zero, JSNum.add_zero, JSNum.zero_add, JSNum.zero_add]
    | cons y ys =>
      have hlast2 : (y :: ys).getLast? = some a := by
        rw [List.getLast?_cons_cons] at hlast
        exact hlast
      obtain ⟨t1, d1, sub, hq, hsub, htotal⟩ := htot
      subst htotal
      have h := ih a sub t hlast2 hcost hsub
      show legTotalsQueried api mode transportMethod (x :: y :: (ys ++ [b])) _
      refine ⟨t1, d1, (sub.1 + d.distanceValue, sub.2 + d.durationValue), hq, h, ?_⟩
      simp only [JSNum.add_assoc]

/-- With a routing service whose answers do not change over time, totals over
queried legs are the leg sums of the one cost query `legCost`. -/
theorem legTotalsQueried_const (api : Api) (hconst : ∀ t u q, api t q = api u q)
    (mode transportMethod : String) :
    ∀ (l : List Destination) (total : JSNum × JSNum),
      legTotalsQueried api mode transportMethod l total →
      legTotals (legCost api mode transportMethod) l = some total := by
  intro l
  induction l with
  | nil =>
    intro total h
    simp only [legTotalsQueried] at h
    rw [h]
    rfl
  | cons x xs ih =>
    intro total h
    cases xs with
    | nil =>
      simp only [legTotalsQueried] at h
      rw [h]
      rfl
    | cons y ys =>
      obtain ⟨t, d, sub, hq, hsub, htotal⟩ := h
      rw [DistanceService.getDistance_clock api hconst t 0] at hq
      have hrest := ih sub hsub
      simp only [legTotals, legCost, hq, hrest, htotal]

namespace NearestNeighbour

theorem round_cases (api : Api) (route : List Destination) (mode transportMethod : String)
    (s : State) :
    ((scan api route mode transportMethod s.currentCityIndex s.visitedCities s.clock).1.nearestCityIndex
        = none ∧
      round api route mode transportMethod s
        = { s with clock := (scan api route mode transportMethod s.currentCityIndex
              s.visitedCities s.clock).2 }) ∨
    (∃ j, (scan api route mode transportMethod s.currentCityIndex s.visitedCities
          s.clock).1.nearestCityIndex = some j ∧
      round api route mode transportMethod s =
        { currentCityIndex := j
          visitedCities := setAdd s.visitedCities j
          totalDistance := s.totalDistance + (scan api route mode transportMethod
            s.currentCityIndex s.visitedCities s.clock).1.minDistance
          totalTime := s.totalTime + (scan api route mode transportMethod
            s.currentCityIndex s.visitedCities s.clock).1.minDuration
          optimizedRoute := s.optimizedRoute ++ (route[j]?).toList
          optimizedRouteMethod := s.optimizedRouteMethod ++
            [(scan api route mode transportMethod s.currentCityIndex s.visitedCities
              s.clock).1.bestMethod]
          clock := (scan api route mode transportMethod s.currentCityIndex s.visitedCities
            s.clock).2 }) := by
  cases h : (scan api route mode transportMethod s.currentCityIndex s.visitedCities
      s.clock).1.nearestCityIndex with
  | none => left; exact ⟨rfl, by simp only [round, h]⟩
  | some j => right; exact ⟨j, rfl, by simp only [round, h]⟩

theorem round_good (api : Api) (route : List Destination) (mode transportMethod : String)
    (s : State) (h : s.Good route) : (round api route mode transportMethod s).Good route := by
  rcases round_cases api route mode transportMethod s with ⟨_, hr⟩ | ⟨j, hj, hr⟩
  · rw [hr]
    exact ⟨h.nodup, h.bound, h.current, h.order, h.methods, h.first, h.methodsFirst, h.last⟩
  · have hg := (scan_good api route mode transportMethod s.currentCityIndex s.visitedCities
      s.clock).2 j hj
    have hjr : route[j]? = some route[j] := List.getElem?_eq_getElem hg.1
    have hadd : setAdd s.visitedCities j = s.visitedCities ++ [j] := by
      simp only [setAdd, hg.2.1, if_false]
    have hne : s.visitedCities ≠ [] := fun hnil => by
      have := h.current
      rw [hnil] at this
      cases this
    rw [hr]
    refine ⟨?_, ?_, ?_, ?_, ?_, ?_, ?_, ?_⟩
    · show (setAdd s.visitedCities j).Nodup
      rw [hadd]
      exact List.Nodup.append h.nodup (List.nodup_singleton j)
        (fun a ha hb => by
          rw [List.mem_singleton] at hb
          subst hb
          exact hg.2.1 ha)
    · show ∀ i ∈ setAdd s.visitedCities j, i < route.length
      rw [hadd]
      intro i hi
      rcases List.mem_append.mp hi with hi | hi
      · exact h.bound i hi
      · rw [List.mem_singleton.mp hi]; exact hg.1
    · show j ∈ setAdd s.visitedCities j
      rw [hadd]
      simp
    · show s.optimizedRoute ++ (route[j]?).toList
        = (setAdd s.visitedCities j).filterMap (fun i => route[i]?)
      rw [hadd, List.filterMap_append, ← h.order, hjr]
      simp [List.filterMap, hjr]
    · show (s.optimizedRouteMethod ++ [_]).length = (s.optimizedRoute ++ (route[j]?).toList).length
      rw [hjr]
      simp [h.methods]
    · show (setAdd s.visitedCities j).head? = some 0
      rw [hadd, List.head?_append_of_ne_nil _ hne]
      exact h.first
    · show (s.optimizedRouteMethod ++ [_]).head? = some (some "none")
      have hm : s.optimizedRouteMethod ≠ [] := fun hnil => by
        have := h.methodsFirst
        rw [hnil] at this
        cases this
      rw [List.head?_append_of_ne_nil _ hm]
      exact h.methodsFirst
    · show (s.optimizedRoute ++ (route[j]?).toList).getLast? = route[j]?
      rw [hjr]
      simp

theorem round_length (api : Api) (route : List Destination) (mode transportMethod : String)
    (s : State) :
    ((scan api route mode transportMethod s.currentCityIndex s.visitedCities
        s.clock).1.nearestCityIndex = none →
      (round api route mode transportMethod s).visitedCities = s.visitedCities) ∧
    ((scan api route mode transportMethod s.currentCityIndex s.visitedCities
        s.clock).1.nearestCityIndex ≠ none →
      (round api route mode transportMethod s).visitedCities.length
        = s.visitedCities.length + 1) := by
  rcases round_cases api route mode transportMethod s with ⟨hn, hr⟩ | ⟨j, hj, hr⟩
  · exact ⟨fun _ => by rw [hr], fun h => absurd hn h⟩
  · have hg := (scan_good api route mode transportMethod s.currentCityIndex s.visitedCities
      s.clock).2 j hj
    refine ⟨fun h => (by rw [hj] at h; cases h), fun _ => ?_⟩
    rw [hr]
    show (setAdd s.visitedCities j).length = _
    simp [setAdd, hg.2.1]

theorem round_totals (api : Api)
    (route : List Destination) (mode transportMethod : String)
    (s : State) (hg : s.Good route) (h : s.Totals api mode transportMethod) :
    (round api route mode transportMethod s).Totals api mode transportMethod := by
  rcases round_cases api route mode transportMethod s with ⟨_, hr⟩ | ⟨j, hj, hr⟩
  · rw [hr]; exact h
  · obtain ⟨t, a, b, d, ha, hb, hd, hdist, hdur⟩ :=
      scan_fromQuery api route mode transportMethod s.currentCityIndex s.visitedCities
        s.clock j hj
    rw [hr]
    show legTotalsQueried api mode transportMethod (s.optimizedRoute ++ (route[j]?).toList)
      (s.totalDistance + _, s.totalTime + _)
    rw [hb, hdist, hdur]
    have hlast : s.optimizedRoute.getLast? = some a := by rw [hg.last, ha]
    exact legTotalsQueried_append api mode transportMethod b d s.optimizedRoute a
      (s.totalDistance, s.totalTime) t hlast hd h

/-- A property that every round keeps holds of the state the loop returns, and
the loop returns only when every index is visited. -/
theorem loop_invariant (api : Api) (route : List Destination) (mode transportMethod : String)
    (P : State → Prop) (hround : ∀ s, P s → P (round api route mode transportMethod s)) :
    ∀ (fuel : Nat) (s s2 : State), P s →
      loop api route mode transportMethod fuel s = .ok s2 →
      P s2 ∧ ¬ s2.visitedCities.length < route.length := by
  intro fuel
  induction fuel with
  | zero =>
    intro s s2 hP h
    unfold loop at h
    split at h
    · cases h
    · rename_i hlen
      simp only [Run.ok.injEq] at h
      subst h
      exact ⟨hP, hlen⟩
  | succ f ih =>
    intro s s2 hP h
    unfold loop at h
    split at h
    · exact ih _ _ (hround s hP) h
    · rename_i hlen
      simp only [Run.ok.injEq] at h
      subst h
      exact ⟨hP, hlen⟩

theorem init_good (route : List Destination) (clock : Nat) (h : 1 ≤ route.length) :
    (init route clock).Good route := by
  have h0 : route[0]? = some route[0] := List.getElem?_eq_getElem h
  refine ⟨by simp [init], ?_, by simp [init], ?_, ?_, rfl, rfl, ?_⟩
  · intro i hi
    simp only [init, List.mem_singleton] at hi
    omega
  · simp [init, List.filterMap, h0]
  · simp [init, h0]
  · simp [init, h0]

theorem init_totals (api : Api) (route : List Destination) (mode transportMethod : String)
    (clock : Nat) : (init route clock).Totals api mode transportMethod := by
  unfold State.Totals init
  cases route[0]? with
  | none => simp [legTotalsQueried]
  | some a => simp [legTotalsQueried]

theorem State.Good.length_le {route : List Destination} {s : State} (h : s.Good route) :
    s.visitedCities.length ≤ route.length := by
  have hsub : s.visitedCities ⊆ List.range route.length :=
    fun i hi => List.mem_range.mpr (h.bound i hi)
  simpa using (List.subperm_of_subset h.nodup hsub).length_le

theorem State.Good.exists_unvisited {route : List Destination} {s : State} (_ : s.Good route)
    (hlt : s.visitedCities.length < route.length) :
    ∃ i, i < route.length ∧ i ∉ s.visitedCities := by
  by_contra hno
  push_neg at hno
  have hsub : List.range route.length ⊆ s.visitedCities :=
    fun i hi => hno i (List.mem_range.mp hi)
  have := (List.subperm_of_subset (List.nodup_range route.length) hsub).length_le
  simp at this
  omega

end NearestNeighbour

/-! ## Nearest neighbour: the order and the totals -/

theorem filterMap_range_getElem? (l : List Destination) :
    (List.range l.length).filterMap (fun i => l[i]?) = l := by
  induction l with
  | nil => rfl
  | cons x xs ih =>
    rw [List.length_cons, List.range_succ_eq_map, List.filterMap_cons]
    simp only [List.getElem?_cons_zero, List.filterMap_map]
    have hcomp : ((fun i => (x :: xs)[i]?) ∘ Nat.succ) = fun i => xs[i]? := by
      funext i
      simp
    rw [hcomp, ih]

namespace NearestNeighbour

theorem State.Good.perm {route : List Destination} {s : State} (h : s.Good route)
    (hlen : s.visitedCities.length = route.length) : s.optimizedRoute.Perm route := by
  have hsub : s.visitedCities ⊆ List.range route.length :=
    fun i hi => List.mem_range.mpr (h.bound i hi)
  have hperm : s.visitedCities.Perm (List.range route.length) :=
    (List.subperm_of_subset h.nodup hsub).perm_of_length_le (by simp [hlen])
  rw [h.order]
  have := hperm.filterMap (fun i => route[i]?)
  rwa [filterMap_range_getElem?] at this

theorem State.Good.head {route : List Destination} {s : State} (h : s.Good route)
    (hn : 1 ≤ route.length) : s.optimizedRoute.head? = route.head? := by
  have h0 : route[0]? = some route[0] := List.getElem?_eq_getElem hn
  rw [h.order]
  cases hv : s.visitedCities with
  | nil =>
    have := h.first
    rw [hv] at this
    cases this
  | cons v vs =>
    have := h.first
    rw [hv] at this
    simp only [List.head?_cons, Option.some.injEq] at this
    subst this
    rw [List.filterMap_cons, h0]
    cases route with
    | nil => cases hn
    | cons x xs => rfl

/-- With every queried pair available, the loop from a good state runs exactly
`route.length - visitedCities.size` rounds: less fuel does not suffice, that
much does, and then every index is visited. -/
theorem loop_exact (api : Api) (route : List Destination) (mode transportMethod : String)
    (hmode : mode = "time" ∨ mode = "distance")
    (havail : ∀ t i j (hi : i < route.length) (hj : j < route.length), i ≠ j →
      (DistanceService.getDistance api t route[i].coords route[j].coords transportMethod
        mode).1 ≠ none) :
    ∀ (fuel : Nat) (s : State), s.Good route →
      (route.length - s.visitedCities.length ≤ fuel →
        ∃ s2, loop api route mode transportMethod fuel s = .ok s2 ∧ s2.Good route ∧
          s2.visitedCities.length = route.length) ∧
      (fuel < route.length - s.visitedCities.length →
        loop api route mode transportMethod fuel s = .outOfFuel) := by
  intro fuel
  induction fuel with
  | zero =>
    intro s hg
    have hle := hg.length_le
    unfold loop
    by_cases hlt : s.visitedCities.length < route.length
    · simp only [hlt, if_true]
      exact ⟨fun h => by omega, fun _ => by trivial⟩
    · simp only [hlt, if_false]
      exact ⟨fun _ => ⟨s, rfl, hg, by omega⟩, fun h => by omega⟩
  | succ f ih =>
    intro s hg
    have hle := hg.length_le
    unfold loop
    by_cases hlt : s.visitedCities.length < route.length
    · simp only [hlt, if_true]
      obtain ⟨i, hi, hiv⟩ := hg.exists_unvisited hlt
      have hcur : s.currentCityIndex < route.length := hg.bound _ hg.current
      have ha : route[s.currentCityIndex]? = some route[s.currentCityIndex] :=
        List.getElem?_eq_getElem hcur
      have hic : i ≠ s.currentCityIndex := fun h => hiv (h ▸ hg.current)
      have hfound := scan_finds api route mode transportMethod s.currentCityIndex
        s.visitedCities s.clock route[s.currentCityIndex] hmode ha
        (fun t j hj hjc => havail t _ j hcur hj (Ne.symm hjc)) i hic hiv hi
      have hlen := (round_length api route mode transportMethod s).2 hfound
      have h1 := ih (round api route mode transportMethod s)
        (round_good api route mode transportMethod s hg)
      rw [hlen] at h1
      exact ⟨fun h => h1.1 (by omega), fun h => h1.2 (by omega)⟩
    · simp only [hlt, if_false]
      exact ⟨fun _ => ⟨s, rfl, hg, by omega⟩, fun h => by omega⟩

end NearestNeighbour

/-- C2: for a route of `n >= 1` stops, a mode among `time` and `distance`, and a
routing service under which every cost query between two different positions
of the route succeeds whenever it is made, `nearestNeighbourSolution` ends after exactly
`n - 1` rounds (fewer rounds of fuel run out, `n - 1` or more return), and the
order returned is a permutation of the route, of the same length, whose first
element is `route[0]`. -/
theorem nearestNeighbour_returns_permutation (api : Api) (clock : Nat)
    (route : List Destination) (mode transportMethod : String)
    (hn : 1 ≤ route.length) (hmode : mode = "time" ∨ mode = "distance")
    (havail : ∀ t i j (hi : i < route.length) (hj : j < route.length), i ≠ j →
      (DistanceService.getDistance api t route[i].coords route[j].coords transportMethod
        mode).1 ≠ none) :
    (∀ fuel, fuel < route.length - 1 →
      NearestNeighbour.nearestNeighbourSolution api fuel clock route mode transportMethod
        = .outOfFuel) ∧
    (∀ fuel, route.length - 1 ≤ fuel →
      ∃ r c, NearestNeighbour.nearestNeighbourSolution api fuel clock route mode transportMethod
          = .ok (r, c) ∧
        r.optimizedRoute.Perm route ∧ r.optimizedRoute.length = route.length ∧
        r.optimizedRoute.head? = route.head?) := by
  have hinit := NearestNeighbour.init_good route clock hn
  have hvis : (NearestNeighbour.init route clock).visitedCities.length = 1 := rfl
  constructor
  · intro fuel hf
    have h := (NearestNeighbour.loop_exact api route mode transportMethod hmode havail fuel _
      hinit).2 (by rw [hvis]; exact hf)
    simp only [NearestNeighbour.nearestNeighbourSolution, h]
  · intro fuel hf
    obtain ⟨s2, hs2, hg, hlen⟩ :=
      (NearestNeighbour.loop_exact api route mode transportMethod hmode havail fuel _ hinit).1
        (by rw [hvis]; exact hf)
    refine ⟨⟨s2.optimizedRoute, s2.totalDistance, s2.totalTime, s2.optimizedRouteMethod⟩,
      s2.clock, by simp only [NearestNeighbour.nearestNeighbourSolution, hs2], ?_, ?_, ?_⟩
    · exact hg.perm hlen
    · exact (hg.perm hlen).length_eq
    · exact hg.head hn

/-- C2 at the route A, B, C over `exampleApi` with `driving`: one round of fuel
runs out, two rounds return a permutation of the route that starts with A. -/
theorem nearestNeighbour_returns_permutation_witness :
    NearestNeighbour.nearestNeighbourSolution exampleApi 1 0 [stopA, stopB, stopC] "time"
        "driving" = .outOfFuel ∧
      ∃ r c, NearestNeighbour.nearestNeighbourSolution exampleApi 2 0 [stopA, stopB, stopC]
          "time" "driving" = .ok (r, c) ∧
        r.optimizedRoute.Perm [stopA, stopB, stopC] ∧
        r.optimizedRoute.length = [stopA, stopB, stopC].length ∧
        r.optimizedRoute.head? = [stopA, stopB, stopC].head? := by
  have h := nearestNeighbour_returns_permutation exampleApi 0 [stopA, stopB, stopC] "time"
    "driving" (by decide) (Or.inl rfl) (by
      intro t i j hi hj _
      rw [DistanceService.getDistance_clock exampleApi (fun _ _ _ => rfl) t 0]
      have hi3 : i < 3 := hi
      have hj3 : j < 3 := hj
      interval_cases i <;> interval_cases j <;>
        simp only [List.getElem_cons_zero, List.getElem_cons_succ] <;> decide)
  exact ⟨h.1 1 (by decide), h.2 2 (by decide)⟩

namespace NearestNeighbour

/-- The totals that `nearestNeighbourSolution` returns are sums over the legs of
its order, each leg with what a cost query for it returned. -/
theorem result_totals (api : Api) (fuel clock : Nat)
    (route : List Destination) (mode transportMethod : String) (r : OptimizedResult) (c : Nat)
    (h : nearestNeighbourSolution api fuel clock route mode transportMethod = .ok (r, c)) :
    legTotalsQueried api mode transportMethod r.optimizedRoute
      (r.totalDistance, r.totalTime) := by
  unfold nearestNeighbourSolution at h
  split at h
  · rename_i s hs
    simp only [Run.ok.injEq, Prod.mk.injEq] at h
    obtain ⟨hr, _⟩ := h
    subst hr
    show State.Totals api mode transportMethod s
    cases hroute : route with
    | nil =>
      subst hroute
      cases fuel with
      | zero =>
        simp only [loop, init, List.length_nil, Nat.not_lt_zero, if_false, Run.ok.injEq] at hs
        subst hs
        simp [State.Totals, legTotalsQueried]
      | succ f =>
        simp only [loop, init, List.length_nil, Nat.not_lt_zero, if_false, Run.ok.injEq] at hs
        subst hs
        simp [State.Totals, legTotalsQueried]
    | cons x xs =>
      have hn : 1 ≤ route.length := by rw [hroute]; simp
      have hinv := loop_invariant api route mode transportMethod
        (fun s => s.Good route ∧ s.Totals api mode transportMethod)
        (fun s hs => ⟨round_good api route mode transportMethod s hs.1,
          round_totals api route mode transportMethod s hs.1 hs.2⟩)
        fuel (init route clock) s
        ⟨init_good route clock hn, init_totals api route mode transportMethod clock⟩
      exact (hinv hs).1.2
  · cases h
  · cases h

end NearestNeighbour

/-- Three stops whose legs a to b, a to c and b to c take 10, 50 and 5 seconds
whenever they are queried are ordered a, b, c in time mode, with `totalTime` 15. -/
theorem three_stops_in_time_mode (api : Api) (clock fuel : Nat) (a b c : Destination) (tm : String)
    (hf : 2 ≤ fuel)
    (hab : ∀ t, ∃ d, (DistanceService.getDistance api t a.coords b.coords tm "time").1 = some d ∧
      d.durationValue = 10)
    (hac : ∀ t, ∃ d, (DistanceService.getDistance api t a.coords c.coords tm "time").1 = some d ∧
      d.durationValue = 50)
    (hbc : ∀ t, ∃ d, (DistanceService.getDistance api t b.coords c.coords tm "time").1 = some d ∧
      d.durationValue = 5) :
    ∃ r k, NearestNeighbour.nearestNeighbourSolution api fuel clock [a, b, c] "time" tm
        = .ok (r, k) ∧
      r.optimizedRoute = [a, b, c] ∧ r.totalTime = 15 := by
  obtain ⟨f, rfl⟩ : ∃ f, fuel = f + 2 := ⟨fuel - 2, by omega⟩
  obtain ⟨d1, h1, e1⟩ := hab clock
  obtain ⟨d2, h2, e2⟩ := hac (DistanceService.getDistance api clock a.coords b.coords tm "time").2
  obtain ⟨d3, h3, e3⟩ := hbc (DistanceService.getDistance api
    (DistanceService.getDistance api clock a.coords b.coords tm "time").2 a.coords c.coords tm
    "time").2
  have hr1 : NearestNeighbour.round api [a, b, c] "time" tm
      (NearestNeighbour.init [a, b, c] clock)
      = ⟨1, [0, 1], 0 + d1.distanceValue, 0 + 10, [a, b], [some "none", some d1.transportMethod],
          (DistanceService.getDistance api (DistanceService.getDistance api clock a.coords
            b.coords tm "time").2 a.coords c.coords tm "time").2⟩ := by
    simp [NearestNeighbour.round, NearestNeighbour.scan, NearestNeighbour.scanStep,
      NearestNeighbour.init, List.range_succ, List.range_zero, h1, h2, e1, e2,
      NearestNeighbour.setAdd, JSNum.lt_iff_blt, JSNum.blt]
  have hr2 : NearestNeighbour.round api [a, b, c] "time" tm
      ⟨1, [0, 1], 0 + d1.distanceValue, 0 + 10, [a, b], [some "none", some d1.transportMethod],
          (DistanceService.getDistance api (DistanceService.getDistance api clock a.coords
            b.coords tm "time").2 a.coords c.coords tm "time").2⟩
      = ⟨2, [0, 1, 2], 0 + d1.distanceValue + d3.distanceValue, 0 + 10 + 5, [a, b, c],
          [some "none", some d1.transportMethod, some d3.transportMethod],
          (DistanceService.getDistance api (DistanceService.getDistance api
            (DistanceService.getDistance api clock a.coords b.coords tm "time").2 a.coords
            c.coords tm "time").2 b.coords c.coords tm "time").2⟩ := by
    simp [NearestNeighbour.round, NearestNeighbour.scan, NearestNeighbour.scanStep,
      List.range_succ, List.range_zero, h3, e3,
      NearestNeighbour.setAdd, JSNum.lt_iff_blt, JSNum.blt]
  have hloop : NearestNeighbour.loop api [a, b, c] "time" tm (f + 2)
      (NearestNeighbour.init [a, b, c] clock)
      = .ok ⟨2, [0, 1, 2], 0 + d1.distanceValue + d3.distanceValue, 0 + 10 + 5, [a, b, c],
          [some "none", some d1.transportMethod, some d3.transportMethod],
          (DistanceService.getDistance api (DistanceService.getDistance api
            (DistanceService.getDistance api clock a.coords b.coords tm "time").2 a.coords
            c.coords tm "time").2 b.coords c.coords tm "time").2⟩ := by
    rw [NearestNeighbour.loop]
    have hlt1 : (NearestNeighbour.init [a, b, c] clock).visitedCities.length
        < [a, b, c].length := by
      simp [NearestNeighbour.init]
    simp only [hlt1, if_true]
    rw [hr1, NearestNeighbour.loop]
    simp only [List.length_cons, List.length_nil, Nat.reduceAdd, Nat.reduceLT, if_true]
    rw [hr2]
    unfold NearestNeighbour.loop
    cases f <;> simp
  have h15 : ((0 : JSNum) + 10 + 5) = 15 := by decide
  exact ⟨⟨[a, b, c], 0 + d1.distanceValue + d3.distanceValue, 0 + 10 + 5,
      [some "none", some d1.transportMethod, some d3.transportMethod]⟩,
    (DistanceService.getDistance api (DistanceService.getDistance api
      (DistanceService.getDistance api clock a.coords b.coords tm "time").2 a.coords
      c.coords tm "time").2 b.coords c.coords tm "time").2,
    by simp only [NearestNeighbour.nearestNeighbourSolution, hloop], rfl, h15⟩

/-- C4: for three stops A, B, C whose cost queries give the durations A to B 10,
A to C 50 and B to C 5, the nearest-neighbour order in time mode is A, B, C with
`totalTime` 15.  In general, every run of `nearestNeighbourSolution` that
returns has `totalDistance` and `totalTime` equal to the sums, over the
consecutive pairs of the returned order, of the distance and the duration that
a cost query for that leg returned; with a routing service whose answers do not
change over time these are the sums of the one cost query `legCost` over the
legs. -/
theorem nearestNeighbour_totals_are_leg_sums :
    (∀ (api : Api) (clock fuel : Nat) (a b c : Destination) (transportMethod : String),
      2 ≤ fuel →
      (∀ t, ∃ d, (DistanceService.getDistance api t a.coords b.coords transportMethod
        "time").1 = some d ∧ d.durationValue = 10) →
      (∀ t, ∃ d, (DistanceService.getDistance api t a.coords c.coords transportMethod
        "time").1 = some d ∧ d.durationValue = 50) →
      (∀ t, ∃ d, (DistanceService.getDistance api t b.coords c.coords transportMethod
        "time").1 = some d ∧ d.durationValue = 5) →
      ∃ r k, NearestNeighbour.nearestNeighbourSolution api fuel clock [a, b, c] "time"
          transportMethod = .ok (r, k) ∧
        r.optimizedRoute = [a, b, c] ∧ r.totalTime = 15) ∧
    (∀ (api : Api) (fuel clock : Nat) (route : List Destination)
      (mode transportMethod : String) (r : OptimizedResult) (c : Nat),
      NearestNeighbour.nearestNeighbourSolution api fuel clock route mode transportMethod
        = .ok (r, c) →
      legTotalsQueried api mode transportMethod r.optimizedRoute
        (r.totalDistance, r.totalTime)) ∧
    (∀ (api : Api) (fuel clock : Nat) (route : List Destination)
      (mode transportMethod : String) (r : OptimizedResult) (c : Nat),
      (∀ t u q, api t q = api u q) →
      NearestNeighbour.nearestNeighbourSolution api fuel clock route mode transportMethod
        = .ok (r, c) →
      legTotals (legCost api mode transportMethod) r.optimizedRoute
        = some (r.totalDistance, r.totalTime)) := by
  refine ⟨?_, ?_, ?_⟩
  · intro api clock fuel a b c transportMethod hf hab hac hbc
    exact three_stops_in_time_mode api clock fuel a b c transportMethod hf hab hac hbc
  · intro api fuel clock route mode transportMethod r c h
    exact NearestNeighbour.result_totals api fuel clock route mode transportMethod r c h
  · intro api fuel clock route mode transportMethod r c hconst h
    exact legTotalsQueried_const api hconst mode transportMethod _ _
      (NearestNeighbour.result_totals api fuel clock route mode transportMethod r c h)

/-- C4 at the route A, B, C over `exampleApi`, whose driving durations are those
of the claim: the order is A, B, C with `totalTime` 15, and the leg sums of that
order are 150 m and 15 s. -/
theorem nearestNeighbour_totals_witness :
    (∃ r k, NearestNeighbour.nearestNeighbourSolution exampleApi 2 0 [stopA, stopB, stopC]
        "time" "driving" = .ok (r, k) ∧
      r.optimizedRoute = [stopA, stopB, stopC] ∧ r.totalTime = 15) ∧
    legTotals (legCost exampleApi "time" "driving") [stopA, stopB, stopC] = some (150, 15) := by
  have hq : ∀ (x y : Destination) (n : Nat),
      ((DistanceService.getDistance exampleApi 0 x.coords y.coords "driving" "time").1.map
        (fun d => d.durationValue)) = some (.fin n) →
      ∀ t, ∃ d, (DistanceService.getDistance exampleApi t x.coords y.coords "driving"
        "time").1 = some d ∧ d.durationValue = .fin n := by
    intro x y n h t
    rw [DistanceService.getDistance_clock exampleApi (fun _ _ _ => rfl) t 0]
    cases hd : (DistanceService.getDistance exampleApi 0 x.coords y.coords "driving" "time").1 with
    | none => rw [hd] at h; cases h
    | some d =>
      rw [hd] at h
      simp only [Option.map_some', Option.some.injEq] at h
      exact ⟨d, rfl, h⟩
  exact ⟨nearestNeighbour_totals_are_leg_sums.1 exampleApi 0 2 stopA stopB stopC "driving"
      (by decide) (hq stopA stopB 10 (by decide)) (hq stopA stopC 50 (by decide))
      (hq stopB stopC 5 (by decide)),
    nearestNeighbour_totals_are_leg_sums.2.2 exampleApi 2 0 [stopA, stopB, stopC] "time"
      "driving" ⟨[stopA, stopB, stopC], 150, 15, [some "none", some "driving", some "driving"]⟩ 3
      (fun _ _ _ => rfl) (by decide)⟩

/-! ## Simulated annealing: invariants of the loop -/

theorem cons_set_perm {α : Type} (x : α) :
    ∀ (xs : List α) (j : Nat) (b : α), xs[j]? = some b →
      (b :: xs.set j x).Perm (x :: xs) := by
  intro xs
  induction xs with
  | nil => intro j b h; simp at h
  | cons y ys ih =>
    intro j b h
    cases j with
    | zero =>
      simp only [List.getElem?_cons_zero, Option.some.injEq] at h
      subst h
      exact List.Perm.swap x y ys
    | succ j =>
      simp only [List.getElem?_cons_succ] at h
      rw [List.set_cons_succ]
      exact (List.Perm.swap y b _).trans (((ih j b h).cons y).trans (List.Perm.swap x y ys))

theorem set_set_perm {α : Type} :
    ∀ (l : List α) (i j : Nat) (a b : α), l[i]? = some a → l[j]? = some b →
      ((l.set i b).set j a).Perm l := by
  intro l
  induction l with
  | nil => intro i j a b h; simp at h
  | cons x xs ih =>
    intro i j a b hi hj
    cases i with
    | zero =>
      simp only [List.getElem?_cons_zero, Option.some.injEq] at hi
      subst hi
      cases j with
      | zero =>
        simp only [List.getElem?_cons_zero, Option.some.injEq] at hj
        subst hj
        simp
      | succ j =>
        simp only [List.getElem?_cons_succ] at hj
        rw [List.set_cons_zero, List.set_cons_succ]
        exact cons_set_perm x xs j b hj
    | succ i =>
      simp only [List.getElem?_cons_succ] at hi
      cases j with
      | zero =>
        simp only [List.getElem?_cons_zero, Option.some.injEq] at hj
        subst hj
        rw [List.set_cons_succ, List.set_cons_zero]
        exact cons_set_perm x xs i a hi
      | succ j =>
        simp only [List.getElem?_cons_succ] at hj
        rw [List.set_cons_succ, List.set_cons_succ]
        exact (ih i j a b hi hj).cons x

namespace SimulatedAnnealing

theorem swap_perm (l : List Destination) (i j : Nat) : (swap l i j).Perm l := by
  unfold swap
  split
  · rename_i a b ha hb
    exact set_set_perm l i j a b ha hb
  · exact List.Perm.refl l

theorem bestLegsLoop_methods (api : Api) (mode transportMethod : String) :
    ∀ (l : List Destination) (acc : List (Option String) × JSNum × World),
      (bestLegsLoop api mode transportMethod l acc).1.length = acc.1.length + (l.length - 1) ∧
      (acc.1 ≠ [] → (bestLegsLoop api mode transportMethod l acc).1[0]? = acc.1[0]?) := by
  intro l
  induction l with
  | nil => intro acc; exact ⟨rfl, fun _ => rfl⟩
  | cons a rest ih =>
    intro acc
    cases rest with
    | nil => exact ⟨rfl, fun _ => rfl⟩
    | cons b rest =>
      rw [bestLegsLoop]
      have key : ∀ m : Option String, ∀ (t : JSNum) (w : World),
          (bestLegsLoop api mode transportMethod (b :: rest) (acc.1 ++ [m], t, w)).1.length
            = acc.1.length + ((a :: b :: rest).length - 1) ∧
          (acc.1 ≠ [] →
            (bestLegsLoop api mode transportMethod (b :: rest) (acc.1 ++ [m], t, w)).1[0]?
              = acc.1[0]?) := by
        intro m t w
        have h := ih (acc.1 ++ [m], t, w)
        constructor
        · rw [h.1]
          simp only [List.length_append, List.length_cons, List.length_nil]
          omega
        · intro hne
          rw [h.2 (by simp)]
          cases hacc : acc.1 with
          | nil => exact absurd hacc hne
          | cons y ys => simp
      split
      · split
        · exact key _ _ _
        · exact key _ _ _
      · exact key _ _ _

theorem initMethodsLoop_methods (api : Api) (mode transportMethod : String) :
    ∀ (l : List Destination) (i : Nat) (acc : List (Option String) × World),
      (initMethodsLoop api mode transportMethod i l acc).1.length = acc.1.length ∧
      (initMethodsLoop api mode transportMethod i l acc).1[0]? = acc.1[0]? := by
  intro l
  induction l with
  | nil => intro i acc; exact ⟨rfl, rfl⟩
  | cons a rest ih =>
    intro i acc
    cases rest with
    | nil => exact ⟨rfl, rfl⟩
    | cons b rest =>
      rw [initMethodsLoop]
      split
      · split
        · constructor
          · rw [(ih (i + 1) _).1]
            simp
          · rw [(ih (i + 1) _).2]
            simp
        · exact ih (i + 1) _
      · exact ih (i + 1) _

theorem move_good (env : Env) (mode transportMethod : String) (route : List Destination)
    (initial : JSNum) (s : State) (h : s.Good route initial) :
    (move env mode transportMethod s).Good route initial := by
  unfold move
  simp only
  split
  · exact ⟨(swap_perm _ _ _).trans h.current, h.best, h.bound, h.methods, h.methodsFirst⟩
  · exact ⟨h.current, h.best, h.bound, h.methods, h.methodsFirst⟩

theorem updateBest_good (env : Env) (mode transportMethod : String) (route : List Destination)
    (hroute : route ≠ []) (initial : JSNum) (s : State) (h : s.Good route initial) :
    (updateBest env mode transportMethod s).Good route initial := by
  unfold updateBest
  split
  · rename_i hlt
    have hlegs := bestLegsLoop_methods env.api mode transportMethod s.currentSolution
      ([some ""], 0, s.world)
    have hlen : 1 ≤ s.currentSolution.length := by
      rw [h.current.length_eq]
      exact List.length_pos.mpr hroute
    refine ⟨h.current, h.current, JSNum.le_trans (JSNum.le_of_lt hlt) h.bound, ?_, ?_⟩
    · show (bestLegsLoop env.api mode transportMethod s.currentSolution
        ([some ""], 0, s.world)).1.length = s.currentSolution.length
      rw [hlegs.1]
      simp only [List.length_cons, List.length_nil]
      omega
    · show (bestLegsLoop env.api mode transportMethod s.currentSolution
        ([some ""], 0, s.world)).1[0]? = some (some "")
      rw [hlegs.2 (by simp)]
      rfl
  · exact h

theorem step_good (env : Env) (mode transportMethod : String) (route : List Destination)
    (hroute : route ≠ []) (initial : JSNum) (s : State) (h : s.Good route initial) :
    (step env mode transportMethod s).Good route initial := by
  have h1 := updateBest_good env mode transportMethod route hroute initial _
    (move_good env mode transportMethod route initial s h)
  exact ⟨h1.current, h1.best, h1.bound, h1.methods, h1.methodsFirst⟩

/-- A property that every pass keeps holds of the state the loop ends in. -/
theorem anneal_invariant (env : Env) (mode transportMethod : String) (P : State → Prop)
    (hstep : ∀ s, P s → P (step env mode transportMethod s)) :
    ∀ s, P s → P (anneal env mode transportMethod s) := by
  intro s
  induction s using anneal.induct env mode transportMethod with
  | case1 s hlt ih =>
    intro h
    rw [anneal]
    simp only [hlt, if_true]
    exact ih (hstep s h)
  | case2 s hnot =>
    intro h
    rw [anneal]
    simp only [hnot, if_false]
    exact h

/-- For a non-empty route `simulatedAnnealingSolution` returns, and what it
returns comes from a state that is good for the route and for the cost of the
input order. -/
theorem result_good (env : Env) (w : World) (route : List Destination)
    (mode transportMethod : String) (hroute : route ≠ []) :
    ∃ s : State,
      simulatedAnnealingSolution env w route mode transportMethod
        = .ok (⟨s.bestSolution, s.bestDistance, s.bestTime, s.optimizedRouteMethods⟩, s.world) ∧
      s.Good route (calculateTotalDistance env.api route mode transportMethod w).1 := by
  have hlen : route.length ≠ 0 := fun h => hroute (List.length_eq_zero.mp h)
  refine ⟨anneal env mode transportMethod (initialState env w route mode transportMethod),
    by simp only [simulatedAnnealingSolution, hlen, if_false], ?_⟩
  apply anneal_invariant env mode transportMethod _
    (fun s hs => step_good env mode transportMethod route hroute _ s hs)
  have hm := initMethodsLoop_methods env.api mode transportMethod route 0
    ((route.map (fun _ => none)).set 0 (some ""),
      (calculateTotalDistance env.api route mode transportMethod w).2)
  refine ⟨List.Perm.refl _, List.Perm.refl _, JSNum.le_rfl _, ?_, ?_⟩
  · show (initMethodsLoop env.api mode transportMethod 0 route _).1.length = route.length
    rw [hm.1]
    simp
  · show (initMethodsLoop env.api mode transportMethod 0 route _).1[0]? = some (some "")
    rw [hm.2]
    cases route with
    | nil => exact absurd rfl hroute
    | cons x xs => simp

end SimulatedAnnealing

/-! ## The planners' results -/

/-- C3: for every non-empty route, every routing service (whatever it answers,
whenever), every cache, every sequence of random draws and every `Math.exp`,
`simulatedAnnealingSolution` returns, and its `optimizedRoute` is a permutation
of the input route, of the same length. -/
theorem simulatedAnnealing_returns_permutation (env : Env) (w : World)
    (route : List Destination) (mode transportMethod : String) (hroute : route ≠ []) :
    ∃ r w2, SimulatedAnnealing.simulatedAnnealingSolution env w route mode transportMethod
        = .ok (r, w2) ∧
      r.optimizedRoute.Perm route ∧ r.optimizedRoute.length = route.length := by
  obtain ⟨s, hs, hg⟩ := SimulatedAnnealing.result_good env w route mode transportMethod hroute
  exact ⟨_, _, hs, hg.best, hg.best.length_eq⟩

/-- C3 at the route B, C over `exampleEnv`. -/
theorem simulatedAnnealing_returns_permutation_witness :
    [stopB, stopC] ≠ [] ∧
      ∃ r w2, SimulatedAnnealing.simulatedAnnealingSolution exampleEnv emptyWorld
          [stopB, stopC] "time" "driving" = .ok (r, w2) ∧
        r.optimizedRoute.Perm [stopB, stopC] ∧ r.optimizedRoute.length = [stopB, stopC].length :=
  ⟨by decide, simulatedAnnealing_returns_permutation exampleEnv emptyWorld [stopB, stopC] "time"
    "driving" (by decide)⟩

/-- C5: for every non-empty route, every routing service, every cache, every
sequence of random draws and every `Math.exp`, `simulatedAnnealingSolution`
returns, and its `totalDistance` is at most `calculateTotalDistance` of the
input route, computed as the run computes it at its start. -/
theorem simulatedAnnealing_cost_at_most_input_order (env : Env) (w : World)
    (route : List Destination) (mode transportMethod : String) (hroute : route ≠ []) :
    ∃ r w2, SimulatedAnnealing.simulatedAnnealingSolution env w route mode transportMethod
        = .ok (r, w2) ∧
      r.totalDistance
        ≤ (SimulatedAnnealing.calculateTotalDistance env.api route mode transportMethod w).1 := by
  obtain ⟨s, hs, hg⟩ := SimulatedAnnealing.result_good env w route mode transportMethod hroute
  exact ⟨_, _, hs, hg.bound⟩

/-- C5 at the route C, B over `exampleEnv`, whose input order costs 1000 m. -/
theorem simulatedAnnealing_cost_at_most_input_order_witness :
    [stopC, stopB] ≠ [] ∧
      ∃ r w2, SimulatedAnnealing.simulatedAnnealingSolution exampleEnv emptyWorld
          [stopC, stopB] "distance" "driving" = .ok (r, w2) ∧
        r.totalDistance ≤ 1000 := by
  have h := simulatedAnnealing_cost_at_most_input_order exampleEnv emptyWorld [stopC, stopB]
    "distance" "driving" (by decide)
  have hd : (SimulatedAnnealing.calculateTotalDistance exampleEnv.api [stopC, stopB] "distance"
      "driving" emptyWorld).1 = 1000 := by decide
  rw [hd] at h
  exact ⟨by decide, h⟩

namespace NearestNeighbour

theorem loop_not_thrown (api : Api) (route : List Destination) (mode transportMethod : String)
    (msg : String) :
    ∀ (fuel : Nat) (s : State), loop api route mode transportMethod fuel s ≠ .thrown msg := by
  intro fuel
  induction fuel with
  | zero =>
    intro s
    unfold loop
    split <;> simp
  | succ f ih =>
    intro s
    unfold loop
    split
    · exact ih _
    · simp

/-- The planner `nearestNeighbourSolution` does not throw. -/
theorem not_thrown (api : Api) (fuel clock : Nat) (route : List Destination)
    (mode transportMethod : String) (msg : String) :
    nearestNeighbourSolution api fuel clock route mode transportMethod ≠ .thrown msg := by
  unfold nearestNeighbourSolution
  split
  · simp
  · simp
  · rename_i m hm
    exact absurd hm (loop_not_thrown api route mode transportMethod m fuel _)

/-- For a non-empty route, what `nearestNeighbourSolution` returns has one
transport method per stop, the first of them `"none"`. -/
theorem result_methods (api : Api) (fuel clock : Nat) (route : List Destination)
    (mode transportMethod : String) (r : OptimizedResult) (c : Nat) (hn : 1 ≤ route.length)
    (h : nearestNeighbourSolution api fuel clock route mode transportMethod = .ok (r, c)) :
    r.optimizedRouteMethod.length = r.optimizedRoute.length ∧
      r.optimizedRouteMethod.head? = some (some "none") := by
  unfold nearestNeighbourSolution at h
  split at h
  · rename_i s hs
    simp only [Run.ok.injEq, Prod.mk.injEq] at h
    obtain ⟨hr, _⟩ := h
    subst hr
    have hg := (loop_invariant api route mode transportMethod (fun s => s.Good route)
      (fun s hs => round_good api route mode transportMethod s hs) fuel (init route clock) s
      (init_good route clock hn) hs).1
    exact ⟨hg.methods, hg.methodsFirst⟩
  · cases h
  · cases h

end NearestNeighbour

/-- C6: `optimizedRouteMethod` has the length of `optimizedRoute` in the result
of `nearestNeighbourSolution` on a non-empty route whenever it returns, in the
result of `simulatedAnnealingSolution` on a non-empty route, which always
returns, and so in the `RouteManager` fields after any `optimizeRoute()` that
ran a planner (a route of 2 or more stops) and returned. -/
theorem optimizedRouteMethod_length_eq :
    (∀ (api : Api) (fuel clock : Nat) (route : List Destination)
      (mode transportMethod : String) (r : OptimizedResult) (c : Nat),
      1 ≤ route.length →
      NearestNeighbour.nearestNeighbourSolution api fuel clock route mode transportMethod
        = .ok (r, c) →
      r.optimizedRouteMethod.length = r.optimizedRoute.length) ∧
    (∀ (env : Env) (w : World) (route : List Destination) (mode transportMethod : String),
      route ≠ [] →
      ∃ r w2, SimulatedAnnealing.simulatedAnnealingSolution env w route mode transportMethod
          = .ok (r, w2) ∧
        r.optimizedRouteMethod.length = r.optimizedRoute.length) ∧
    (∀ (env : Env) (fuel : Nat) (rm : RouteManager) (w : World) (rm2 : RouteManager)
      (w2 : World),
      2 ≤ rm.route.length →
      RouteManager.optimizeRoute env fuel rm w = .ok (rm2, w2) →
      rm2.optimizedRouteMethod.length = rm2.optimizedRoute.length) := by
  refine ⟨?_, ?_, ?_⟩
  · intro api fuel clock route mode transportMethod r c hn h
    exact (NearestNeighbour.result_methods api fuel clock route mode transportMethod r c hn h).1
  · intro env w route mode transportMethod hroute
    obtain ⟨s, hs, hg⟩ := SimulatedAnnealing.result_good env w route mode transportMethod hroute
    exact ⟨_, _, hs, hg.methods⟩
  · intro env fuel rm w rm2 w2 h2 h
    have hgt : rm.route.length > 1 := h2
    have hne : rm.route ≠ [] := fun hnil => by rw [hnil] at h2; cases h2
    unfold RouteManager.optimizeRoute at h
    simp only [hgt, if_true] at h
    split at h
    · split at h
      · rename_i r hr
        simp only [Run.ok.injEq, Prod.mk.injEq] at h
        rw [← h.1]
        exact (NearestNeighbour.result_methods _ _ _ _ _ _ r.1 r.2 (by omega) hr).1
      · cases h
      · rename_i hr
        exact absurd hr (NearestNeighbour.not_thrown _ _ _ _ _ _ _)
    · obtain ⟨s, hs, hg⟩ := SimulatedAnnealing.result_good env w rm.route rm.mode
        rm.transportMethod hne
      rw [hs] at h
      simp only [Run.ok.injEq, Prod.mk.injEq] at h
      rw [← h.1]
      exact hg.methods

/-- C6 at the route A, B over `exampleEnv`: `optimizeRoute()` stores two stops
and two transport methods. -/
theorem optimizedRouteMethod_length_eq_witness :
    2 ≤ managerAB.route.length ∧
      RouteManager.optimizeRoute exampleEnv 1 managerAB emptyWorld
        = .ok (managerABOptimized, ⟨[], 1, 0⟩) ∧
      managerABOptimized.optimizedRouteMethod.length = managerABOptimized.optimizedRoute.length :=
  ⟨by decide, by decide,
    optimizedRouteMethod_length_eq.2.2 exampleEnv 1 managerAB emptyWorld managerABOptimized
      ⟨[], 1, 0⟩ (by decide) (by decide)⟩

/-- The nearest-neighbour planner keeps the sentinel: on a non-empty route the
first entry of its `optimizedRouteMethod` is `"none"`. -/
theorem nearestNeighbour_first_method_is_none (api : Api) (fuel clock : Nat)
    (route : List Destination) (mode transportMethod : String) (r : OptimizedResult) (c : Nat)
    (hn : 1 ≤ route.length)
    (h : NearestNeighbour.nearestNeighbourSolution api fuel clock route mode transportMethod
      = .ok (r, c)) :
    r.optimizedRouteMethod.head? = some (some "none") :=
  (NearestNeighbour.result_methods api fuel clock route mode transportMethod r c hn h).2

/-- The first entry of the `optimizedRouteMethod` that `simulatedAnnealingSolution`
returns is the empty string, for every non-empty route. -/
theorem simulatedAnnealing_first_method (env : Env) (w : World) (route : List Destination)
    (mode transportMethod : String) (hroute : route ≠ []) :
    ∃ r w2, SimulatedAnnealing.simulatedAnnealingSolution env w route mode transportMethod
        = .ok (r, w2) ∧ r.optimizedRouteMethod.head? = some (some "") := by
  obtain ⟨s, hs, hg⟩ := SimulatedAnnealing.result_good env w route mode transportMethod hroute
  refine ⟨_, _, hs, ?_⟩
  rw [List.head?_eq_getElem?]
  exact hg.methodsFirst

/-- C7, the code at its failing input: for the route B, C, which does not start
at "Current Location", `optimizeRoute()` runs simulated annealing and stores an
`optimizedRouteMethod` whose first entry is the empty string, not `"none"`. -/
theorem optimizeRoute_annealing_first_method_is_empty_string :
    ∃ rm2 w2,
      RouteManager.optimizeRoute exampleEnv 0 managerBC emptyWorld = .ok (rm2, w2) ∧
      rm2.optimizedRouteMethod.head? = some (some "") ∧
      rm2.optimizedRouteMethod.head? ≠ some (some "none") := by
  obtain ⟨r, w2, hr, hhead⟩ := simulatedAnnealing_first_method exampleEnv emptyWorld
    managerBC.route managerBC.mode managerBC.transportMethod (by decide)
  refine ⟨RouteManager.store managerBC r, w2, ?_, hhead, ?_⟩
  · have hgt : managerBC.route.length > 1 := by decide
    have hname : ¬ (managerBC.route[0]?).map (fun d => d.name) = some "Current Location" := by
      decide
    simp only [RouteManager.optimizeRoute, hgt, hname, if_true, if_false, hr]
  · show r.optimizedRouteMethod.head? ≠ some (some "none")
    rw [hhead]
    decide

/-! ## Saved routes and the defaults -/

theorem RoutePage.handleLastDestination_history (p : RoutePage) :
    (RoutePage.handleLastDestination p).routeHistory
      = p.routeHistory ++ [RoutePage.historyDoc p.rm] := rfl

/-- C11, as the code has it: re-hydrating the snapshot that `handleLastDestination`
wrote puts the snapshot's stops, in the optimized order, into `route` and leaves
every other field of `RouteManager` as it was: `optimizedRoute`,
`optimizedRouteMethod`, `totalDistance` and `totalTime` are not restored. -/
theorem handleSetRoute_restores_stops_only (rm : RouteManager) (p : RoutePage) :
    RouteDataView.handleSetRoute rm (RoutePage.historyDoc p.rm)
      = { rm with route := p.rm.optimizedRoute } := by
  simp only [RouteDataView.handleSetRoute, RoutePage.historyDoc, List.enum_map_snd]

/-- C11 fails as stated: the snapshot written when the route A, B is completed,
re-hydrated into a fresh `RouteManager`, gives an empty `optimizedRoute`, an
empty `optimizedRouteMethod` and zero totals, not the order A, B, its methods,
100 m and 10 s. -/
theorem rehydrated_snapshot_lacks_optimized_fields :
    (RoutePage.handleLastDestination pageAB).routeHistory = [RoutePage.historyDoc pageAB.rm] ∧
      (RouteDataView.handleSetRoute RouteManager.initial
        (RoutePage.historyDoc pageAB.rm)).optimizedRoute ≠ pageAB.rm.optimizedRoute ∧
      (RouteDataView.handleSetRoute RouteManager.initial
        (RoutePage.historyDoc pageAB.rm)).optimizedRouteMethod
          ≠ pageAB.rm.optimizedRouteMethod ∧
      (RouteDataView.handleSetRoute RouteManager.initial
        (RoutePage.historyDoc pageAB.rm)).totalDistance ≠ pageAB.rm.totalDistance ∧
      (RouteDataView.handleSetRoute RouteManager.initial
        (RoutePage.historyDoc pageAB.rm)).totalTime ≠ pageAB.rm.totalTime := by
  refine ⟨rfl, ?_, ?_, ?_, ?_⟩ <;> decide

/-- The method `clearRoute()` resets every field but `routeStarted`. -/
theorem clearRoute_keeps_routeStarted (rm : RouteManager) :
    rm.clearRoute = { RouteManager.initial with routeStarted := rm.routeStarted } := rfl

/-- C15, the code at its failing input: after A and B were optimized and the
route was started, `clearRoute()` resets every other field to its default but
leaves `routeStarted` true, so the state is not the initial one. -/
theorem clearRoute_leaves_routeStarted_true :
    managerABStarted.clearRoute.routeStarted = true ∧
      managerABStarted.clearRoute ≠ RouteManager.initial ∧
      managerABStarted.clearRoute = { RouteManager.initial with routeStarted := true } := by
  decide

/-! ## The cache -/

/-- C14: when the cache holds an entry for (origin, destination, transport
method), `getOptimalDistance` returns it and changes nothing: no request is
issued.  On a miss it returns what the one call of `DistanceService.getDistance`
at the current request counter returns and advances the counter as that call
does; a result that is not `null` is stored under the key, so that the next call
for the key is a hit whatever the mode, and a `null` result leaves the cache as
it was. -/
theorem getOptimalDistance_hit_or_single_query (api : Api) (w : World)
    (startCoords endCoords : Coords) (transportMethod mode : String) :
    (∀ entry, w.distanceCache.lookup (startCoords, endCoords, transportMethod) = some entry →
      SimulatedAnnealing.getOptimalDistance api w startCoords endCoords transportMethod mode
        = (some entry, w)) ∧
    (w.distanceCache.lookup (startCoords, endCoords, transportMethod) = none →
      (SimulatedAnnealing.getOptimalDistance api w startCoords endCoords transportMethod
          mode).1
        = (DistanceService.getDistance api w.clock startCoords endCoords transportMethod
            mode).1 ∧
      (SimulatedAnnealing.getOptimalDistance api w startCoords endCoords transportMethod
          mode).2.clock
        = (DistanceService.getDistance api w.clock startCoords endCoords transportMethod
            mode).2 ∧
      (SimulatedAnnealing.getOptimalDistance api w startCoords endCoords transportMethod
          mode).2.draws = w.draws ∧
      (∀ d, (DistanceService.getDistance api w.clock startCoords endCoords transportMethod
            mode).1 = some d →
        (SimulatedAnnealing.getOptimalDistance api w startCoords endCoords transportMethod
            mode).2.distanceCache
          = ((startCoords, endCoords, transportMethod), d) :: w.distanceCache ∧
        ∀ (api2 : Api) (mode2 : String),
          SimulatedAnnealing.getOptimalDistance api2
              (SimulatedAnnealing.getOptimalDistance api w startCoords endCoords
                transportMethod mode).2 startCoords endCoords transportMethod mode2
            = (some d, (SimulatedAnnealing.getOptimalDistance api w startCoords endCoords
                transportMethod mode).2)) ∧
      ((DistanceService.getDistance api w.clock startCoords endCoords transportMethod
            mode).1 = none →
        (SimulatedAnnealing.getOptimalDistance api w startCoords endCoords transportMethod
            mode).2.distanceCache = w.distanceCache)) := by
  constructor
  · intro entry h
    simp only [SimulatedAnnealing.getOptimalDistance, h]
  · intro h
    cases hq : (DistanceService.getDistance api w.clock startCoords endCoords transportMethod
        mode).1 with
    | none =>
      have e : SimulatedAnnealing.getOptimalDistance api w startCoords endCoords
          transportMethod mode
          = (none, { w with clock := (DistanceService.getDistance api w.clock startCoords
              endCoords transportMethod mode).2 }) := by
        simp only [SimulatedAnnealing.getOptimalDistance, h, hq]
      rw [e]
      exact ⟨rfl, rfl, rfl, fun d hd => (by cases hd), fun _ => rfl⟩
    | some d =>
      have e : SimulatedAnnealing.getOptimalDistance api w startCoords endCoords
          transportMethod mode
          = (some d, { w with
              distanceCache := ((startCoords, endCoords, transportMethod), d) :: w.distanceCache
              clock := (DistanceService.getDistance api w.clock startCoords endCoords
                transportMethod mode).2 }) := by
        simp only [SimulatedAnnealing.getOptimalDistance, h, hq]
      rw [e]
      refine ⟨rfl, rfl, rfl, ?_, fun hd => (by cases hd)⟩
      intro d2 hd2
      simp only [Option.some.injEq] at hd2
      subst hd2
      refine ⟨rfl, ?_⟩
      intro api2 mode2
      simp [SimulatedAnnealing.getOptimalDistance, List.lookup]

/-- C14 over `exampleApi`: with an empty cache the leg B to C is queried once and
stored; with that cache the same leg is answered without a request. -/
theorem getOptimalDistance_examples :
    SimulatedAnnealing.getOptimalDistance exampleApi emptyWorld stopB.coords stopC.coords
        "driving" "time"
      = (some ⟨50, 5, "driving"⟩,
          ⟨[((stopB.coords, stopC.coords, "driving"), ⟨50, 5, "driving"⟩)], 1, 0⟩) ∧
    SimulatedAnnealing.getOptimalDistance exampleApi
        ⟨[((stopB.coords, stopC.coords, "driving"), ⟨50, 5, "driving"⟩)], 1, 0⟩
        stopB.coords stopC.coords "driving" "time"
      = (some ⟨50, 5, "driving"⟩,
          ⟨[((stopB.coords, stopC.coords, "driving"), ⟨50, 5, "driving"⟩)], 1, 0⟩) := by
  have h := getOptimalDistance_hit_or_single_query exampleApi
    ⟨[((stopB.coords, stopC.coords, "driving"), ⟨50, 5, "driving"⟩)], 1, 0⟩
    stopB.coords stopC.coords "driving" "time"
  exact ⟨by decide, h.1 ⟨50, 5, "driving"⟩ (by decide)⟩

/-! ## Which planner runs -/

/-- C16: for a route of 2 or more stops, `optimizeRoute()` runs the
nearest-neighbour planner when `route[0].name` is "Current Location": it returns
when that planner returns, with the planner's order, methods and totals stored
and every other field kept, and it does not return when the planner does not.
Otherwise it runs simulated annealing, which returns, and stores its order,
methods and totals the same way. -/
theorem optimizeRoute_runs_planner_and_stores (env : Env) (fuel : Nat) (rm : RouteManager)
    (w : World) (h2 : 2 ≤ rm.route.length) :
    ((rm.route[0]?).map (fun d => d.name) = some "Current Location" →
      (∀ r c, NearestNeighbour.nearestNeighbourSolution env.api fuel w.clock rm.route rm.mode
          rm.transportMethod = .ok (r, c) →
        RouteManager.optimizeRoute env fuel rm w
          = .ok ({ rm with
                optimizedRoute := r.optimizedRoute
                optimizedRouteMethod := r.optimizedRouteMethod
                totalDistance := r.totalDistance
                totalTime := r.totalTime },
              { w with clock := c })) ∧
      (NearestNeighbour.nearestNeighbourSolution env.api fuel w.clock rm.route rm.mode
          rm.transportMethod = .outOfFuel →
        RouteManager.optimizeRoute env fuel rm w = .outOfFuel) ∧
      (∀ rm2 w2, RouteManager.optimizeRoute env fuel rm w = .ok (rm2, w2) →
        ∃ r, NearestNeighbour.nearestNeighbourSolution env.api fuel w.clock rm.route rm.mode
            rm.transportMethod = .ok (r, w2.clock) ∧
          rm2.optimizedRoute = r.optimizedRoute)) ∧
    ((rm.route[0]?).map (fun d => d.name) ≠ some "Current Location" →
      ∃ r w2, SimulatedAnnealing.simulatedAnnealingSolution env w rm.route rm.mode
          rm.transportMethod = .ok (r, w2) ∧
        RouteManager.optimizeRoute env fuel rm w
          = .ok ({ rm with
                optimizedRoute := r.optimizedRoute
                optimizedRouteMethod := r.optimizedRouteMethod
                totalDistance := r.totalDistance
                totalTime := r.totalTime },
              w2)) := by
  have hgt : rm.route.length > 1 := h2
  have hne : rm.route ≠ [] := fun hnil => by rw [hnil] at h2; cases h2
  constructor
  · intro hname
    refine ⟨?_, ?_, ?_⟩
    · intro r c hr
      simp only [RouteManager.optimizeRoute, hgt, hname, if_true, hr, RouteManager.store]
    · intro hr
      simp only [RouteManager.optimizeRoute, hgt, hname, if_true, hr]
    · intro rm2 w2 h
      cases hr : NearestNeighbour.nearestNeighbourSolution env.api fuel w.clock rm.route rm.mode
          rm.transportMethod with
      | ok r =>
        simp only [RouteManager.optimizeRoute, hgt, hname, if_true, hr, Run.ok.injEq,
          Prod.mk.injEq] at h
        refine ⟨r.1, ?_, ?_⟩
        · rw [← h.2]
        · rw [← h.1]; rfl
      | outOfFuel =>
        simp only [RouteManager.optimizeRoute, hgt, hname, if_true, hr] at h
        cases h
      | thrown msg => exact absurd hr (NearestNeighbour.not_thrown _ _ _ _ _ _ _)
  · intro hname
    obtain ⟨s, hs, _⟩ := SimulatedAnnealing.result_good env w rm.route rm.mode
      rm.transportMethod hne
    refine ⟨_, _, hs, ?_⟩
    simp only [RouteManager.optimizeRoute, hgt, hname, if_true, if_false, hs,
      RouteManager.store]

/-- C16 at the routes A, B (nearest neighbour, over `exampleEnv`) and B, C
(simulated annealing). -/
theorem optimizeRoute_runs_planner_and_stores_witness :
    2 ≤ managerAB.route.length ∧
      RouteManager.optimizeRoute exampleEnv 1 managerAB emptyWorld
        = .ok (managerABOptimized, ⟨[], 1, 0⟩) ∧
      ∃ r w2, SimulatedAnnealing.simulatedAnnealingSolution exampleEnv emptyWorld managerBC.route
          managerBC.mode managerBC.transportMethod = .ok (r, w2) ∧
        RouteManager.optimizeRoute exampleEnv 0 managerBC emptyWorld
          = .ok ({ managerBC with
                optimizedRoute := r.optimizedRoute
                optimizedRouteMethod := r.optimizedRouteMethod
                totalDistance := r.totalDistance
                totalTime := r.totalTime },
              w2) :=
  ⟨by decide,
    ((optimizeRoute_runs_planner_and_stores exampleEnv 1 managerAB emptyWorld (by decide)).1
      (by decide)).1 ⟨[stopA, stopB], 100, 10, [some "none", some "driving"]⟩ 1 (by decide),
    (optimizeRoute_runs_planner_and_stores exampleEnv 0 managerBC emptyWorld (by decide)).2
      (by decide)⟩

/-! ## The choice among transport methods -/

namespace DistanceService

theorem tryMethod_eq (api : Api) (origin destination : Coords) (mode : String)
    (acc : Best × Nat) (m : String) :
    tryMethod api origin destination mode acc m =
      (match (api acc.2 ⟨origin, destination, some m⟩).usable with
        | none => acc.1
        | some v =>
          if (mode = "time" ∧ JSNum.fin v.2 < acc.1.bestDuration) ∨
              (mode ≠ "time" ∧ JSNum.fin v.1 < acc.1.bestDistance) then
            ⟨.fin v.1, .fin v.2, some m⟩
          else acc.1,
       acc.2 + 1) := by
  unfold tryMethod
  cases hr : api acc.2 ⟨origin, destination, some m⟩ with
  | requestError => rfl
  | noRows => rfl
  | element e =>
    simp only [Response.usable]
    by_cases hs : e.status = "OK"
    · simp only [hs, if_true]
      cases hd : e.distance with
      | none => rfl
      | some x =>
        cases hu : e.duration with
        | none => rfl
        | some y =>
          simp only
          by_cases h1 : mode = "time" ∧ JSNum.fin y < acc.1.bestDuration
          · rw [if_pos h1, if_pos (Or.inl h1)]
          · by_cases h2 : mode ≠ "time" ∧ JSNum.fin x < acc.1.bestDistance
            · rw [if_neg h1, if_pos h2, if_pos (Or.inr h2)]
            · rw [if_neg h1, if_neg h2, if_neg (fun h => h.elim h1 h2)]
    · simp only [hs, if_false]

theorem improves_iff (mode : String) (v v0 : Nat × Nat) :
    ((mode = "time" ∧ JSNum.fin v.2 < JSNum.fin v0.2) ∨
        (mode ≠ "time" ∧ JSNum.fin v.1 < JSNum.fin v0.1))
      ↔ figure mode v < figure mode v0 := by
  by_cases hm : mode = "time"
  · simp [figure, hm, JSNum.lt_iff_blt, JSNum.blt]
  · simp [figure, hm, JSNum.lt_iff_blt, JSNum.blt]

theorem improves_initial (mode : String) (v : Nat × Nat) :
    (mode = "time" ∧ JSNum.fin v.2 < JSNum.inf) ∨
      (mode ≠ "time" ∧ JSNum.fin v.1 < JSNum.inf) := by
  by_cases hm : mode = "time"
  · exact Or.inl ⟨hm, JSNum.fin_lt_inf _⟩
  · exact Or.inr ⟨hm, JSNum.fin_lt_inf _⟩

/-- Querying one more method keeps the best-so-far chosen. -/
theorem tryMethod_chosen (api : Api) (t : Nat) (origin destination : Coords) (mode : String)
    (methods : List String) (b : Best) (m : String)
    (h : b.Chosen api t origin destination mode methods) :
    (tryMethod api origin destination mode (b, t + methods.length) m).1.Chosen api t origin
      destination mode (methods ++ [m]) := by
  have hget : ∀ j m2, (methods ++ [m])[j]? = some m2 →
      (j < methods.length ∧ methods[j]? = some m2) ∨ (j = methods.length ∧ m2 = m) := by
    intro j m2 hj
    rcases Nat.lt_trichotomy j methods.length with hlt | heq | hgt
    · left
      rw [List.getElem?_append_left hlt] at hj
      exact ⟨hlt, hj⟩
    · right
      subst heq
      simp at hj
      exact ⟨rfl, hj.symm⟩
    · rw [List.getElem?_eq_none (by simp; omega)] at hj
      cases hj
  have hlast : (methods ++ [m])[methods.length]? = some m := by simp
  have hkeep : ∀ (i : Nat) (m0 : String), methods[i]? = some m0 →
      (methods ++ [m])[i]? = some m0 := by
    intro i m0 hi
    have hlt : i < methods.length := (List.getElem?_eq_some_iff.mp hi).1
    rw [List.getElem?_append_left hlt]
    exact hi
  rw [tryMethod_eq]
  simp only
  cases hu : (api (t + methods.length) ⟨origin, destination, some m⟩).usable with
  | none =>
    simp only
    rcases h with ⟨hb, hall⟩ | ⟨i, m0, v0, hi, hv0, hb, hmin⟩
    · left
      refine ⟨hb, ?_⟩
      intro j m2 hj
      rcases hget j m2 hj with ⟨_, hj2⟩ | ⟨hj2, hm2⟩
      · exact hall j m2 hj2
      · subst hj2; subst hm2; exact hu
    · right
      refine ⟨i, m0, v0, hkeep i m0 hi, hv0, hb, ?_⟩
      intro j m2 v2 hj hv2
      rcases hget j m2 hj with ⟨_, hj2⟩ | ⟨hj2, hm2⟩
      · exact hmin j m2 v2 hj2 hv2
      · subst hj2; subst hm2
        rw [hu] at hv2
        cases hv2
  | some v =>
    simp only
    rcases h with ⟨hb, hall⟩ | ⟨i, m0, v0, hi, hv0, hb, hmin⟩
    · subst hb
      simp only [improves_initial mode v, if_true]
      right
      refine ⟨methods.length, m, v, hlast, hu, rfl, ?_⟩
      intro j m2 v2 hj hv2
      rcases hget j m2 hj with ⟨_, hj2⟩ | ⟨hj2, hm2⟩
      · rw [hall j m2 hj2] at hv2
        cases hv2
      · subst hj2; subst hm2
        rw [hu] at hv2
        simp only [Option.some.injEq] at hv2
        subst hv2
        exact ⟨fun hlt => absurd hlt (Nat.lt_irrefl _), Nat.le_refl _⟩
    · subst hb
      have hi_lt : i < methods.length := (List.getElem?_eq_some_iff.mp hi).1
      simp only [improves_iff mode v v0]
      by_cases hlt : figure mode v < figure mode v0
      · simp only [hlt, if_true]
        right
        refine ⟨methods.length, m, v, hlast, hu, rfl, ?_⟩
        intro j m2 v2 hj hv2
        rcases hget j m2 hj with ⟨_, hj2⟩ | ⟨hj2, hm2⟩
        · have := (hmin j m2 v2 hj2 hv2).2
          exact ⟨fun _ => by omega, by omega⟩
        · subst hj2; subst hm2
          rw [hu] at hv2
          simp only [Option.some.injEq] at hv2
          subst hv2
          exact ⟨fun hlt => absurd hlt (Nat.lt_irrefl _), Nat.le_refl _⟩
      · simp only [hlt, if_false]
        right
        refine ⟨i, m0, v0, hkeep i m0 hi, hv0, rfl, ?_⟩
        intro j m2 v2 hj hv2
        rcases hget j m2 hj with ⟨_, hj2⟩ | ⟨hj2, hm2⟩
        · exact hmin j m2 v2 hj2 hv2
        · subst hj2; subst hm2
          rw [hu] at hv2
          simp only [Option.some.injEq] at hv2
          subst hv2
          exact ⟨fun h => by omega, by omega⟩

theorem tryMethod_counter (api : Api) (origin destination : Coords) (mode : String)
    (acc : Best × Nat) (m : String) :
    (tryMethod api origin destination mode acc m).2 = acc.2 + 1 := by
  rw [tryMethod_eq]

/-- After all of `methods` were queried from request counter `t` on, one request
each, the best-so-far is chosen among them. -/
theorem foldl_tryMethod_chosen (api : Api) (t : Nat) (origin destination : Coords)
    (mode : String) (methods : List String) :
    (methods.foldl (tryMethod api origin destination mode) (⟨.inf, .inf, none⟩, t)).2
        = t + methods.length ∧
      (methods.foldl (tryMethod api origin destination mode) (⟨.inf, .inf, none⟩, t)).1.Chosen
        api t origin destination mode methods := by
  induction methods using List.reverseRecOn with
  | nil =>
    refine ⟨rfl, Or.inl ⟨rfl, ?_⟩⟩
    intro j m hj
    simp at hj
  | append_singleton ms m ih =>
    rw [List.foldl_append, List.foldl_cons, List.foldl_nil]
    have hacc : ms.foldl (tryMethod api origin destination mode) (⟨.inf, .inf, none⟩, t)
        = ((ms.foldl (tryMethod api origin destination mode) (⟨.inf, .inf, none⟩, t)).1,
            t + ms.length) := by
      rw [← ih.1]
    constructor
    · rw [tryMethod_counter, ih.1]
      simp only [List.length_append, List.length_cons, List.length_nil]
      omega
    · rw [hacc]
      exact tryMethod_chosen api t origin destination mode ms _ m ih.2

/-- What `getDistance` returns, from the best-so-far chosen among its methods. -/
theorem getDistance_chosen (api : Api) (t : Nat) (origin destination : Coords)
    (method mode : String) :
    (getDistance api t origin destination method mode).2
        = t + (transportMethods method).length ∧
      ∃ b : Best, b.Chosen api t origin destination mode (transportMethods method) ∧
        (getDistance api t origin destination method mode).1 =
          match b.bestMethod with
          | some m => if m ≠ "" then some ⟨b.bestDistance, b.bestDuration, m⟩ else none
          | none => none := by
  have h := foldl_tryMethod_chosen api t origin destination mode (transportMethods method)
  constructor
  · unfold getDistance
    simp only
    split
    · split
      · exact h.1
      · exact h.1
    · exact h.1
  · refine ⟨_, h.2, ?_⟩
    unfold getDistance
    simp only
    cases ((transportMethods method).foldl (tryMethod api origin destination mode)
        (⟨.inf, .inf, none⟩, t)).1.bestMethod with
    | none => rfl
    | some m =>
      simp only
      split <;> rfl

end DistanceService

/-- C12: for method `shuffle`, `getDistance` issues four requests, for driving,
walking, bicycling and transit in that order.  It returns `null` when none of the
four responses is usable; otherwise it returns the distance, the duration and
the method of the usable response at one position `i`, whose duration (in mode
`time`; its distance otherwise) is at most that of every usable response and
strictly below that of every usable response before `i`: the smallest, and
among equals the earliest. -/
theorem getDistance_shuffle_keeps_earliest_minimum (api : Api) (t : Nat)
    (origin destination : Coords) (mode : String) :
    (DistanceService.getDistance api t origin destination "shuffle" mode).2 = t + 4 ∧
    (((DistanceService.getDistance api t origin destination "shuffle" mode).1 = none ∧
        ∀ j m, ["driving", "walking", "bicycling", "transit"][j]? = some m →
          (api (t + j) ⟨origin, destination, some m⟩).usable = none) ∨
      (∃ i m v, ["driving", "walking", "bicycling", "transit"][i]? = some m ∧
        (api (t + i) ⟨origin, destination, some m⟩).usable = some v ∧
        (DistanceService.getDistance api t origin destination "shuffle" mode).1
          = some ⟨.fin v.1, .fin v.2, m⟩ ∧
        ∀ j m2 v2, ["driving", "walking", "bicycling", "transit"][j]? = some m2 →
          (api (t + j) ⟨origin, destination, some m2⟩).usable = some v2 →
          (j < i → DistanceService.figure mode v < DistanceService.figure mode v2) ∧
            DistanceService.figure mode v ≤ DistanceService.figure mode v2)) := by
  have hms : DistanceService.transportMethods "shuffle"
      = ["driving", "walking", "bicycling", "transit"] := by decide
  obtain ⟨hclock, b, hch, hres⟩ :=
    DistanceService.getDistance_chosen api t origin destination "shuffle" mode
  rw [hms] at hclock hch
  refine ⟨hclock, ?_⟩
  rcases hch with ⟨hb, hall⟩ | ⟨i, m, v, hi, hv, hb, hmin⟩
  · left
    subst hb
    exact ⟨hres, hall⟩
  · right
    subst hb
    have hmem : m ∈ ["driving", "walking", "bicycling", "transit"] := List.getElem?_mem hi
    have hne : m ≠ "" := by
      simp only [List.mem_cons, List.mem_singleton, List.not_mem_nil, or_false] at hmem
      rcases hmem with h | h | h | h <;> subst h <;> decide
    refine ⟨i, m, v, hi, hv, ?_, hmin⟩
    rw [hres]
    simp only [hne, ne_eq, not_false_eq_true, if_true]

/-- C12 over `fourModesApi`: in mode `time` driving and transit tie at 30 s and
driving, the earlier, is returned; in mode `distance` walking and transit tie at
200 m and walking is returned; four requests are issued either way. -/
theorem getDistance_shuffle_examples :
    DistanceService.getDistance fourModesApi 0 stopA.coords stopB.coords "shuffle" "time"
        = (some ⟨300, 30, "driving"⟩, 4) ∧
      DistanceService.getDistance fourModesApi 0 stopA.coords stopB.coords "shuffle" "distance"
        = (some ⟨200, 90, "walking"⟩, 4) ∧
      (DistanceService.getDistance fourModesApi 7 stopA.coords stopB.coords "shuffle" "time").2
        = 7 + 4 :=
  ⟨by decide, by decide,
    (getDistance_shuffle_keeps_earliest_minimum fourModesApi 7 stopA.coords stopB.coords
      "time").1⟩

/-- C13: for a method whose queried modes have names (any of `shuffle`, `driving`,
`walking`, `bicycling`, `transit` in either case), `getDistance` returns `null`
exactly when no queried mode gives a usable response; as soon as one mode gives
a usable response, whatever the others do, the result is the usable response of
some queried mode; and a response is unusable exactly when the request failed,
the rows are missing, the status is not OK, or the element lacks a value. -/
theorem getDistance_null_iff_all_modes_fail (api : Api) (t : Nat)
    (origin destination : Coords) (method mode : String)
    (hnames : ∀ m ∈ DistanceService.transportMethods method, m ≠ "") :
    ((DistanceService.getDistance api t origin destination method mode).1 = none ↔
      ∀ j m, (DistanceService.transportMethods method)[j]? = some m →
        (api (t + j) ⟨origin, destination, some m⟩).usable = none) ∧
    (∀ j m v, (DistanceService.transportMethods method)[j]? = some m →
      (api (t + j) ⟨origin, destination, some m⟩).usable = some v →
      ∃ i m2 v2, (DistanceService.transportMethods method)[i]? = some m2 ∧
        (api (t + i) ⟨origin, destination, some m2⟩).usable = some v2 ∧
        (DistanceService.getDistance api t origin destination method mode).1
          = some ⟨.fin v2.1, .fin v2.2, m2⟩) ∧
    (∀ r : Response, r.usable = none ↔
      r = .requestError ∨ r = .noRows ∨
        ∃ e, r = .element e ∧ (e.status ≠ "OK" ∨ e.distance = none ∨ e.duration = none)) := by
  obtain ⟨_, b, hch, hres⟩ :=
    DistanceService.getDistance_chosen api t origin destination method mode
  have hsome : ∀ (i : Nat) (m : String) (v : Nat × Nat),
      (DistanceService.transportMethods method)[i]? = some m →
      b = ⟨.fin v.1, .fin v.2, some m⟩ →
      (DistanceService.getDistance api t origin destination method mode).1
        = some ⟨.fin v.1, .fin v.2, m⟩ := by
    intro i m v hi hb
    have hne : m ≠ "" := hnames m (List.getElem?_mem hi)
    rw [hres, hb]
    simp only [hne, ne_eq, not_false_eq_true, if_true]
  refine ⟨?_, ?_, ?_⟩
  · constructor
    · intro hnone
      rcases hch with ⟨_, hall⟩ | ⟨i, m, v, hi, _, hb, _⟩
      · exact hall
      · rw [hsome i m v hi hb] at hnone
        cases hnone
    · intro hall
      rcases hch with ⟨hb, _⟩ | ⟨i, m, v, hi, hv, _, _⟩
      · rw [hres, hb]
      · rw [hall i m hi] at hv
        cases hv
  · intro j m v hj hv
    rcases hch with ⟨_, hall⟩ | ⟨i, m2, v2, hi, hv2, hb, _⟩
    · rw [hall j m hj] at hv
      cases hv
    · exact ⟨i, m2, v2, hi, hv2, hsome i m2 v2 hi hb⟩
  · intro r
    cases r with
    | requestError => simp [Response.usable]
    | noRows => simp [Response.usable]
    | element e =>
      simp only [Response.usable]
      by_cases hs : e.status = "OK"
      · cases hd : e.distance <;> cases hu : e.duration <;> simp [hs, hd, hu]
      · simp [hs]

/-- C13 at the method `DRIVING`: over `failingApi` the one queried mode fails and
the result is `null`; over `exampleApi` the leg A to B is returned. -/
theorem getDistance_null_iff_all_modes_fail_witness :
    (∀ m ∈ DistanceService.transportMethods "DRIVING", m ≠ "") ∧
      (DistanceService.getDistance failingApi 0 stopA.coords stopB.coords "DRIVING" "time").1
        = none ∧
      (DistanceService.getDistance exampleApi 0 stopA.coords stopB.coords "DRIVING" "time").1
        = some ⟨100, 10, "driving"⟩ := by
  have hnames : ∀ m ∈ DistanceService.transportMethods "DRIVING", m ≠ "" := by decide
  refine ⟨hnames, ?_, by decide⟩
  exact (getDistance_null_iff_all_modes_fail failingApi 0 stopA.coords stopB.coords "DRIVING"
    "time" hnames).1.mpr (fun _ _ _ => rfl)

/-! ## Nearest neighbour without candidates -/

namespace NearestNeighbour

/-- A scan in which no query for an unvisited stop succeeds ends without a
nearest city. -/
theorem foldl_scanStep_none (api : Api) (route : List Destination)
    (mode transportMethod : String) (cur : Nat) (visited : List Nat)
    (hfail : ∀ t a b i, route[cur]? = some a → i ∉ visited → route[i]? = some b →
      (DistanceService.getDistance api t a.coords b.coords transportMethod mode).1 = none)
    (is : List Nat) :
    ∀ acc : Scan × Nat, acc.1.nearestCityIndex = none →
      (is.foldl (scanStep api route mode transportMethod cur visited) acc).1.nearestCityIndex
        = none := by
  induction is with
  | nil => intro acc h; exact h
  | cons i is ih =>
    intro acc h
    rw [List.foldl_cons]
    apply ih
    rcases scanStep_cases api route mode transportMethod cur visited acc i with
      h1 | ⟨_, hv, a, b, d, ha, hb, hd, _⟩
    · rw [h1]; exact h
    · rw [hfail acc.2 a b i ha hv hb] at hd
      cases hd

/-- As long as no query from the current city to an unvisited stop succeeds, the
loop with stops left to visit does not return: every amount of fuel runs out. -/
theorem loop_stuck (api : Api) (route : List Destination) (mode transportMethod : String) :
    ∀ (fuel : Nat) (s : State), s.visitedCities.length < route.length →
      (∀ t a b i, route[s.currentCityIndex]? = some a → i ∉ s.visitedCities →
        route[i]? = some b →
        (DistanceService.getDistance api t a.coords b.coords transportMethod mode).1 = none) →
      loop api route mode transportMethod fuel s = .outOfFuel := by
  intro fuel
  induction fuel with
  | zero =>
    intro s hlt _
    unfold loop
    simp only [hlt, if_true]
  | succ f ih =>
    intro s hlt hfail
    unfold loop
    simp only [hlt, if_true]
    have hnone : (scan api route mode transportMethod s.currentCityIndex s.visitedCities
        s.clock).1.nearestCityIndex = none :=
      foldl_scanStep_none api route mode transportMethod s.currentCityIndex s.visitedCities
        hfail _ _ rfl
    rcases round_cases api route mode transportMethod s with ⟨_, hr⟩ | ⟨j, hj, _⟩
    · rw [hr]
      exact ih _ hlt hfail
    · rw [hnone] at hj
      cases hj

/-- Whatever `nearestNeighbourSolution` returns on a non-empty route is a
complete order: a permutation of the route, never a part of it. -/
theorem result_complete (api : Api) (fuel clock : Nat) (route : List Destination)
    (mode transportMethod : String) (r : OptimizedResult) (c : Nat) (hn : 1 ≤ route.length)
    (h : nearestNeighbourSolution api fuel clock route mode transportMethod = .ok (r, c)) :
    r.optimizedRoute.Perm route := by
  unfold nearestNeighbourSolution at h
  split at h
  · rename_i s hs
    simp only [Run.ok.injEq, Prod.mk.injEq] at h
    obtain ⟨hr, _⟩ := h
    subst hr
    have hinv := loop_invariant api route mode transportMethod (fun s => s.Good route)
      (fun s hs => round_good api route mode transportMethod s hs) fuel (init route clock) s
      (init_good route clock hn) hs
    have hle := hinv.1.length_le
    exact hinv.1.perm (by omega)
  · cases h
  · cases h

end NearestNeighbour

/-- C17, the code at its failing input: over `unreachableCApi` the route A, B, C
gets B in the first round and finds no candidate in the second, since no route
to C is found; the planner then repeats that round and never returns, whatever
the number of rounds allowed, instead of returning the partial order A, B. -/
theorem nearestNeighbour_repeats_round_without_candidate (fuel : Nat) :
    NearestNeighbour.round unreachableCApi [stopA, stopB, stopC] "time" "driving"
        (NearestNeighbour.init [stopA, stopB, stopC] 0)
      = ⟨1, [0, 1], 100, 10, [stopA, stopB], [some "none", some "driving"], 2⟩ ∧
    (NearestNeighbour.scan unreachableCApi [stopA, stopB, stopC] "time" "driving" 1 [0, 1]
        2).1.nearestCityIndex = none ∧
    NearestNeighbour.nearestNeighbourSolution unreachableCApi fuel 0 [stopA, stopB, stopC]
        "time" "driving" = .outOfFuel := by
  have hround : NearestNeighbour.round unreachableCApi [stopA, stopB, stopC] "time" "driving"
      (NearestNeighbour.init [stopA, stopB, stopC] 0)
      = ⟨1, [0, 1], 100, 10, [stopA, stopB], [some "none", some "driving"], 2⟩ := by decide
  refine ⟨hround, by decide, ?_⟩
  have hstuck : ∀ f, NearestNeighbour.loop unreachableCApi [stopA, stopB, stopC] "time"
      "driving" f ⟨1, [0, 1], 100, 10, [stopA, stopB], [some "none", some "driving"], 2⟩
      = .outOfFuel := by
    intro f
    apply NearestNeighbour.loop_stuck
    · decide
    · intro t a b i ha hv hb
      have hi : i < 3 := (List.getElem?_eq_some_iff.mp hb).1
      have ha2 : a = stopB := by
        simp only [List.getElem?_cons_succ, List.getElem?_cons_zero, Option.some.injEq] at ha
        exact ha.symm
      subst ha2
      rw [DistanceService.getDistance_clock unreachableCApi (fun _ _ _ => rfl) t 0]
      interval_cases i
      · exact absurd (by decide) hv
      · exact absurd (by decide) hv
      · simp only [List.getElem?_cons_succ, List.getElem?_cons_zero, Option.some.injEq] at hb
        subst hb
        decide
  unfold NearestNeighbour.nearestNeighbourSolution
  cases fuel with
  | zero =>
    have h0 : NearestNeighbour.loop unreachableCApi [stopA, stopB, stopC] "time" "driving" 0
        (NearestNeighbour.init [stopA, stopB, stopC] 0) = .outOfFuel := by decide
    rw [h0]
  | succ f =>
    have h1 : NearestNeighbour.loop unreachableCApi [stopA, stopB, stopC] "time" "driving"
        (f + 1) (NearestNeighbour.init [stopA, stopB, stopC] 0)
        = NearestNeighbour.loop unreachableCApi [stopA, stopB, stopC] "time" "driving" f
          (NearestNeighbour.round unreachableCApi [stopA, stopB, stopC] "time" "driving"
            (NearestNeighbour.init [stopA, stopB, stopC] 0)) := by
      rw [NearestNeighbour.loop]
      have hlt : (NearestNeighbour.init [stopA, stopB, stopC] 0).visitedCities.length
          < [stopA, stopB, stopC].length := by decide
      simp only [hlt, if_true]
    rw [h1, hround, hstuck f]

/-! ## Simulated annealing without costs -/

namespace JSNum

theorem add_inf (a : JSNum) : a + inf = inf := by
  cases a <;> rfl

theorem inf_add (a : JSNum) : inf + a = inf := rfl

end JSNum

namespace SimulatedAnnealing

theorem getOptimalDistance_unavailable (api : Api) (w : World) (a b : Coords)
    (transportMethod mode : String) (hcache : w.distanceCache = [])
    (hfail : ∀ t a b, (DistanceService.getDistance api t a b transportMethod mode).1 = none) :
    (getOptimalDistance api w a b transportMethod mode).1 = none ∧
      (getOptimalDistance api w a b transportMethod mode).2.distanceCache = [] := by
  unfold getOptimalDistance
  rw [hcache]
  simp only [List.lookup, hfail]
  exact ⟨trivial, trivial⟩

theorem totalDistanceLoop_unavailable (api : Api) (mode transportMethod : String)
    (hfail : ∀ t a b, (DistanceService.getDistance api t a b transportMethod mode).1 = none) :
    ∀ (l : List Destination) (acc : JSNum × World), acc.2.distanceCache = [] →
      (totalDistanceLoop api mode transportMethod l acc).1
          = (if 2 ≤ l.length then JSNum.inf else acc.1) ∧
        (totalDistanceLoop api mode transportMethod l acc).2.distanceCache = [] := by
  intro l
  induction l with
  | nil => intro acc h; exact ⟨rfl, h⟩
  | cons a rest ih =>
    intro acc h
    cases rest with
    | nil => exact ⟨rfl, h⟩
    | cons b rest =>
      rw [totalDistanceLoop]
      have hq := getOptimalDistance_unavailable api acc.2 a.coords b.coords transportMethod mode
        h hfail
      have hrec := ih
        (match (getOptimalDistance api acc.2 a.coords b.coords transportMethod mode).1 with
          | some distanceData => acc.1 + distanceData.distanceValue
          | none => acc.1 + JSNum.inf,
         (getOptimalDistance api acc.2 a.coords b.coords transportMethod mode).2) hq.2
      refine ⟨?_, hrec.2⟩
      rw [hrec.1]
      have h2 : 2 ≤ (a :: b :: rest).length := by simp
      simp only [h2, if_true]
      split
      · rfl
      · simp only [hq.1, JSNum.add_inf]

theorem calculateTotalDistance_unavailable (api : Api) (mode transportMethod : String)
    (hfail : ∀ t a b, (DistanceService.getDistance api t a b transportMethod mode).1 = none)
    (l : List Destination) (w : World) (hcache : w.distanceCache = []) :
    (calculateTotalDistance api l mode transportMethod w).1
        = (if 2 ≤ l.length then JSNum.inf else 0) ∧
      (calculateTotalDistance api l mode transportMethod w).2.distanceCache = [] :=
  totalDistanceLoop_unavailable api mode transportMethod hfail l (0, w) hcache

theorem totalTimeLoop_empty (transportMethods : List String) :
    ∀ (l : List Destination) (i : Nat) (acc : JSNum),
      totalTimeLoop [] transportMethods i l acc = (if 2 ≤ l.length then JSNum.inf else acc) := by
  intro l
  induction l with
  | nil => intro i acc; rfl
  | cons a rest ih =>
    intro i acc
    cases rest with
    | nil => rfl
    | cons b rest =>
      rw [totalTimeLoop, ih]
      have h2 : 2 ≤ (a :: b :: rest).length := by simp
      simp only [h2, if_true, List.lookup, JSNum.add_inf]
      split <;> rfl

theorem initMethodsLoop_unavailable (api : Api) (mode transportMethod : String)
    (hfail : ∀ t a b, (DistanceService.getDistance api t a b transportMethod mode).1 = none) :
    ∀ (l : List Destination) (i : Nat) (acc : List (Option String) × World),
      acc.2.distanceCache = [] →
      (initMethodsLoop api mode transportMethod i l acc).2.distanceCache = [] := by
  intro l
  induction l with
  | nil => intro i acc h; exact h
  | cons a rest ih =>
    intro i acc h
    cases rest with
    | nil => exact h
    | cons b rest =>
      rw [initMethodsLoop]
      exact ih (i + 1) _
        (getOptimalDistance_unavailable api acc.2 a.coords b.coords transportMethod mode h
          hfail).2

/-- A property of the state at the start of the loop that every pass keeps holds
of the state from which `simulatedAnnealingSolution` builds its result. -/
theorem result_invariant (env : Env) (w : World) (route : List Destination)
    (mode transportMethod : String) (hroute : route ≠ []) (P : State → Prop)
    (hinit : P (initialState env w route mode transportMethod))
    (hstep : ∀ s, P s → P (step env mode transportMethod s)) :
    ∃ s : State,
      simulatedAnnealingSolution env w route mode transportMethod
        = .ok (⟨s.bestSolution, s.bestDistance, s.bestTime, s.optimizedRouteMethods⟩, s.world) ∧
      P s := by
  have hlen : route.length ≠ 0 := fun h => hroute (List.length_eq_zero.mp h)
  exact ⟨anneal env mode transportMethod (initialState env w route mode transportMethod),
    by simp only [simulatedAnnealingSolution, hlen, if_false],
    anneal_invariant env mode transportMethod P hstep _ hinit⟩

/-- A pass whose current order is not cheaper than the best one afterwards
changes neither the best order nor its figures. -/
theorem step_of_move (env : Env) (mode transportMethod : String) (s : State)
    (hno : ¬ (move env mode transportMethod s).currentDistance
      < (move env mode transportMethod s).bestDistance) :
    step env mode transportMethod s =
      { move env mode transportMethod s with
        temperature := (move env mode transportMethod s).temperature * (1 - coolingRate) } := by
  unfold step
  have hupd : updateBest env mode transportMethod (move env mode transportMethod s)
      = move env mode transportMethod s := by
    unfold updateBest
    simp only [hno, if_false]
  simp only [hupd]

/-- With an empty cache and a routing service that answers no cost query,
`simulatedAnnealingSolution` on a non-empty route returns the input order; both
totals are `Infinity` for 2 or more stops and zero for a single stop. -/
theorem result_unavailable (env : Env) (w : World) (route : List Destination)
    (mode transportMethod : String) (hroute : route ≠ []) (hcache : w.distanceCache = [])
    (hfail : ∀ t a b,
      (DistanceService.getDistance env.api t a b transportMethod mode).1 = none) :
    ∃ r w2, simulatedAnnealingSolution env w route mode transportMethod = .ok (r, w2) ∧
      r.optimizedRoute = route ∧
      r.totalDistance = (if 2 ≤ route.length then JSNum.inf else 0) ∧
      r.totalTime = (if 2 ≤ route.length then JSNum.inf else 0) := by
  have hd := calculateTotalDistance_unavailable env.api mode transportMethod hfail route w hcache
  obtain ⟨s, hs, hbest, _, _, hbd, hbt, _⟩ := result_invariant env w route mode transportMethod
    hroute
    (fun s => s.bestSolution = route ∧ s.currentSolution.length = route.length ∧
      s.currentDistance = (if 2 ≤ route.length then JSNum.inf else 0) ∧
      s.bestDistance = (if 2 ≤ route.length then JSNum.inf else 0) ∧
      s.bestTime = (if 2 ≤ route.length then JSNum.inf else 0) ∧
      s.world.distanceCache = [])
    (by
      refine ⟨rfl, rfl, hd.1, hd.1, ?_, ?_⟩
      · show calculateTotalTime _ route _ = _
        rw [hd.2]
        exact totalTimeLoop_empty _ route 0 0
      · exact initMethodsLoop_unavailable env.api mode transportMethod hfail route 0 _ hd.2)
    (by
      intro s ⟨hbest, hcur, hcd, hbd, hbt, hc⟩
      have hnew : (newSolution env s).length = route.length := by
        rw [← hcur]
        exact (swap_perm _ _ _).length_eq
      have hdn := calculateTotalDistance_unavailable env.api mode transportMethod hfail
        (newSolution env s) { s.world with draws := s.world.draws + 2 } hc
      rw [hnew] at hdn
      have hmove : (move env mode transportMethod s).bestSolution = route ∧
          (move env mode transportMethod s).currentSolution.length = route.length ∧
          (move env mode transportMethod s).currentDistance
            = (if 2 ≤ route.length then JSNum.inf else 0) ∧
          (move env mode transportMethod s).bestDistance
            = (if 2 ≤ route.length then JSNum.inf else 0) ∧
          (move env mode transportMethod s).bestTime
            = (if 2 ≤ route.length then JSNum.inf else 0) ∧
          (move env mode transportMethod s).world.distanceCache = [] := by
        unfold move
        simp only
        split
        · exact ⟨hbest, hnew, hdn.1, hbd, hbt, hdn.2⟩
        · exact ⟨hbest, hcur, hcd, hbd, hbt, hdn.2⟩
      have hno : ¬ (move env mode transportMethod s).currentDistance
          < (move env mode transportMethod s).bestDistance := by
        rw [hmove.2.2.1, hmove.2.2.2.1]
        exact JSNum.not_lt_self _
      rw [step_of_move env mode transportMethod s hno]
      exact hmove)
  exact ⟨_, _, hs, hbest, hbd, hbt⟩

end SimulatedAnnealing

/-- A routing service without a usable response answers no cost query. -/
theorem DistanceService.getDistance_of_no_usable (api : Api)
    (hfail : ∀ t r, (api t r).usable = none) (t : Nat) (origin destination : Coords)
    (method mode : String) :
    (DistanceService.getDistance api t origin destination method mode).1 = none := by
  obtain ⟨_, b, hch, hres⟩ :=
    DistanceService.getDistance_chosen api t origin destination method mode
  rcases hch with ⟨hb, _⟩ | ⟨i, m, v, _, hv, _, _⟩
  · rw [hres, hb]
  · rw [hfail] at hv
    cases hv

/-- C19, as the code has it: with an empty cache and every cost query
unavailable, `simulatedAnnealingSolution` on a non-empty route returns without
throwing, with the stops in their input order; `totalDistance` and `totalTime`
are both `Infinity` when the route has 2 or more stops, and both zero when it
has one. -/
theorem simulatedAnnealing_without_costs_returns_input_order (env : Env) (w : World)
    (route : List Destination) (mode transportMethod : String) (hroute : route ≠ [])
    (hcache : w.distanceCache = [])
    (hfail : ∀ t a b,
      (DistanceService.getDistance env.api t a b transportMethod mode).1 = none) :
    ∃ r w2, SimulatedAnnealing.simulatedAnnealingSolution env w route mode transportMethod
        = .ok (r, w2) ∧
      r.optimizedRoute = route ∧
      r.totalDistance = (if 2 ≤ route.length then JSNum.inf else 0) ∧
      r.totalTime = (if 2 ≤ route.length then JSNum.inf else 0) :=
  SimulatedAnnealing.result_unavailable env w route mode transportMethod hroute hcache hfail

/-- C19 at the routes B, C and B alone over `failingEnv`. -/
theorem simulatedAnnealing_without_costs_witness :
    (∃ r w2, SimulatedAnnealing.simulatedAnnealingSolution failingEnv emptyWorld
        [stopB, stopC] "time" "driving" = .ok (r, w2) ∧
      r.optimizedRoute = [stopB, stopC] ∧ r.totalDistance = JSNum.inf ∧
      r.totalTime = JSNum.inf) ∧
    (∃ r w2, SimulatedAnnealing.simulatedAnnealingSolution failingEnv emptyWorld
        [stopB] "time" "driving" = .ok (r, w2) ∧
      r.optimizedRoute = [stopB] ∧ r.totalDistance = 0 ∧ r.totalTime = 0) :=
  ⟨simulatedAnnealing_without_costs_returns_input_order failingEnv emptyWorld [stopB, stopC]
      "time" "driving" (by decide) rfl
      (fun t a b => DistanceService.getDistance_of_no_usable failingApi (fun _ _ => rfl) t a b
        "driving" "time"),
    simulatedAnnealing_without_costs_returns_input_order failingEnv emptyWorld [stopB]
      "time" "driving" (by decide) rfl
      (fun t a b => DistanceService.getDistance_of_no_usable failingApi (fun _ _ => rfl) t a b
        "driving" "time")⟩

/-- C19 fails as stated: over `failingEnv` the route B, C comes back in its input
order with `totalDistance` and `totalTime` both `Infinity`, which is a number
and is not zero. -/
theorem simulatedAnnealing_without_costs_totals_are_infinite :
    ∃ r w2, SimulatedAnnealing.simulatedAnnealingSolution failingEnv emptyWorld
        [stopB, stopC] "time" "driving" = .ok (r, w2) ∧
      r.optimizedRoute = [stopB, stopC] ∧
      r.totalDistance = JSNum.inf ∧ r.totalDistance ≠ 0 ∧
      r.totalTime = JSNum.inf ∧ r.totalTime ≠ 0 := by
  obtain ⟨r, w2, h, horder, hd, ht⟩ := SimulatedAnnealing.result_unavailable failingEnv
    emptyWorld [stopB, stopC] "time" "driving" (by decide) rfl
    (fun t a b => DistanceService.getDistance_of_no_usable failingApi (fun _ _ => rfl) t a b
      "driving" "time")
  have hd2 : r.totalDistance = JSNum.inf := hd
  have ht2 : r.totalTime = JSNum.inf := ht
  exact ⟨r, w2, h, horder, hd2, by rw [hd2]; decide, ht2, by rw [ht2]; decide⟩

/-! ## Simulated annealing: the time of the input order -/

namespace SimulatedAnnealing

theorem exampleApi_leg_CB (t : Nat) :
    DistanceService.getDistance exampleApi t stopC.coords stopB.coords "driving" "time"
      = (some ⟨1000, 100, "driving"⟩, t + 1) := by
  have h1 := DistanceService.getDistance_clock exampleApi (fun _ _ _ => rfl) t 0 stopC.coords
    stopB.coords "driving" "time"
  have h2 := (DistanceService.getDistance_chosen exampleApi t stopC.coords stopB.coords
    "driving" "time").1
  have h3 : (DistanceService.getDistance exampleApi 0 stopC.coords stopB.coords "driving"
      "time").1 = some ⟨1000, 100, "driving"⟩ := by decide
  have h4 : (DistanceService.transportMethods "driving").length = 1 := by decide
  rw [h3] at h1
  rw [h4] at h2
  exact Prod.ext h1 h2

/-- Over `exampleApi`, with a cache that holds nothing else for the leg C to B,
the order C, B costs 1000 m, and the cache stays so. -/
theorem exampleApi_cost_CB (w : World)
    (hc : w.distanceCache.lookup (stopC.coords, stopB.coords, "driving") = none ∨
      w.distanceCache.lookup (stopC.coords, stopB.coords, "driving")
        = some ⟨1000, 100, "driving"⟩) :
    (calculateTotalDistance exampleApi [stopC, stopB] "time" "driving" w).1 = 1000 ∧
      ((calculateTotalDistance exampleApi [stopC, stopB] "time" "driving"
            w).2.distanceCache.lookup (stopC.coords, stopB.coords, "driving") = none ∨
        (calculateTotalDistance exampleApi [stopC, stopB] "time" "driving"
            w).2.distanceCache.lookup (stopC.coords, stopB.coords, "driving")
          = some ⟨1000, 100, "driving"⟩) := by
  unfold calculateTotalDistance
  rw [totalDistanceLoop]
  simp only [totalDistanceLoop]
  rcases hc with hc | hc
  · simp only [getOptimalDistance, hc, exampleApi_leg_CB]
    refine ⟨by decide, Or.inr ?_⟩
    simp [List.lookup]
  · simp only [getOptimalDistance, hc]
    exact ⟨by decide, Or.inr trivial⟩

theorem exampleEnv_newSolution (s : State) (h : s.currentSolution = [stopB, stopC]) :
    newSolution exampleEnv s = [stopC, stopB] := by
  simp [newSolution, floorMul, exampleEnv, swap, h]

theorem exampleEnv_rejects (temperature : ℚ) (draw : Nat) :
    accepts exampleEnv 50 1000 temperature draw = false := by
  have hlt : ¬ ((1000 : JSNum) < 50) := by decide
  simp only [accepts, acceptanceProbability, hlt, if_false]
  show decide ((exampleEnv.rand draw).1 < exampleEnv.mathExp _) = false
  simp [exampleEnv]

/-- Over `exampleEnv` the route B, C, whose input order costs 50 m and whose only
neighbour C, B costs 1000 m, is returned as it came, with the `totalTime`
computed before the loop: `Infinity`. -/
theorem exampleEnv_result_BC :
    ∃ r w2, simulatedAnnealingSolution exampleEnv emptyWorld [stopB, stopC] "time" "driving"
        = .ok (r, w2) ∧
      r.optimizedRoute = [stopB, stopC] ∧ r.totalDistance = 50 ∧ r.totalTime = JSNum.inf := by
  obtain ⟨s, hs, _, hbest, _, hbd, hbt, _⟩ := result_invariant exampleEnv emptyWorld
    [stopB, stopC] "time" "driving" (by decide)
    (fun s => s.currentSolution = [stopB, stopC] ∧ s.bestSolution = [stopB, stopC] ∧
      s.currentDistance = 50 ∧ s.bestDistance = 50 ∧ s.bestTime = JSNum.inf ∧
      (s.world.distanceCache.lookup (stopC.coords, stopB.coords, "driving") = none ∨
        s.world.distanceCache.lookup (stopC.coords, stopB.coords, "driving")
          = some ⟨1000, 100, "driving"⟩))
    (by
      refine ⟨rfl, rfl, by decide, by decide, by decide, Or.inl (by decide)⟩)
    (by
      intro s ⟨hcur, hbest, hcd, hbd, hbt, hc⟩
      have hcost := exampleApi_cost_CB { s.world with draws := s.world.draws + 2 } hc
      have hmove : move exampleEnv "time" "driving" s =
          { s with world :=
            { (calculateTotalDistance exampleEnv.api [stopC, stopB] "time" "driving"
                { s.world with draws := s.world.draws + 2 }).2 with
              draws := (calculateTotalDistance exampleEnv.api [stopC, stopB] "time" "driving"
                { s.world with draws := s.world.draws + 2 }).2.draws + 1 } } := by
        unfold move
        simp only [exampleEnv_newSolution s hcur, hcd]
        have hd : (calculateTotalDistance exampleEnv.api [stopC, stopB] "time" "driving"
            { s.world with draws := s.world.draws + 2 }).1 = 1000 := hcost.1
        rw [hd, exampleEnv_rejects]
        simp only [Bool.false_eq_true, if_false]
      have hno : ¬ (move exampleEnv "time" "driving" s).currentDistance
          < (move exampleEnv "time" "driving" s).bestDistance := by
        rw [hmove]
        show ¬ s.currentDistance < s.bestDistance
        rw [hcd, hbd]
        decide
      rw [step_of_move exampleEnv "time" "driving" s hno, hmove]
      exact ⟨hcur, hbest, hcd, hbd, hbt, hcost.2⟩)
  exact ⟨_, _, hs, hbest, hbd, hbt⟩

end SimulatedAnnealing

/-- C18, the code at its failing input: over `exampleEnv`, where every leg cost is
available, the route B, C is returned in its input order with `totalTime`
`Infinity`, while the one leg B to C takes 5 seconds: `calculateTotalTime` is
called with the transport method string where it expects the list of per-leg
methods, looks the cache up under the one-letter method "r", and finds
nothing. -/
theorem simulatedAnnealing_input_order_time_is_infinite :
    (∃ r w2, SimulatedAnnealing.simulatedAnnealingSolution exampleEnv emptyWorld
        [stopB, stopC] "time" "driving" = .ok (r, w2) ∧
      r.optimizedRoute = [stopB, stopC] ∧ r.totalTime = JSNum.inf) ∧
    legTotals (legCost exampleApi "time" "driving") [stopB, stopC] = some (50, 5) ∧
    SimulatedAnnealing.stringIndices "driving" = ["d", "r", "i", "v", "i", "n", "g"] ∧
    (SimulatedAnnealing.initialState exampleEnv emptyWorld [stopB, stopC] "time"
      "driving").bestTime = JSNum.inf := by
  obtain ⟨r, w2, h, horder, _, ht⟩ := SimulatedAnnealing.exampleEnv_result_BC
  exact ⟨⟨r, w2, h, horder, ht⟩, by decide, by decide, by decide⟩

/-! ## The pointer in reachable states -/

namespace RoutePage

theorem checkProximityResume_optimizedRoute (d : Option ProximityData) (p : RoutePage) :
    (checkProximityResume d p).rm.optimizedRoute = p.rm.optimizedRoute := by
  rcases checkProximityResume_cases d p with h | ⟨next, _, h⟩ | h
  · rw [h]
  · rw [h]
  · rw [h]
    rfl

/-- A position update keeps `optimizedRoute`; it leaves the pointer or advances
it by one, and an advanced pointer is at most `optimizedRoute.length`. -/
theorem positionUpdate_pointer (api : Api) (p : RoutePage) (location : Coords) :
    (positionUpdate api p location).rm.optimizedRoute = p.rm.optimizedRoute ∧
      ((positionUpdate api p location).rm.currentDestination = p.rm.currentDestination ∨
        ((positionUpdate api p location).rm.currentDestination = p.rm.currentDestination + 1 ∧
          p.rm.currentDestination + 1 ≤ p.rm.optimizedRoute.length)) := by
  cases hc : p.routeCompleted with
  | true =>
    rw [positionUpdate_of_no_target api p location (Or.inl hc)]
    exact ⟨rfl, Or.inl rfl⟩
  | false =>
    cases ht : p.rm.optimizedRoute[p.rm.currentDestination]? with
    | none =>
      rw [positionUpdate_of_no_target api p location (Or.inr ht)]
      exact ⟨rfl, Or.inl rfl⟩
    | some target =>
      have hlt : p.rm.currentDestination < p.rm.optimizedRoute.length :=
        (List.getElem?_eq_some_iff.mp ht).1
      rw [positionUpdate_of_target api p location target hc ht]
      refine ⟨checkProximityResume_optimizedRoute _ _, ?_⟩
      rw [checkProximityResume_currentDestination]
      cases (RouteManager.getDistance api p.clock location target.coords
          ((p.rm.optimizedRouteMethod[p.rm.currentDestination]?).join)).1 with
      | none => exact Or.inl rfl
      | some d =>
        by_cases hd : d.distanceValue < 75
        · right
          simp only [hd, if_true]
          exact ⟨by show min _ _ = _; omega, hlt⟩
        · left
          simp only [hd, if_false]

end RoutePage

theorem RouteManager.optimizeRoute_currentDestination (env : Env) (fuel : Nat)
    (rm rm2 : RouteManager) (w w2 : World)
    (h : RouteManager.optimizeRoute env fuel rm w = .ok (rm2, w2)) :
    rm2.currentDestination = rm.currentDestination := by
  unfold RouteManager.optimizeRoute at h
  split at h
  · split at h
    · split at h
      · simp only [Run.ok.injEq, Prod.mk.injEq] at h
        rw [← h.1]; rfl
      · cases h
      · simp only [Run.ok.injEq, Prod.mk.injEq] at h
        rw [← h.1]
    · split at h
      · simp only [Run.ok.injEq, Prod.mk.injEq] at h
        rw [← h.1]; rfl
      · cases h
      · simp only [Run.ok.injEq, Prod.mk.injEq] at h
        rw [← h.1]
  · simp only [Run.ok.injEq, Prod.mk.injEq] at h
    rw [← h.1]

/-! ## Reachable sessions -/

namespace RouteManager

theorem Reachable.initial (env : Env) : Reachable env RouteManager.initial :=
  ⟨[], ReachableSession.initial⟩

theorem Reachable.addDestination {env : Env} {rm : RouteManager} (destination : Destination)
    (h : Reachable env rm) : Reachable env (rm.addDestination destination) := by
  obtain ⟨pending, hs⟩ := h
  exact ⟨pending, ReachableSession.step hs (Step.addDestination ⟨rm, pending⟩ destination)⟩

theorem Reachable.removeDestination {env : Env} {rm : RouteManager} (index : Int)
    (h : Reachable env rm) : Reachable env (rm.removeDestination index) := by
  obtain ⟨pending, hs⟩ := h
  exact ⟨pending, ReachableSession.step hs (Step.removeDestination ⟨rm, pending⟩ index)⟩

theorem Reachable.optimizeRoute {env : Env} {rm rm2 : RouteManager} (fuel : Nat) (w w2 : World)
    (h : Reachable env rm) (hopt : RouteManager.optimizeRoute env fuel rm w = .ok (rm2, w2)) :
    Reachable env rm2 := by
  obtain ⟨pending, hs⟩ := h
  exact ⟨pending, ReachableSession.step hs (Step.optimizeRoute ⟨rm, pending⟩ fuel w w2 rm2 hopt)⟩

/-- The session after A and B were entered and optimized over `exampleEnv`: no
answer is awaited. -/
theorem reachableSession_enteredAB :
    ReachableSession exampleEnv ⟨managerEnteredAB, []⟩ :=
  ReachableSession.step
    (ReachableSession.step
      (ReachableSession.step ReachableSession.initial
        (Step.addDestination ⟨RouteManager.initial, []⟩ stopA))
      (Step.addDestination ⟨RouteManager.initial.addDestination stopA, []⟩ stopB))
    (Step.optimizeRoute ⟨(RouteManager.initial.addDestination stopA).addDestination stopB, []⟩
      1 emptyWorld ⟨[], 4, 0⟩ managerEnteredAB (by decide))

/-- The session in which `clearRoute()` ran while a position update at B awaited
its answer, and the answer was handled afterwards. -/
theorem reachableSession_clearedDuringUpdate :
    ReachableSession exampleEnv
      ⟨(RoutePage.checkProximityResume (some ⟨0, 0, some "driving"⟩)
        (pageOf managerEnteredAB.clearRoute)).rm, []⟩ := by
  have h1 : ReachableSession exampleEnv ⟨managerEnteredAB, [some ⟨0, 0, some "driving"⟩]⟩ :=
    ReachableSession.step reachableSession_enteredAB
      (Step.request ⟨managerEnteredAB, []⟩ (pageOf managerEnteredAB) ⟨1, 0⟩
        (some ⟨0, 0, some "driving"⟩)
        { pageOf managerEnteredAB with currentLocation := some ⟨1, 0⟩, clock := 1 }
        rfl (by decide))
  have h2 : ReachableSession exampleEnv
      ⟨managerEnteredAB.clearRoute, [some ⟨0, 0, some "driving"⟩]⟩ :=
    ReachableSession.step h1
      (Step.clearRoute ⟨managerEnteredAB, [some ⟨0, 0, some "driving"⟩]⟩)
  exact ReachableSession.step h2
    (Step.answer ⟨managerEnteredAB.clearRoute, [some ⟨0, 0, some "driving"⟩]⟩
      (pageOf managerEnteredAB.clearRoute) (some ⟨0, 0, some "driving"⟩) rfl
      (List.mem_singleton.mpr rfl))

end RouteManager

/-- C20, as the code has it: the pointer is never negative (it is a natural
number in the model: the code assigns it 1 or the minimum of two non-negative
integers), and an event of a session writes it in two ways only.  The method `clearRoute()`
sets it to 1; the handling of an answer below 75 m sets it to
`min(currentDestination + 1, optimizedRoute.length)`, both read when the answer
is handled, which is at most `optimizedRoute.length`; every other event, and an
answer of 75 m or more or `null`, leaves it as it was. -/
theorem step_writes_pointer_within_route (env : Env) (s s2 : Session)
    (h : RouteManager.Step env s s2) :
    0 ≤ s2.rm.currentDestination ∧
      (s2.rm.currentDestination = s.rm.currentDestination ∨
        (s2.rm = s.rm.clearRoute ∧ s2.rm.currentDestination = 1) ∨
        (s2.rm.optimizedRoute = s.rm.optimizedRoute ∧
          s2.rm.currentDestination
            = min (s.rm.currentDestination + 1) s.rm.optimizedRoute.length ∧
          s2.rm.currentDestination ≤ s2.rm.optimizedRoute.length)) := by
  refine ⟨Nat.zero_le _, ?_⟩
  cases h with
  | addDestination destination => exact Or.inl rfl
  | removeDestination index =>
    left
    show (s.rm.removeDestination index).currentDestination = s.rm.currentDestination
    unfold RouteManager.removeDestination
    split <;> rfl
  | clearRoute => exact Or.inr (Or.inl ⟨rfl, rfl⟩)
  | optimizeRoute fuel w w2 rm2 hopt =>
    exact Or.inl (RouteManager.optimizeRoute_currentDestination env fuel s.rm rm2 w w2 hopt)
  | leaveRoutePage => exact Or.inl rfl
  | request p location distanceData p1 hp hbegin => exact Or.inl rfl
  | answer p distanceData hp hmem =>
    have hroute : (RoutePage.checkProximityResume distanceData p).rm.optimizedRoute
        = s.rm.optimizedRoute := by
      rw [RoutePage.checkProximityResume_optimizedRoute, hp]
    have hptr := RoutePage.checkProximityResume_currentDestination distanceData p
    cases distanceData with
    | none =>
      left
      rw [hptr, hp]
    | some d =>
      by_cases hd : d.distanceValue < 75
      · right; right
        simp only [hd, if_true] at hptr
        refine ⟨hroute, ?_, ?_⟩
        · show (RoutePage.checkProximityResume (some d) p).rm.currentDestination = _
          rw [hptr, hp]
        · show (RoutePage.checkProximityResume (some d) p).rm.currentDestination
            ≤ (RoutePage.checkProximityResume (some d) p).rm.optimizedRoute.length
          rw [hptr, RoutePage.checkProximityResume_optimizedRoute]
          exact Nat.min_le_right _ _
      · left
        simp only [hd, if_false] at hptr
        show (RoutePage.checkProximityResume (some d) p).rm.currentDestination = _
        rw [hptr, hp]

/-- C20 at the handling of an answer after `clearRoute()`: A and B were entered
and optimized over `exampleEnv`, a position update at B made its request,
`clearRoute()` ran while the answer was awaited, and the answer (0 m) is handled
on the cleared state.  The session is reachable, and the pointer becomes
`min(1 + 1, 0) = 0`. -/
theorem step_writes_pointer_witness :
    RouteManager.Step exampleEnv
        ⟨managerEnteredAB.clearRoute, [some ⟨0, 0, some "driving"⟩]⟩
        ⟨(RoutePage.checkProximityResume (some ⟨0, 0, some "driving"⟩)
          (pageOf managerEnteredAB.clearRoute)).rm, []⟩ ∧
      RouteManager.Reachable exampleEnv
        (RoutePage.checkProximityResume (some ⟨0, 0, some "driving"⟩)
          (pageOf managerEnteredAB.clearRoute)).rm ∧
      (RoutePage.checkProximityResume (some ⟨0, 0, some "driving"⟩)
        (pageOf managerEnteredAB.clearRoute)).rm.currentDestination = 0 ∧
      0 ≤ (RoutePage.checkProximityResume (some ⟨0, 0, some "driving"⟩)
        (pageOf managerEnteredAB.clearRoute)).rm.currentDestination := by
  have hstep : RouteManager.Step exampleEnv
      ⟨managerEnteredAB.clearRoute, [some ⟨0, 0, some "driving"⟩]⟩
      ⟨(RoutePage.checkProximityResume (some ⟨0, 0, some "driving"⟩)
        (pageOf managerEnteredAB.clearRoute)).rm, []⟩ :=
    RouteManager.Step.answer ⟨managerEnteredAB.clearRoute, [some ⟨0, 0, some "driving"⟩]⟩
      (pageOf managerEnteredAB.clearRoute) (some ⟨0, 0, some "driving"⟩) rfl
      (List.mem_singleton.mpr rfl)
  exact ⟨hstep, ⟨[], RouteManager.reachableSession_clearedDuringUpdate⟩, by decide,
    (step_writes_pointer_within_route exampleEnv _ _ hstep).1⟩

/-- C20 fails as stated: in the initial state, which is reachable,
`currentDestination` is 1 and `optimizedRoute` is empty, so the pointer is
beyond `optimizedRoute.length`; the same holds after `clearRoute()`. -/
theorem initial_pointer_beyond_empty_route :
    RouteManager.Reachable exampleEnv RouteManager.initial ∧
      RouteManager.initial.currentDestination = 1 ∧
      RouteManager.initial.optimizedRoute.length = 0 ∧
      ¬ (RouteManager.initial.currentDestination ≤ RouteManager.initial.optimizedRoute.length) ∧
      ¬ (managerABOptimized.clearRoute.currentDestination
          ≤ managerABOptimized.clearRoute.optimizedRoute.length) :=
  ⟨RouteManager.Reachable.initial exampleEnv, rfl, rfl, by decide, by decide⟩

/-! ## The optimized order and the entered stops -/

/-- The method `addDestination` changes `route` only. -/
theorem RouteManager.addDestination_optimizedRoute (rm : RouteManager) (d : Destination) :
    (rm.addDestination d).optimizedRoute = rm.optimizedRoute ∧
      (rm.addDestination d).route = rm.route ++ [d] := ⟨rfl, rfl⟩

/-- The method `removeDestination` changes `route` only. -/
theorem RouteManager.removeDestination_optimizedRoute (rm : RouteManager) (index : Int) :
    (rm.removeDestination index).optimizedRoute = rm.optimizedRoute := by
  unfold RouteManager.removeDestination
  split <;> rfl

/-- C21, as the code has it: when `optimizeRoute()` returns on a route of 2 or more
stops, `route` is as it was and `optimizedRoute` is a permutation of it; a later
`addDestination` or `removeDestination` changes `route` and leaves
`optimizedRoute` as the last optimization wrote it. -/
theorem optimizeRoute_writes_permutation_of_route (env : Env) (fuel : Nat)
    (rm rm2 : RouteManager) (w w2 : World) (h2 : 2 ≤ rm.route.length)
    (h : RouteManager.optimizeRoute env fuel rm w = .ok (rm2, w2)) :
    rm2.route = rm.route ∧ rm2.optimizedRoute.Perm rm2.route ∧
      (∀ d, (rm2.addDestination d).optimizedRoute = rm2.optimizedRoute ∧
        (rm2.addDestination d).route = rm2.route ++ [d]) ∧
      (∀ index, (rm2.removeDestination index).optimizedRoute = rm2.optimizedRoute) := by
  have hne : rm.route ≠ [] := by
    intro h0
    rw [h0] at h2
    cases h2
  have hmain : rm2.route = rm.route ∧ rm2.optimizedRoute.Perm rm.route := by
    unfold RouteManager.optimizeRoute at h
    rw [if_pos (by omega : rm.route.length > 1)] at h
    split at h
    · cases hnn : NearestNeighbour.nearestNeighbourSolution env.api fuel w.clock rm.route
          rm.mode rm.transportMethod with
      | ok r =>
        rw [hnn] at h
        simp only [Run.ok.injEq, Prod.mk.injEq] at h
        rw [← h.1]
        exact ⟨rfl, NearestNeighbour.result_complete env.api fuel w.clock rm.route rm.mode
          rm.transportMethod r.1 r.2 (by omega) hnn⟩
      | outOfFuel =>
        rw [hnn] at h
        cases h
      | thrown m =>
        exact absurd hnn (NearestNeighbour.not_thrown env.api fuel w.clock rm.route rm.mode
          rm.transportMethod m)
    · obtain ⟨s, hs, hgood⟩ := SimulatedAnnealing.result_good env w rm.route rm.mode
        rm.transportMethod hne
      rw [hs] at h
      simp only [Run.ok.injEq, Prod.mk.injEq] at h
      rw [← h.1]
      exact ⟨rfl, hgood.best⟩
  refine ⟨hmain.1, ?_, fun d => RouteManager.addDestination_optimizedRoute rm2 d,
    fun index => RouteManager.removeDestination_optimizedRoute rm2 index⟩
  rw [hmain.1]
  exact hmain.2

/-- C21 at the route A, B over `exampleEnv`: the optimized order A, B is a
permutation of the route. -/
theorem optimizeRoute_writes_permutation_witness :
    2 ≤ managerAB.route.length ∧
      RouteManager.optimizeRoute exampleEnv 1 managerAB emptyWorld
        = .ok (managerABOptimized, ⟨[], 1, 0⟩) ∧
      managerABOptimized.optimizedRoute.Perm managerABOptimized.route :=
  ⟨by decide, by decide,
    (optimizeRoute_writes_permutation_of_route exampleEnv 1 managerAB managerABOptimized
      emptyWorld ⟨[], 1, 0⟩ (by decide) (by decide)).2.1⟩

/-- C21 fails as stated: after A and B were entered and optimized, adding C (or
removing B) gives a reachable state whose `optimizedRoute` A, B is not empty and
is not a permutation of `route`. -/
theorem optimizedRoute_not_permutation_after_addDestination :
    RouteManager.Reachable exampleEnv (managerEnteredAB.addDestination stopC) ∧
      (managerEnteredAB.addDestination stopC).optimizedRoute = [stopA, stopB] ∧
      (managerEnteredAB.addDestination stopC).route = [stopA, stopB, stopC] ∧
      ¬ (managerEnteredAB.addDestination stopC).optimizedRoute.Perm
          (managerEnteredAB.addDestination stopC).route ∧
      RouteManager.Reachable exampleEnv (managerEnteredAB.removeDestination 1) ∧
      (managerEnteredAB.removeDestination 1).route = [stopA] ∧
      ¬ (managerEnteredAB.removeDestination 1).optimizedRoute.Perm
          (managerEnteredAB.removeDestination 1).route := by
  have hreach : RouteManager.Reachable exampleEnv managerEnteredAB :=
    RouteManager.Reachable.optimizeRoute 1 emptyWorld ⟨[], 4, 0⟩
      (RouteManager.Reachable.addDestination stopB
        (RouteManager.Reachable.addDestination stopA
          (RouteManager.Reachable.initial exampleEnv)))
      (by decide)
  refine ⟨RouteManager.Reachable.addDestination stopC hreach, rfl, rfl, ?_,
    RouteManager.Reachable.removeDestination 1 hreach, by decide, ?_⟩
  · intro hp
    have := hp.length_eq
    revert this
    decide
  · intro hp
    have := hp.length_eq
    revert this
    decide

/-! ## Optimizations in flight -/

/-- The method `optimizeRoute()` is its planner run followed by its assignments. -/
theorem RouteManager.optimizeRoute_eq_begin_resume (env : Env) (fuel : Nat)
    (rm : RouteManager) (w : World) :
    RouteManager.optimizeRoute env fuel rm w
      = match RouteManager.optimizeRouteBegin env fuel rm w with
        | .ok r => .ok (RouteManager.optimizeRouteResume r.1 rm, r.2)
        | .outOfFuel => .outOfFuel
        | .thrown m => .thrown m := by
  unfold RouteManager.optimizeRoute RouteManager.optimizeRouteBegin
  split
  · split
    · split <;> rfl
    · split <;> rfl
  · rfl

/-- C22, as the code has it: a call of `optimizeRoute()` made while another is in
flight runs its planner like a call made alone, and each call stores its whole
result when its planner returns.  When the planner of the first call returns
`r1` and the planner of a second call, made meanwhile, returns `r2` and is
answered first, the four result fields hold `r2` after the second call's
assignments and `r1` after the first call's: the fields are always those of one
call, the one that finished last, and every other field is as it was. -/
theorem overlapping_optimizations_last_write_wins (env : Env) (fuel : Nat)
    (rm : RouteManager) (w w1 w2 : World) (r1 r2 : OptimizedResult)
    (h1 : RouteManager.optimizeRouteBegin env fuel rm w = .ok (some r1, w1))
    (h2 : RouteManager.optimizeRouteBegin env fuel rm w1 = .ok (some r2, w2)) :
    RouteManager.overlappingOptimizations env fuel rm w
        = .ok ({ rm with
                optimizedRoute := r2.optimizedRoute
                totalDistance := r2.totalDistance
                totalTime := r2.totalTime
                optimizedRouteMethod := r2.optimizedRouteMethod },
              { rm with
                optimizedRoute := r1.optimizedRoute
                totalDistance := r1.totalDistance
                totalTime := r1.totalTime
                optimizedRouteMethod := r1.optimizedRouteMethod }) ∧
      RouteManager.optimizeRoute env fuel rm w = .ok (RouteManager.store rm r1, w1) ∧
      RouteManager.optimizeRoute env fuel rm w1 = .ok (RouteManager.store rm r2, w2) := by
  refine ⟨?_, ?_, ?_⟩
  · unfold RouteManager.overlappingOptimizations
    rw [h1]
    simp only
    rw [h2]
    rfl
  · rw [RouteManager.optimizeRoute_eq_begin_resume, h1]
    rfl
  · rw [RouteManager.optimizeRoute_eq_begin_resume, h2]
    rfl

/-- C22 on the route A, B with `driving` chosen under changing traffic: the first
call's planner returns 100 m and 10 s, the second's 120 m and 12 s, and after
both calls the fields hold 100 m and 10 s. -/
theorem overlapping_optimizations_witness :
    RouteManager.optimizeRouteBegin trafficEnv 1 managerAB emptyWorld
        = .ok (some ⟨[stopA, stopB], 100, 10, [some "none", some "driving"]⟩, ⟨[], 1, 0⟩) ∧
      RouteManager.optimizeRouteBegin trafficEnv 1 managerAB ⟨[], 1, 0⟩
        = .ok (some ⟨[stopA, stopB], 120, 12, [some "none", some "driving"]⟩, ⟨[], 2, 0⟩) ∧
      RouteManager.overlappingOptimizations trafficEnv 1 managerAB emptyWorld
        = .ok ({ managerAB with
                optimizedRoute := [stopA, stopB]
                totalDistance := 120
                totalTime := 12
                optimizedRouteMethod := [some "none", some "driving"] },
              { managerAB with
                optimizedRoute := [stopA, stopB]
                totalDistance := 100
                totalTime := 10
                optimizedRouteMethod := [some "none", some "driving"] }) :=
  ⟨by decide, by decide,
    (overlapping_optimizations_last_write_wins trafficEnv 1 managerAB emptyWorld ⟨[], 1, 0⟩
      ⟨[], 2, 0⟩ ⟨[stopA, stopB], 100, 10, [some "none", some "driving"]⟩
      ⟨[stopA, stopB], 120, 12, [some "none", some "driving"]⟩ (by decide) (by decide)).1⟩

/-- C22 fails as stated: on the route A, B with `driving` chosen, a second
`optimizeRoute()` made while the first awaits its one request is neither
rejected nor queued.  Under changing traffic the second call, answered first,
stores 120 m and 12 s, and the first call then overwrites them with its older
100 m and 10 s; the same two calls made one after the other end with 120 m and
12 s. -/
theorem optimizeRoute_second_call_runs_while_first_in_flight :
    (∃ afterSecond afterBoth,
      RouteManager.overlappingOptimizations trafficEnv 1 managerAB emptyWorld
        = .ok (afterSecond, afterBoth) ∧
      (afterSecond.totalDistance, afterSecond.totalTime) = (120, 12) ∧
      (afterBoth.totalDistance, afterBoth.totalTime) = (100, 10)) ∧
    (∃ rm1 w1 rm2 w2,
      RouteManager.optimizeRoute trafficEnv 1 managerAB emptyWorld = .ok (rm1, w1) ∧
      RouteManager.optimizeRoute trafficEnv 1 rm1 w1 = .ok (rm2, w2) ∧
      (rm2.totalDistance, rm2.totalTime) = (120, 12)) := by
  refine ⟨⟨_, _, rfl, by decide, by decide⟩, ⟨_, _, _, _, rfl, rfl, by decide⟩⟩

/-! ## The nearest stop of a round -/

namespace JSNum

theorem lt_le_trans (a b c : JSNum) (h1 : a < b) (h2 : b ≤ c) : a < c := by
  cases a <;> cases b <;> cases c <;> simp_all [lt_iff_blt, le_iff_ble, blt, ble]
  omega

theorem le_of_not_lt (a b : JSNum) (h : ¬ a < b) : b ≤ a := by
  cases a <;> cases b <;> simp_all [lt_iff_blt, le_iff_ble, blt, ble]

end JSNum

namespace NearestNeighbour

/-- An index that is no candidate, or has no stop, or has no cost, leaves the
invariant of the scan as it is. -/
theorem Scan.Nearest.skip {cost : Nat → Destination → Option DistanceData}
    {route : List Destination} {mode : String} {cur : Nat} {visited : List Nat}
    {n : Nat} {s : Scan} (h : s.Nearest cost route mode cur visited n)
    (hn : ∀ c, n ≠ cur → n ∉ visited → route[n]? = some c → cost n c = none) :
    s.Nearest cost route mode cur visited (n + 1) := by
  rcases h with ⟨h1, h2, h3, h4⟩ | ⟨j, b, d, hj, hjc, hjv, hb, hd, hs, hmin⟩
  · left
    refine ⟨h1, h2, h3, ?_⟩
    intro i c hi hic hiv hc
    rcases Nat.lt_succ_iff_lt_or_eq.mp hi with hlt | heq
    · exact h4 i c hlt hic hiv hc
    · subst heq
      exact hn c hic hiv hc
  · right
    refine ⟨j, b, d, Nat.lt_succ_of_lt hj, hjc, hjv, hb, hd, hs, ?_⟩
    intro i c d2 hi hic hiv hc hd2
    rcases Nat.lt_succ_iff_lt_or_eq.mp hi with hlt | heq
    · exact hmin i c d2 hlt hic hiv hc hd2
    · subst heq
      rw [hn c hic hiv hc] at hd2
      cases hd2

/-- A candidate whose figure is not below the recorded one leaves the invariant
of the scan as it is. -/
theorem Scan.Nearest.keep {cost : Nat → Destination → Option DistanceData}
    {route : List Destination} {mode : String} {cur : Nat} {visited : List Nat}
    {n : Nat} {s : Scan} (h : s.Nearest cost route mode cur visited n)
    (c : Destination) (d2 : DistanceData) (hc : route[n]? = some c)
    (hd2 : cost n c = some d2) (hfin : ∃ x, figure mode d2 = .fin x)
    (hno : ¬ figure mode d2 < (if mode = "time" then s.minDuration else s.minDistance)) :
    s.Nearest cost route mode cur visited (n + 1) := by
  rcases h with ⟨_, h2, h3, _⟩ | ⟨j, b, d, hj, hjc, hjv, hb, hd, hs, hmin⟩
  · exfalso
    apply hno
    obtain ⟨x, hx⟩ := hfin
    rw [hx, h2, h3]
    split <;> exact JSNum.fin_lt_inf x
  · right
    refine ⟨j, b, d, Nat.lt_succ_of_lt hj, hjc, hjv, hb, hd, hs, ?_⟩
    intro i c2 d3 hi hic hiv hc2 hd3
    rcases Nat.lt_succ_iff_lt_or_eq.mp hi with hlt | heq
    · exact hmin i c2 d3 hlt hic hiv hc2 hd3
    · subst heq
      rw [hc] at hc2
      cases hc2
      rw [hd2] at hd3
      cases hd3
      have hle : figure mode d ≤ figure mode d2 := by
        apply JSNum.le_of_not_lt
        rw [hs] at hno
        exact hno
      exact ⟨hle, fun hlt => absurd hlt (Nat.lt_asymm hj)⟩

/-- A candidate whose figure is below the recorded one becomes the record. -/
theorem Scan.Nearest.replace {cost : Nat → Destination → Option DistanceData}
    {route : List Destination} {mode : String} {cur : Nat} {visited : List Nat}
    {n : Nat} {s : Scan} (h : s.Nearest cost route mode cur visited n)
    (c : Destination) (d2 : DistanceData) (hnc : n ≠ cur) (hnv : n ∉ visited)
    (hc : route[n]? = some c) (hd2 : cost n c = some d2)
    (hlt : figure mode d2 < (if mode = "time" then s.minDuration else s.minDistance)) :
    Scan.Nearest cost route mode cur visited (n + 1)
      ⟨d2.distanceValue, some n, d2.durationValue, some d2.transportMethod⟩ := by
  right
  refine ⟨n, c, d2, Nat.lt_succ_self n, hnc, hnv, hc, hd2, rfl, ?_⟩
  intro i c2 d3 hi hic hiv hc2 hd3
  rcases Nat.lt_succ_iff_lt_or_eq.mp hi with hlt2 | heq
  · rcases h with ⟨_, _, _, h4⟩ | ⟨j, b, d, hj, hjc, hjv, hb, hd, hs, hmin⟩
    · rw [h4 i c2 hlt2 hic hiv hc2] at hd3
      cases hd3
    · have hfig : figure mode d2 < figure mode d := by
        rw [hs] at hlt
        exact hlt
      have hle := (hmin i c2 d3 hlt2 hic hiv hc2 hd3).1
      have hlt3 := JSNum.lt_le_trans _ _ _ hfig hle
      exact ⟨JSNum.le_of_lt hlt3, fun _ => hlt3⟩
  · subst heq
    rw [hc] at hc2
    cases hc2
    rw [hd2] at hd3
    cases hd3
    exact ⟨JSNum.le_rfl _, fun hlt2 => absurd hlt2 (Nat.lt_irrefl _)⟩

end NearestNeighbour

namespace NearestNeighbour

theorem scanStep_nearest (api : Api) (cost : Nat → Destination → Option DistanceData)
    (route : List Destination) (mode transportMethod : String)
    (hmode : mode = "time" ∨ mode = "distance") (cur : Nat) (visited : List Nat)
    (a : Destination) (ha : route[cur]? = some a) (n : Nat) (acc : Scan × Nat)
    (hcost : ∀ c, (DistanceService.getDistance api acc.2 a.coords c.coords transportMethod
      mode).1 = cost n c)
    (h : acc.1.Nearest cost route mode cur visited n) :
    (scanStep api route mode transportMethod cur visited acc n).1.Nearest cost route mode
      cur visited (n + 1) := by
  by_cases hcand : n ≠ cur ∧ n ∉ visited
  · cases hc : route[n]? with
    | none =>
      have e : scanStep api route mode transportMethod cur visited acc n = acc := by
        unfold scanStep
        rw [if_pos hcand, ha, hc]
      rw [e]
      exact h.skip (fun c _ _ hc2 => by rw [hc] at hc2; cases hc2)
    | some c =>
      have hq := hcost c
      cases hd : cost n c with
      | none =>
        have e : (scanStep api route mode transportMethod cur visited acc n).1 = acc.1 := by
          unfold scanStep
          rw [if_pos hcand, ha, hc]
          simp only [hq, hd]
        rw [e]
        exact h.skip (fun c2 _ _ hc2 => by rw [hc] at hc2; cases hc2; exact hd)
      | some d2 =>
        obtain ⟨⟨x, hx⟩, ⟨y, hy⟩⟩ := DistanceService.getDistance_finite api acc.2 a.coords
          c.coords transportMethod mode d2 (hq.trans hd)
        rcases hmode with hm | hm
        · have hmd : ¬ mode = "distance" := by rw [hm]; decide
          by_cases hlt : d2.durationValue < acc.1.minDuration
          · have e : (scanStep api route mode transportMethod cur visited acc n).1
                = ⟨d2.distanceValue, some n, d2.durationValue, some d2.transportMethod⟩ := by
              unfold scanStep
              rw [if_pos hcand, ha, hc]
              simp only [hq, hd, hmd, false_and, if_false]
              simp only [hm, hlt, true_and, and_self, if_true]
            rw [e]
            refine h.replace c d2 hcand.1 hcand.2 hc hd ?_
            rw [figure, if_pos hm, if_pos hm]
            exact hlt
          · have e : (scanStep api route mode transportMethod cur visited acc n).1 = acc.1 := by
              unfold scanStep
              rw [if_pos hcand, ha, hc]
              simp only [hq, hd, hmd, false_and, if_false]
              simp only [hm, hlt, and_false, if_false]
            rw [e]
            refine h.keep c d2 hc hd ⟨y, ?_⟩ ?_
            · rw [figure, if_pos hm, hy]
            · rw [figure, if_pos hm, if_pos hm]
              exact hlt
        · have hmt : ¬ mode = "time" := by rw [hm]; decide
          by_cases hlt : d2.distanceValue < acc.1.minDistance
          · have e : (scanStep api route mode transportMethod cur visited acc n).1
                = ⟨d2.distanceValue, some n, d2.durationValue, some d2.transportMethod⟩ := by
              unfold scanStep
              rw [if_pos hcand, ha, hc]
              simp only [hq, hd]
              simp only [hm, hlt, true_and, and_self, if_true]
            rw [e]
            refine h.replace c d2 hcand.1 hcand.2 hc hd ?_
            rw [figure, if_neg hmt, if_neg hmt]
            exact hlt
          · have e : (scanStep api route mode transportMethod cur visited acc n).1 = acc.1 := by
              unfold scanStep
              rw [if_pos hcand, ha, hc]
              simp only [hq, hd, hmt, false_and, and_false, if_false]
              simp only [hm, hlt, and_false, if_false]
            rw [e]
            refine h.keep c d2 hc hd ⟨x, ?_⟩ ?_
            · rw [figure, if_neg hmt, hx]
            · rw [figure, if_neg hmt, if_neg hmt]
              exact hlt
  · have e : scanStep api route mode transportMethod cur visited acc n = acc := by
      unfold scanStep
      rw [if_neg hcand]
    rw [e]
    exact h.skip (fun c h1 h2 _ => absurd ⟨h1, h2⟩ hcand)

theorem scan_nearest (api : Api) (route : List Destination) (mode transportMethod : String)
    (hmode : mode = "time" ∨ mode = "distance") (cur : Nat) (visited : List Nat)
    (a : Destination) (ha : route[cur]? = some a) (clock : Nat) :
    (scan api route mode transportMethod cur visited clock).1.Nearest
      (scanCost api route mode transportMethod cur visited clock a) route mode cur visited
      route.length := by
  have hall : ∀ n, ((List.range n).foldl
      (scanStep api route mode transportMethod cur visited)
      (⟨.inf, none, .inf, none⟩, clock)).1.Nearest
        (scanCost api route mode transportMethod cur visited clock a) route mode cur
        visited n := by
    intro n
    induction n with
    | zero =>
      left
      exact ⟨rfl, rfl, rfl, fun i _ hi => absurd hi (Nat.not_lt_zero i)⟩
    | succ n ih =>
      rw [List.range_succ, List.foldl_append]
      exact scanStep_nearest api _ route mode transportMethod hmode cur visited a ha n
        _ (fun _ => rfl) ih
  exact hall route.length

/-- With a routing service whose answers do not change over time, the cost that
a round obtains for a stop is the cost of the leg. -/
theorem scanCost_const (api : Api) (hconst : ∀ t u q, api t q = api u q)
    (route : List Destination) (mode transportMethod : String) (cur : Nat)
    (visited : List Nat) (clock : Nat) (a : Destination) (i : Nat) (c : Destination) :
    scanCost api route mode transportMethod cur visited clock a i c
      = legCost api mode transportMethod a c :=
  DistanceService.getDistance_clock api hconst _ 0 a.coords c.coords transportMethod mode

end NearestNeighbour

/-- C23: in mode `time` or `distance`, a round of `nearestNeighbourSolution` from
the stop `a` either finds no unvisited stop with a cost and appends nothing, or
appends an unvisited stop `route[j]` whose figure (the duration in mode `time`,
the distance in mode `distance`) is at most that of every unvisited stop with a
cost and strictly below that of every such stop of lower index; the method
recorded for it is the transport method of its own cost query, and the totals
grow by the distance and the duration of that query.  The cost of a stop is
what the round's query for it returned; with a routing service whose answers do
not change over time it is the cost of the leg from `a` to the stop. -/
theorem nearestNeighbour_round_appends_nearest (api : Api) (route : List Destination)
    (mode transportMethod : String) (hmode : mode = "time" ∨ mode = "distance")
    (s : NearestNeighbour.State) (a : Destination)
    (ha : route[s.currentCityIndex]? = some a) :
    ((∀ t u q, api t q = api u q) → ∀ (i : Nat) (c : Destination),
      NearestNeighbour.scanCost api route mode transportMethod s.currentCityIndex
          s.visitedCities s.clock a i c
        = legCost api mode transportMethod a c) ∧
    (((∀ (i : Nat) (c : Destination), i ≠ s.currentCityIndex → i ∉ s.visitedCities →
        route[i]? = some c →
        NearestNeighbour.scanCost api route mode transportMethod s.currentCityIndex
          s.visitedCities s.clock a i c = none) ∧
      (NearestNeighbour.round api route mode transportMethod s).optimizedRoute
        = s.optimizedRoute ∧
      (NearestNeighbour.round api route mode transportMethod s).visitedCities
        = s.visitedCities) ∨
    (∃ (j : Nat) (b : Destination) (d : DistanceData),
      j ≠ s.currentCityIndex ∧ j ∉ s.visitedCities ∧ route[j]? = some b ∧
      NearestNeighbour.scanCost api route mode transportMethod s.currentCityIndex
        s.visitedCities s.clock a j b = some d ∧
      (∀ (i : Nat) (c : Destination) (d2 : DistanceData),
        i ≠ s.currentCityIndex → i ∉ s.visitedCities → route[i]? = some c →
        NearestNeighbour.scanCost api route mode transportMethod s.currentCityIndex
          s.visitedCities s.clock a i c = some d2 →
        NearestNeighbour.figure mode d ≤ NearestNeighbour.figure mode d2 ∧
          (i < j → NearestNeighbour.figure mode d < NearestNeighbour.figure mode d2)) ∧
      (NearestNeighbour.round api route mode transportMethod s).optimizedRoute
        = s.optimizedRoute ++ [b] ∧
      (NearestNeighbour.round api route mode transportMethod s).optimizedRouteMethod
        = s.optimizedRouteMethod ++ [some d.transportMethod] ∧
      (NearestNeighbour.round api route mode transportMethod s).currentCityIndex = j ∧
      (NearestNeighbour.round api route mode transportMethod s).visitedCities
        = NearestNeighbour.setAdd s.visitedCities j ∧
      (NearestNeighbour.round api route mode transportMethod s).totalDistance
        = s.totalDistance + d.distanceValue ∧
      (NearestNeighbour.round api route mode transportMethod s).totalTime
        = s.totalTime + d.durationValue)) := by
  refine ⟨fun hconst i c => NearestNeighbour.scanCost_const api hconst route mode
    transportMethod s.currentCityIndex s.visitedCities s.clock a i c, ?_⟩
  have hscan := NearestNeighbour.scan_nearest api route mode transportMethod hmode
    s.currentCityIndex s.visitedCities a ha s.clock
  have hbound : ∀ (i : Nat) (c : Destination), route[i]? = some c → i < route.length :=
    fun i c hc => (List.getElem?_eq_some_iff.mp hc).1
  rcases NearestNeighbour.round_cases api route mode transportMethod s with
    ⟨hnone, hround⟩ | ⟨j, hsome, hround⟩
  · left
    rcases hscan with ⟨_, _, _, h4⟩ | ⟨j, b, d, _, _, _, _, _, hs, _⟩
    · refine ⟨fun i c hic hiv hc => h4 i c (hbound i c hc) hic hiv hc, ?_, ?_⟩
      · rw [hround]
      · rw [hround]
    · rw [hs] at hnone
      cases hnone
  · right
    rcases hscan with ⟨h1, _, _, _⟩ | ⟨j2, b, d, _, hjc, hjv, hb, hd, hs, hmin⟩
    · rw [h1] at hsome
      cases hsome
    · have hj : j = j2 := by
        rw [hs] at hsome
        cases hsome
        rfl
      subst hj
      refine ⟨j, b, d, hjc, hjv, hb, hd,
        fun i c d2 hic hiv hc hd2 => hmin i c d2 (hbound i c hc) hic hiv hc hd2,
        ?_, ?_, ?_, ?_, ?_, ?_⟩
      · rw [hround, hb]
        rfl
      · rw [hround, hs]
      · rw [hround]
      · rw [hround]
      · rw [hround, hs]
      · rw [hround, hs]

/-- C23 at the first round on A, B, C over `exampleApi` in mode `time`: B, at
10 s, is appended with the method `driving`. -/
theorem nearestNeighbour_round_appends_nearest_witness :
    [stopA, stopB, stopC][(NearestNeighbour.init [stopA, stopB, stopC] 0).currentCityIndex]?
        = some stopA ∧
      ∃ (j : Nat) (b : Destination) (d : DistanceData),
        [stopA, stopB, stopC][j]? = some b ∧
        legCost exampleApi "time" "driving" stopA b = some d ∧
        (NearestNeighbour.round exampleApi [stopA, stopB, stopC] "time" "driving"
          (NearestNeighbour.init [stopA, stopB, stopC] 0)).optimizedRoute = [stopA] ++ [b] ∧
        (NearestNeighbour.round exampleApi [stopA, stopB, stopC] "time" "driving"
          (NearestNeighbour.init [stopA, stopB, stopC] 0)).optimizedRoute = [stopA, stopB] := by
  refine ⟨rfl, ?_⟩
  obtain ⟨hleg, hround⟩ := nearestNeighbour_round_appends_nearest exampleApi
    [stopA, stopB, stopC] "time" "driving" (Or.inl rfl)
    (NearestNeighbour.init [stopA, stopB, stopC] 0) stopA rfl
  rcases hround with ⟨hnone, _, _⟩ | ⟨j, b, d, _, _, hb, hd, _, hroute, _⟩
  · have h := hnone 1 stopB (by decide) (by decide) rfl
    rw [hleg (fun _ _ _ => rfl)] at h
    have h2 : legCost exampleApi "time" "driving" stopA stopB ≠ none := by decide
    exact absurd h h2
  · rw [hleg (fun _ _ _ => rfl)] at hd
    exact ⟨j, b, d, hb, hd, hroute, by decide⟩

/-! ## The cost of an order -/

namespace SimulatedAnnealing

theorem SameAnswers.rfl (api : Api) (mode transportMethod : String) (c : Cache) :
    SameAnswers api mode transportMethod c c := fun _ _ => Eq.refl _

theorem SameAnswers.trans {api : Api} {mode transportMethod : String} {c c2 c3 : Cache}
    (h1 : SameAnswers api mode transportMethod c c2)
    (h2 : SameAnswers api mode transportMethod c2 c3) :
    SameAnswers api mode transportMethod c c3 := fun a b => (h2 a b).trans (h1 a b)

theorem orderCost_congr {api : Api} {mode transportMethod : String} {c c2 : Cache}
    (h : SameAnswers api mode transportMethod c c2) (order : List Destination) :
    orderCost api mode transportMethod c2 order = orderCost api mode transportMethod c order := by
  induction order with
  | nil => rfl
  | cons a rest ih =>
    cases rest with
    | nil => rfl
    | cons b rest =>
      simp only [orderCost]
      rw [h a.coords b.coords, ih]

/-- With a routing service whose answers do not change over time,
`getOptimalDistance` gives the answer of the cache it starts from, leaves a cache
with the same answers, and draws nothing. -/
theorem getOptimalDistance_answer (api : Api) (hconst : ∀ t u q, api t q = api u q) (w : World)
    (a b : Coords) (transportMethod mode : String) :
    (getOptimalDistance api w a b transportMethod mode).1
        = answer api mode transportMethod w.distanceCache a b ∧
      SameAnswers api mode transportMethod w.distanceCache
        (getOptimalDistance api w a b transportMethod mode).2.distanceCache ∧
      (getOptimalDistance api w a b transportMethod mode).2.draws = w.draws := by
  have hq : (DistanceService.getDistance api w.clock a b transportMethod mode).1
      = (DistanceService.getDistance api 0 a b transportMethod mode).1 :=
    DistanceService.getDistance_clock api hconst w.clock 0 a b transportMethod mode
  unfold getOptimalDistance
  cases hl : w.distanceCache.lookup (a, b, transportMethod) with
  | some entry =>
    simp only
    refine ⟨?_, SameAnswers.rfl _ _ _ _, trivial⟩
    simp only [answer, hl]
  | none =>
    simp only
    cases hd : (DistanceService.getDistance api w.clock a b transportMethod mode).1 with
    | none =>
      simp only
      refine ⟨?_, SameAnswers.rfl _ _ _ _, trivial⟩
      simp only [answer, hl, ← hq, hd]
    | some d =>
      simp only
      refine ⟨?_, ?_, trivial⟩
      · simp only [answer, hl, ← hq, hd]
      · intro a2 b2
        by_cases hk : (a2, b2, transportMethod) = (a, b, transportMethod)
        · have ha : a2 = a := by cases hk; rfl
          have hb : b2 = b := by cases hk; rfl
          subst ha
          subst hb
          simp only [answer, List.lookup, beq_self_eq_true, hl, ← hq, hd]
        · have hne : ((a2, b2, transportMethod) == (a, b, transportMethod)) = false := by
            simpa using hk
          simp only [answer, List.lookup, hne]

end SimulatedAnnealing

namespace SimulatedAnnealing

theorem totalDistanceLoop_cost (api : Api) (hconst : ∀ t u q, api t q = api u q)
    (mode transportMethod : String) (c0 : Cache) :
    ∀ (order : List Destination) (acc : JSNum × World),
      SameAnswers api mode transportMethod c0 acc.2.distanceCache →
      (totalDistanceLoop api mode transportMethod order acc).1
          = acc.1 + orderCost api mode transportMethod c0 order ∧
        SameAnswers api mode transportMethod c0
          (totalDistanceLoop api mode transportMethod order acc).2.distanceCache := by
  intro order
  induction order with
  | nil => intro acc h; exact ⟨(JSNum.add_zero _).symm, h⟩
  | cons a rest ih =>
    intro acc h
    cases rest with
    | nil => exact ⟨(JSNum.add_zero _).symm, h⟩
    | cons b rest =>
      rw [totalDistanceLoop]
      obtain ⟨hq1, hq2, _⟩ := getOptimalDistance_answer api hconst acc.2 a.coords b.coords
        transportMethod mode
      have hrec := ih
        (match (getOptimalDistance api acc.2 a.coords b.coords transportMethod mode).1 with
          | some distanceData => acc.1 + distanceData.distanceValue
          | none => acc.1 + JSNum.inf,
         (getOptimalDistance api acc.2 a.coords b.coords transportMethod mode).2)
        (h.trans hq2)
      refine ⟨?_, hrec.2⟩
      rw [hrec.1]
      simp only [orderCost]
      rw [← JSNum.add_assoc, hq1, h a.coords b.coords]
      cases answer api mode transportMethod c0 a.coords b.coords <;> rfl

/-- With a routing service whose answers do not change over time, the function
`calculateTotalDistance` returns the sum of the `distanceValue` answers of the
legs, whatever the mode, and leaves a cache with the same answers. -/
theorem calculateTotalDistance_cost (api : Api) (hconst : ∀ t u q, api t q = api u q)
    (mode transportMethod : String) (c0 : Cache) (order : List Destination) (w : World)
    (h : SameAnswers api mode transportMethod c0 w.distanceCache) :
    (calculateTotalDistance api order mode transportMethod w).1
        = orderCost api mode transportMethod c0 order ∧
      SameAnswers api mode transportMethod c0
        (calculateTotalDistance api order mode transportMethod w).2.distanceCache := by
  have hl := totalDistanceLoop_cost api hconst mode transportMethod c0 order (0, w) h
  refine ⟨?_, hl.2⟩
  rw [calculateTotalDistance, hl.1]
  exact JSNum.zero_add _

theorem initMethodsLoop_sameAnswers (api : Api) (hconst : ∀ t u q, api t q = api u q)
    (mode transportMethod : String) (c0 : Cache) :
    ∀ (order : List Destination) (i : Nat) (acc : List (Option String) × World),
      SameAnswers api mode transportMethod c0 acc.2.distanceCache →
      SameAnswers api mode transportMethod c0
        (initMethodsLoop api mode transportMethod i order acc).2.distanceCache := by
  intro order
  induction order with
  | nil => intro i acc h; exact h
  | cons a rest ih =>
    intro i acc h
    cases rest with
    | nil => exact h
    | cons b rest =>
      rw [initMethodsLoop]
      obtain ⟨_, hq2, _⟩ := getOptimalDistance_answer api hconst acc.2 a.coords b.coords
        transportMethod mode
      exact ih (i + 1) _ (h.trans hq2)

theorem bestLegsLoop_sameAnswers (api : Api) (hconst : ∀ t u q, api t q = api u q)
    (mode transportMethod : String) (c0 : Cache) :
    ∀ (order : List Destination) (acc : List (Option String) × JSNum × World),
      SameAnswers api mode transportMethod c0 acc.2.2.distanceCache →
      SameAnswers api mode transportMethod c0
        (bestLegsLoop api mode transportMethod order acc).2.2.distanceCache := by
  intro order
  induction order with
  | nil => intro acc h; exact h
  | cons a rest ih =>
    intro acc h
    cases rest with
    | nil => exact h
    | cons b rest =>
      rw [bestLegsLoop]
      obtain ⟨_, hq2, _⟩ := getOptimalDistance_answer api hconst acc.2.2 a.coords b.coords
        transportMethod mode
      apply ih
      cases hd : (getOptimalDistance api acc.2.2 a.coords b.coords transportMethod mode).1 with
      | none => exact h.trans hq2
      | some d =>
        simp only
        split <;> exact h.trans hq2

end SimulatedAnnealing

namespace SimulatedAnnealing

/-- In a mode other than `time`, with an empty cache and a routing service whose
answers do not change over time, `calculateTotalDistance` is the cost of the
order under the mode. -/
theorem calculateTotalDistance_eq_costUnderMode (api : Api)
    (hconst : ∀ t u q, api t q = api u q) (mode transportMethod : String)
    (hmode : mode ≠ "time") (order : List Destination) (w : World)
    (hcache : w.distanceCache = []) :
    (calculateTotalDistance api order mode transportMethod w).1
      = costUnderMode api mode transportMethod order := by
  rw [(calculateTotalDistance_cost api hconst mode transportMethod w.distanceCache order w
    (SameAnswers.rfl _ _ _ _)).1, hcache]
  induction order with
  | nil => rfl
  | cons a rest ih =>
    cases rest with
    | nil => rfl
    | cons b rest =>
      simp only [orderCost, costUnderMode]
      rw [ih]
      simp only [answer, List.lookup, legCost, hmode, if_false]

end SimulatedAnnealing

/-- C24, the code at its failing input: in mode `time` the cost that simulated
annealing gives an order is the sum of the distances of its legs, not of their
durations.  Over `hillApi` the order B, C costs 80 where its duration is 8, and
the order C, B costs 50 where its duration is 500, so the slower order counts as
the cheaper one.  In mode `distance` the cost is the sum of the distances, and a
leg without a cost makes the sum `Infinity`. -/
theorem calculateTotalDistance_sums_distances_in_time_mode :
    (SimulatedAnnealing.calculateTotalDistance hillApi [stopB, stopC] "time" "driving"
        emptyWorld).1 = 80 ∧
      SimulatedAnnealing.costUnderMode hillApi "time" "driving" [stopB, stopC] = 8 ∧
      (SimulatedAnnealing.calculateTotalDistance hillApi [stopC, stopB] "time" "driving"
        emptyWorld).1 = 50 ∧
      SimulatedAnnealing.costUnderMode hillApi "time" "driving" [stopC, stopB] = 500 ∧
      (SimulatedAnnealing.calculateTotalDistance hillApi [stopB, stopC] "distance" "driving"
        emptyWorld).1
        = SimulatedAnnealing.costUnderMode hillApi "distance" "driving" [stopB, stopC] ∧
      (SimulatedAnnealing.calculateTotalDistance failingApi [stopB, stopC] "time" "driving"
        emptyWorld).1 = JSNum.inf := by
  decide

/-! ## The cooling schedule -/

namespace SimulatedAnnealing

theorem step_temperature (env : Env) (mode transportMethod : String) (s : State) :
    (step env mode transportMethod s).temperature = s.temperature * (1 - coolingRate) := by
  simp only [step, updateBest, move]
  split <;> split <;> rfl

theorem iterate_step_temperature (env : Env) (mode transportMethod : String) (k : Nat) :
    ∀ s : State, ((step env mode transportMethod)^[k] s).temperature
      = s.temperature * (1 - coolingRate) ^ k := by
  induction k with
  | zero => intro s; simp
  | succ k ih =>
    intro s
    rw [Function.iterate_succ_apply, ih, step_temperature, pow_succ]
    ring

/-- The loop makes exactly `k` passes when the temperature is above one before
each of them and not after the last. -/
theorem anneal_eq_iterate (env : Env) (mode transportMethod : String) (k : Nat) :
    ∀ s : State, (∀ i, i < k → 1 < s.temperature * (1 - coolingRate) ^ i) →
      ¬ 1 < s.temperature * (1 - coolingRate) ^ k →
      anneal env mode transportMethod s = (step env mode transportMethod)^[k] s := by
  induction k with
  | zero =>
    intro s _ hstop
    rw [pow_zero, mul_one] at hstop
    rw [anneal]
    simp only [hstop, if_false, Function.iterate_zero, id_eq]
  | succ k ih =>
    intro s hgo hstop
    have h0 : 1 < s.temperature := by
      have := hgo 0 (Nat.succ_pos k)
      rwa [pow_zero, mul_one] at this
    rw [anneal]
    simp only [h0, if_true]
    rw [Function.iterate_succ_apply]
    apply ih
    · intro i hi
      rw [step_temperature, mul_assoc, ← pow_succ']
      exact hgo (i + 1) (Nat.succ_lt_succ hi)
    · rw [step_temperature, mul_assoc, ← pow_succ']
      exact hstop

set_option exponentiation.threshold 4000 in
theorem cooling_above_one : (1 : ℚ) < 10000 * (1 - coolingRate) ^ 3065 := by
  have hn : 1000 ^ 3065 < 10000 * 997 ^ 3065 := by norm_num
  have hr : (1 : ℚ) - coolingRate = 997 / 1000 := by rw [coolingRate]; norm_num
  rw [hr, div_pow, mul_div_assoc', lt_div_iff₀ (by positivity), one_mul]
  exact_mod_cast hn

set_option exponentiation.threshold 4000 in
theorem cooling_not_above_one : ¬ (1 : ℚ) < 10000 * (1 - coolingRate) ^ 3066 := by
  have hn : 10000 * 997 ^ 3066 ≤ 1000 ^ 3066 := by norm_num
  have hr : (1 : ℚ) - coolingRate = 997 / 1000 := by rw [coolingRate]; norm_num
  rw [hr, not_lt, div_pow, mul_div_assoc', div_le_iff₀ (by positivity), one_mul]
  exact_mod_cast hn

theorem cooling_above_one_before (i : Nat) (hi : i < 3066) :
    (1 : ℚ) < 10000 * (1 - coolingRate) ^ i := by
  have hr0 : (0 : ℚ) ≤ 1 - coolingRate := by rw [coolingRate]; norm_num
  have hr1 : (1 : ℚ) - coolingRate ≤ 1 := by rw [coolingRate]; norm_num
  have hle : (1 - coolingRate) ^ 3065 ≤ (1 - coolingRate) ^ i :=
    pow_le_pow_of_le_one hr0 hr1 (Nat.lt_succ_iff.mp hi)
  calc (1 : ℚ) < 10000 * (1 - coolingRate) ^ 3065 := cooling_above_one
    _ ≤ 10000 * (1 - coolingRate) ^ i := by
      apply mul_le_mul_of_nonneg_left hle
      norm_num

/-- From a temperature of 10000 the loop makes 3066 passes. -/
theorem anneal_from_initial_temperature (env : Env) (mode transportMethod : String)
    (s : State) (ht : s.temperature = 10000) :
    anneal env mode transportMethod s = (step env mode transportMethod)^[3066] s := by
  apply anneal_eq_iterate
  · intro i hi
    rw [ht]
    exact cooling_above_one_before i hi
  · rw [ht]
    exact cooling_not_above_one

end SimulatedAnnealing

/-- C25: for every non-empty route, every routing service, every sequence of
draws and every `Math.exp`, `simulatedAnnealingSolution` returns, and what it
returns is the state after exactly 3066 passes of the loop: the temperature is
above one before each of the first 3066 passes and not above one after them,
whatever the stops, the costs and the neighbours accepted. -/
theorem simulatedAnnealing_makes_3066_passes (env : Env) (w : World)
    (route : List Destination) (mode transportMethod : String) (hroute : route ≠ []) :
    (∃ s : SimulatedAnnealing.State,
      s = (SimulatedAnnealing.step env mode transportMethod)^[3066]
        (SimulatedAnnealing.initialState env w route mode transportMethod) ∧
      SimulatedAnnealing.simulatedAnnealingSolution env w route mode transportMethod
        = .ok (⟨s.bestSolution, s.bestDistance, s.bestTime, s.optimizedRouteMethods⟩,
            s.world)) ∧
    (∀ k, k < 3066 →
      1 < ((SimulatedAnnealing.step env mode transportMethod)^[k]
        (SimulatedAnnealing.initialState env w route mode transportMethod)).temperature) ∧
    (∀ k, 3066 ≤ k →
      ¬ 1 < ((SimulatedAnnealing.step env mode transportMethod)^[k]
        (SimulatedAnnealing.initialState env w route mode transportMethod)).temperature) := by
  have ht : (SimulatedAnnealing.initialState env w route mode transportMethod).temperature
      = 10000 := rfl
  have e := SimulatedAnnealing.anneal_from_initial_temperature env mode transportMethod
    (SimulatedAnnealing.initialState env w route mode transportMethod) ht
  refine ⟨⟨_, rfl, ?_⟩, ?_, ?_⟩
  · have hlen : ¬ route.length = 0 := fun h => hroute (List.length_eq_zero.mp h)
    unfold SimulatedAnnealing.simulatedAnnealingSolution
    rw [if_neg hlen]
    simp only [e]
  · intro k hk
    rw [SimulatedAnnealing.iterate_step_temperature, ht]
    exact SimulatedAnnealing.cooling_above_one_before k hk
  · intro k hk
    rw [SimulatedAnnealing.iterate_step_temperature, ht, not_lt]
    have hr0 : (0 : ℚ) ≤ 1 - SimulatedAnnealing.coolingRate := by
      rw [SimulatedAnnealing.coolingRate]; norm_num
    have hr1 : (1 : ℚ) - SimulatedAnnealing.coolingRate ≤ 1 := by
      rw [SimulatedAnnealing.coolingRate]; norm_num
    have hle : (1 - SimulatedAnnealing.coolingRate) ^ k
        ≤ (1 - SimulatedAnnealing.coolingRate) ^ 3066 := pow_le_pow_of_le_one hr0 hr1 hk
    have hstop := not_lt.mp SimulatedAnnealing.cooling_not_above_one
    calc (10000 : ℚ) * (1 - SimulatedAnnealing.coolingRate) ^ k
        ≤ 10000 * (1 - SimulatedAnnealing.coolingRate) ^ 3066 := by
          apply mul_le_mul_of_nonneg_left hle
          norm_num
      _ ≤ 1 := hstop

/-- C25 at the route B, C over `exampleEnv`. -/
theorem simulatedAnnealing_makes_3066_passes_witness :
    [stopB, stopC] ≠ [] ∧
      ∃ s : SimulatedAnnealing.State,
        s = (SimulatedAnnealing.step exampleEnv "time" "driving")^[3066]
          (SimulatedAnnealing.initialState exampleEnv emptyWorld [stopB, stopC] "time"
            "driving") ∧
        SimulatedAnnealing.simulatedAnnealingSolution exampleEnv emptyWorld [stopB, stopC]
            "time" "driving"
          = .ok (⟨s.bestSolution, s.bestDistance, s.bestTime, s.optimizedRouteMethods⟩,
              s.world) :=
  ⟨by decide, (simulatedAnnealing_makes_3066_passes exampleEnv emptyWorld [stopB, stopC]
    "time" "driving" (by decide)).1⟩

/-! ## The two swap positions -/

namespace SimulatedAnnealing

theorem newSolution_eq_swap (env : Env) (s : State) :
    newSolution env s = swap s.currentSolution (swapIndex1 env s) (swapIndex2 env s) := rfl

theorem floorMul_lt (r : Draw) (n : Nat) (hn : 0 < n) : floorMul r n < n := by
  have hn0 : (0 : ℚ) < (n : ℚ) := by exact_mod_cast hn
  have h0 : (0 : ℚ) ≤ r.1 * (n : ℚ) := mul_nonneg r.2.1 (le_of_lt hn0)
  have h1 : r.1 * (n : ℚ) < ((n : ℤ) : ℚ) := by
    have : r.1 * (n : ℚ) < 1 * (n : ℚ) := mul_lt_mul_of_pos_right r.2.2 hn0
    rw [one_mul] at this
    exact_mod_cast this
  have hf0 : (0 : ℤ) ≤ Int.floor (r.1 * (n : ℚ)) := Int.floor_nonneg.mpr h0
  have hf1 : Int.floor (r.1 * (n : ℚ)) < (n : ℤ) := Int.floor_lt.mpr h1
  unfold floorMul
  omega

/-- An offset between 1 and `n - 1` leads to another position. -/
theorem offset_position_ne (n i m : Nat) (hi : i < n) (hm : m + 1 < n) :
    (i + m + 1) % n < n ∧ (i + m + 1) % n ≠ i := by
  refine ⟨Nat.mod_lt _ (by omega), ?_⟩
  by_cases h : i + m + 1 < n
  · rw [Nat.mod_eq_of_lt h]
    omega
  · rw [Nat.mod_eq_sub_mod (by omega), Nat.mod_eq_of_lt (by omega)]
    omega

theorem swap_getElem? (l : List Destination) (i j : Nat) (hi : i < l.length)
    (hj : j < l.length) (hij : i ≠ j) :
    (swap l i j).length = l.length ∧ (swap l i j)[i]? = l[j]? ∧ (swap l i j)[j]? = l[i]? ∧
      ∀ k, k ≠ i → k ≠ j → (swap l i j)[k]? = l[k]? := by
  have e : swap l i j = (l.set i l[j]).set j l[i] := by
    unfold swap
    rw [List.getElem?_eq_getElem hi, List.getElem?_eq_getElem hj]
  rw [e]
  refine ⟨by simp, ?_, ?_, ?_⟩
  · rw [List.getElem?_set_ne (Ne.symm hij), List.getElem?_set_self,
      List.getElem?_eq_getElem hj]
    simp [hi]
  · rw [List.getElem?_set_self, List.getElem?_eq_getElem hi]
    simp [hj]
  · intro k hki hkj
    rw [List.getElem?_set_ne (Ne.symm hkj), List.getElem?_set_ne (Ne.symm hki)]

end SimulatedAnnealing

/-- C26: when the current order has 2 or more stops, whatever the two draws, the
positions `swapIndex1 = floor(r1 * n)` and
`swapIndex2 = (swapIndex1 + floor(r2 * (n - 1)) + 1) % n` are both below `n` and
differ, and `newSolution` is the current order with the stops at those two
positions exchanged and every other position as it was. -/
theorem newSolution_swaps_two_distinct_positions (env : Env) (s : SimulatedAnnealing.State)
    (h2 : 2 ≤ s.currentSolution.length) :
    SimulatedAnnealing.swapIndex1 env s
        = SimulatedAnnealing.floorMul (env.rand s.world.draws) s.currentSolution.length ∧
      SimulatedAnnealing.swapIndex2 env s
        = (SimulatedAnnealing.floorMul (env.rand s.world.draws) s.currentSolution.length
            + SimulatedAnnealing.floorMul (env.rand (s.world.draws + 1))
                (s.currentSolution.length - 1) + 1) % s.currentSolution.length ∧
      SimulatedAnnealing.swapIndex1 env s < s.currentSolution.length ∧
      SimulatedAnnealing.swapIndex2 env s < s.currentSolution.length ∧
      SimulatedAnnealing.swapIndex1 env s ≠ SimulatedAnnealing.swapIndex2 env s ∧
      (SimulatedAnnealing.newSolution env s).length = s.currentSolution.length ∧
      (SimulatedAnnealing.newSolution env s)[SimulatedAnnealing.swapIndex1 env s]?
        = s.currentSolution[SimulatedAnnealing.swapIndex2 env s]? ∧
      (SimulatedAnnealing.newSolution env s)[SimulatedAnnealing.swapIndex2 env s]?
        = s.currentSolution[SimulatedAnnealing.swapIndex1 env s]? ∧
      ∀ k, k ≠ SimulatedAnnealing.swapIndex1 env s → k ≠ SimulatedAnnealing.swapIndex2 env s →
        (SimulatedAnnealing.newSolution env s)[k]? = s.currentSolution[k]? := by
  have h1 : SimulatedAnnealing.swapIndex1 env s < s.currentSolution.length :=
    SimulatedAnnealing.floorMul_lt _ _ (by omega)
  have hm : SimulatedAnnealing.floorMul (env.rand (s.world.draws + 1))
      (s.currentSolution.length - 1) < s.currentSolution.length - 1 :=
    SimulatedAnnealing.floorMul_lt _ _ (by omega)
  have hoff := SimulatedAnnealing.offset_position_ne s.currentSolution.length
    (SimulatedAnnealing.swapIndex1 env s)
    (SimulatedAnnealing.floorMul (env.rand (s.world.draws + 1))
      (s.currentSolution.length - 1)) h1 (by omega)
  have hlt2 : SimulatedAnnealing.swapIndex2 env s < s.currentSolution.length := hoff.1
  have hne : SimulatedAnnealing.swapIndex1 env s ≠ SimulatedAnnealing.swapIndex2 env s :=
    fun h => hoff.2 h.symm
  obtain ⟨hl, ha, hb, hrest⟩ := SimulatedAnnealing.swap_getElem? s.currentSolution
    (SimulatedAnnealing.swapIndex1 env s) (SimulatedAnnealing.swapIndex2 env s) h1 hlt2 hne
  rw [SimulatedAnnealing.newSolution_eq_swap]
  exact ⟨rfl, rfl, h1, hlt2, hne, hl, ha, hb, hrest⟩

/-- C26 at the order B, C over `exampleEnv`, whose draws are all zero: the
positions are 0 and 1 and the neighbour is C, B. -/
theorem newSolution_swaps_witness :
    2 ≤ stateBC.currentSolution.length ∧
      SimulatedAnnealing.swapIndex1 exampleEnv stateBC
        ≠ SimulatedAnnealing.swapIndex2 exampleEnv stateBC ∧
      SimulatedAnnealing.newSolution exampleEnv stateBC = [stopC, stopB] := by
  have h2 : 2 ≤ stateBC.currentSolution.length := by
    show 2 ≤ [stopB, stopC].length
    decide
  exact ⟨h2, (newSolution_swaps_two_distinct_positions exampleEnv stateBC h2).2.2.2.2.1,
    SimulatedAnnealing.exampleEnv_newSolution stateBC rfl⟩

/-! ## Counting the swap positions -/

namespace SimulatedAnnealing

theorem swapIndex2_eq_secondPosition (env : Env) (s : State) :
    swapIndex2 env s = secondPosition s.currentSolution.length (swapIndex1 env s)
      (floorMul (env.rand (s.world.draws + 1)) (s.currentSolution.length - 1)) := rfl

/-- The one offset that leads from position `i` to another position `j`. -/
theorem secondPosition_eq_iff (n i j m : Nat) (hi : i < n) (hj : j < n) (hm : m < n - 1) :
    secondPosition n i m = j ↔ m = (if i < j then j - i - 1 else j + n - i - 1) := by
  unfold secondPosition
  by_cases h : i + m + 1 < n
  · rw [Nat.mod_eq_of_lt h]
    split <;> omega
  · rw [Nat.mod_eq_sub_mod (by omega), Nat.mod_eq_of_lt (by omega)]
    split <;> omega

theorem secondPosition_ne_first (n i m : Nat) (hi : i < n) (hm : m < n - 1) :
    secondPosition n i m ≠ i :=
  (offset_position_ne n i m hi (by omega)).2

end SimulatedAnnealing

/-- C27, as the code has it: for every list length `n` and every two different
positions `i` and `j` below `n`, exactly one pair (first position `k` below `n`,
offset `m` below `n - 1`) leads to the positions `(i, j)`, and none leads to
`(i, i)`: over equally likely `(k, m)` the position pairs
`(k, (k + m + 1) % n)` are uniformly distributed over the pairs of different
positions. -/
theorem swap_positions_each_reached_once (n i j : Nat) (hi : i < n) (hj : j < n)
    (hij : i ≠ j) :
    SimulatedAnnealing.pairCount n i j = 1 ∧ SimulatedAnnealing.pairCount n i i = 0 := by
  constructor
  · unfold SimulatedAnnealing.pairCount
    rw [Finset.card_eq_one]
    refine ⟨(i, if i < j then j - i - 1 else j + n - i - 1), ?_⟩
    ext ⟨k, m⟩
    simp only [Finset.mem_filter, Finset.mem_product, Finset.mem_range, Finset.mem_singleton,
      Prod.mk.injEq]
    constructor
    · rintro ⟨⟨_, hm⟩, hk, hpos⟩
      subst hk
      exact ⟨rfl, (SimulatedAnnealing.secondPosition_eq_iff n k j m hi hj hm).mp hpos⟩
    · rintro ⟨hk, hm⟩
      subst hk
      have hm2 : m < n - 1 := by
        rw [hm]
        split <;> omega
      exact ⟨⟨hi, hm2⟩, rfl,
        (SimulatedAnnealing.secondPosition_eq_iff n k j m hi hj hm2).mpr hm⟩
  · unfold SimulatedAnnealing.pairCount
    rw [Finset.card_eq_zero, Finset.filter_eq_empty_iff]
    rintro ⟨k, m⟩ hkm ⟨hk, hpos⟩
    simp only [Finset.mem_product, Finset.mem_range] at hkm
    simp only at hk hpos
    subst hk
    exact SimulatedAnnealing.secondPosition_ne_first n k m hkm.1 hkm.2 hpos

/-- C27 at the list length 3 and the positions 2 and 0. -/
theorem swap_positions_each_reached_once_witness :
    2 < 3 ∧ 0 < 3 ∧ 2 ≠ 0 ∧ SimulatedAnnealing.pairCount 3 2 0 = 1 :=
  ⟨by decide, by decide, by decide,
    (swap_positions_each_reached_once 3 2 0 (by decide) (by decide) (by decide)).1⟩

/-- C27 fails as stated: for the list lengths 3 and 4 every pair of different
positions is reached by exactly one of the equally likely pairs (first position,
offset), so the position pairs are uniformly distributed. -/
theorem swap_positions_uniform_for_three_and_four :
    (∀ i, i < 3 → ∀ j, j < 3 → i ≠ j → SimulatedAnnealing.pairCount 3 i j = 1) ∧
      (∀ i, i < 4 → ∀ j, j < 4 → i ≠ j → SimulatedAnnealing.pairCount 4 i j = 1) ∧
      (Finset.range 3 ×ˢ Finset.range (3 - 1)).card = 3 * 2 ∧
      (Finset.range 4 ×ˢ Finset.range (4 - 1)).card = 4 * 3 := by
  decide

/-! ## The live cost query -/

/-- The method `RouteManager.getDistance` hands its `method` argument back and uses it for
nothing else. -/
theorem RouteManager.getDistance_method (api : Api) (t : Nat) (origin destination : Coords)
    (method : Option String) :
    RouteManager.getDistance api t origin destination method
      = (((RouteManager.getDistance api t origin destination none).1).map
          (fun d => { d with transportMethod := method }), t + 1) := by
  unfold RouteManager.getDistance
  split
  · split
    · split <;> rfl
    · rfl
  · rfl

/-- C28, the code at its failing input: the request of `RouteManager.getDistance`
carries no `mode`, so for every routing service two calls with the same
coordinates and different methods return the same distance and the same
duration.  Over `exampleApi`, where driving from A to B is 100 m and walking has
no route, the proximity query returns 1000 m and 100 s for `driving` and for
`walking` alike. -/
theorem proximity_query_ignores_transport_method :
    (∀ (api : Api) (t : Nat) (origin destination : Coords) (method1 method2 : Option String),
      ((RouteManager.getDistance api t origin destination method1).1).map
          (fun d => (d.distanceValue, d.durationValue))
        = ((RouteManager.getDistance api t origin destination method2).1).map
          (fun d => (d.distanceValue, d.durationValue))) ∧
    (RouteManager.getDistance exampleApi 0 stopA.coords stopB.coords (some "driving")).1
      = some ⟨1000, 100, some "driving"⟩ ∧
    (RouteManager.getDistance exampleApi 0 stopA.coords stopB.coords (some "walking")).1
      = some ⟨1000, 100, some "walking"⟩ ∧
    (DistanceService.getDistance exampleApi 0 stopA.coords stopB.coords "driving" "time").1
      = some ⟨100, 10, "driving"⟩ ∧
    (DistanceService.getDistance exampleApi 0 stopA.coords stopB.coords "walking" "time").1
      = none ∧
    (RoutePage.checkProximityBegin exampleApi
        { pageAB with currentLocation := some stopA.coords }).1
      = some (some ⟨1000, 100, some "driving"⟩) := by
  refine ⟨?_, by decide, by decide, by decide, by decide, by decide⟩
  intro api t origin destination method1 method2
  rw [RouteManager.getDistance_method api t origin destination method1,
    RouteManager.getDistance_method api t origin destination method2]
  cases (RouteManager.getDistance api t origin destination none).1 <;> rfl

/-! ## Entries of the cache and the mode -/

namespace SimulatedAnnealing

/-- While every entry of the cache was stored in the mode of the call, and the
answers of the routing service do not change over time, `getOptimalDistance`
returns what the cost query returns, and the cache stays so. -/
theorem getOptimalDistance_transparent_of_coherent (api : Api)
    (hconst : ∀ t u q, api t q = api u q) (w : World) (a b : Coords)
    (transportMethod mode : String) (hc : Coherent api mode w.distanceCache) :
    (getOptimalDistance api w a b transportMethod mode).1
        = (DistanceService.getDistance api w.clock a b transportMethod mode).1 ∧
      Coherent api mode (getOptimalDistance api w a b transportMethod mode).2.distanceCache := by
  have hq : (DistanceService.getDistance api w.clock a b transportMethod mode).1
      = (DistanceService.getDistance api 0 a b transportMethod mode).1 :=
    DistanceService.getDistance_clock api hconst w.clock 0 a b transportMethod mode
  unfold getOptimalDistance
  cases hl : w.distanceCache.lookup (a, b, transportMethod) with
  | some entry =>
    simp only
    exact ⟨by rw [hq, hc a b transportMethod entry hl], hc⟩
  | none =>
    simp only
    cases hd : (DistanceService.getDistance api w.clock a b transportMethod mode).1 with
    | none => exact ⟨rfl, hc⟩
    | some d =>
      refine ⟨rfl, ?_⟩
      intro a2 b2 tm2 entry hlook
      simp only at hlook
      by_cases hk : (a2, b2, tm2) = (a, b, transportMethod)
      · have hk2 : ((a2, b2, tm2) == (a, b, transportMethod)) = true := by simpa using hk
        simp only [List.lookup, hk2, Option.some.injEq] at hlook
        cases hk
        rw [← hlook, ← hq, hd]
      · have hne : ((a2, b2, tm2) == (a, b, transportMethod)) = false := by simpa using hk
        simp only [List.lookup, hne] at hlook
        exact hc a2 b2 tm2 entry hlook

end SimulatedAnnealing

/-- C29, the code at its failing input: over `fourModesApi`, whose answers do not
change, a call of `getOptimalDistance` for A to B with `shuffle` in mode `time`
stores the driving result (300 m, 30 s); a later call for the same leg and
method in mode `distance` returns that entry, while
`DistanceService.getDistance` with the same four arguments returns the walking
result (200 m, 90 s): the key of the cache leaves the optimization mode out. -/
theorem getOptimalDistance_returns_entry_of_other_mode :
    (∀ t u q, fourModesApi t q = fourModesApi u q) ∧
    SimulatedAnnealing.getOptimalDistance fourModesApi emptyWorld stopA.coords stopB.coords
        "shuffle" "time"
      = (some ⟨300, 30, "driving"⟩,
          ⟨[((stopA.coords, stopB.coords, "shuffle"), ⟨300, 30, "driving"⟩)], 4, 0⟩) ∧
    (SimulatedAnnealing.getOptimalDistance fourModesApi
        ⟨[((stopA.coords, stopB.coords, "shuffle"), ⟨300, 30, "driving"⟩)], 4, 0⟩
        stopA.coords stopB.coords "shuffle" "distance").1
      = some ⟨300, 30, "driving"⟩ ∧
    (DistanceService.getDistance fourModesApi 4 stopA.coords stopB.coords "shuffle"
        "distance").1
      = some ⟨200, 90, "walking"⟩ ∧
    (SimulatedAnnealing.getOptimalDistance fourModesApi emptyWorld stopA.coords stopB.coords
        "shuffle" "distance").1
      = some ⟨200, 90, "walking"⟩ := by
  refine ⟨fun _ _ _ => rfl, by decide, by decide, by decide, by decide⟩

/-! ## The orders a run visits -/

namespace SimulatedAnnealing

theorem move_tracked (env : Env) (hconst : ∀ t u q, env.api t q = env.api u q)
    (mode transportMethod : String) (c0 : Cache) (s : State)
    (hcache : SameAnswers env.api mode transportMethod c0 s.world.distanceCache)
    (hcur : s.currentDistance = orderCost env.api mode transportMethod c0 s.currentSolution) :
    SameAnswers env.api mode transportMethod c0
        (move env mode transportMethod s).world.distanceCache ∧
      (move env mode transportMethod s).currentDistance
        = orderCost env.api mode transportMethod c0
            (move env mode transportMethod s).currentSolution ∧
      (move env mode transportMethod s).bestSolution = s.bestSolution ∧
      (move env mode transportMethod s).bestDistance = s.bestDistance ∧
      ((move env mode transportMethod s).currentSolution = s.currentSolution ∨
        (move env mode transportMethod s).currentSolution = newSolution env s) := by
  obtain ⟨hd1, hd2⟩ := calculateTotalDistance_cost env.api hconst mode transportMethod c0
    (newSolution env s) { s.world with draws := s.world.draws + 2 } hcache
  simp only [move]
  split
  · exact ⟨hd2, hd1, rfl, rfl, Or.inr rfl⟩
  · exact ⟨hd2, hcur, rfl, rfl, Or.inl rfl⟩

theorem updateBest_tracked (env : Env) (hconst : ∀ t u q, env.api t q = env.api u q)
    (mode transportMethod : String) (c0 : Cache) (s : State)
    (hcache : SameAnswers env.api mode transportMethod c0 s.world.distanceCache) :
    SameAnswers env.api mode transportMethod c0
        (updateBest env mode transportMethod s).world.distanceCache ∧
      (updateBest env mode transportMethod s).currentSolution = s.currentSolution ∧
      (updateBest env mode transportMethod s).currentDistance = s.currentDistance ∧
      ((s.currentDistance < s.bestDistance ∧
          (updateBest env mode transportMethod s).bestSolution = s.currentSolution ∧
          (updateBest env mode transportMethod s).bestDistance = s.currentDistance) ∨
        (¬ s.currentDistance < s.bestDistance ∧
          (updateBest env mode transportMethod s).bestSolution = s.bestSolution ∧
          (updateBest env mode transportMethod s).bestDistance = s.bestDistance)) := by
  by_cases hlt : s.currentDistance < s.bestDistance
  · have e : updateBest env mode transportMethod s =
        { s with
          bestSolution := s.currentSolution
          bestDistance := s.currentDistance
          optimizedRouteMethods := (bestLegsLoop env.api mode transportMethod s.currentSolution
            ([some ""], 0, s.world)).1
          bestTime := (bestLegsLoop env.api mode transportMethod s.currentSolution
            ([some ""], 0, s.world)).2.1
          world := (bestLegsLoop env.api mode transportMethod s.currentSolution
            ([some ""], 0, s.world)).2.2 } := by
      simp only [updateBest, hlt, if_true]
    rw [e]
    exact ⟨bestLegsLoop_sameAnswers env.api hconst mode transportMethod c0 s.currentSolution
      ([some ""], 0, s.world) hcache, rfl, rfl, Or.inl ⟨hlt, rfl, rfl⟩⟩
  · have e : updateBest env mode transportMethod s = s := by
      simp only [updateBest, hlt, if_false]
    rw [e]
    exact ⟨hcache, rfl, rfl, Or.inr ⟨hlt, rfl, rfl⟩⟩

/-- One pass of the loop keeps the state tracked. -/
theorem step_tracked (env : Env) (hconst : ∀ t u q, env.api t q = env.api u q)
    (mode transportMethod : String) (c0 : Cache) (orders : Nat → List Destination) (k : Nat)
    (s : State)
    (hcache : SameAnswers env.api mode transportMethod c0 s.world.distanceCache)
    (h : s.Tracked (orderCost env.api mode transportMethod c0) orders k)
    (hnext : orders (k + 1) = (step env mode transportMethod s).currentSolution) :
    SameAnswers env.api mode transportMethod c0
        (step env mode transportMethod s).world.distanceCache ∧
      (step env mode transportMethod s).Tracked (orderCost env.api mode transportMethod c0)
        orders (k + 1) := by
  obtain ⟨hm1, hm2, hm3, hm4, _⟩ := move_tracked env hconst mode transportMethod c0 s hcache
    (h.current ▸ h.currentCost)
  obtain ⟨hu1, hu2, hu3, hu4⟩ := updateBest_tracked env hconst mode transportMethod c0
    (move env mode transportMethod s) hm1
  have hcurS : (step env mode transportMethod s).currentSolution
      = (move env mode transportMethod s).currentSolution := hu2
  have hcurD : (step env mode transportMethod s).currentDistance
      = (move env mode transportMethod s).currentDistance := hu3
  have hcost : (move env mode transportMethod s).currentDistance
      = orderCost env.api mode transportMethod c0 (orders (k + 1)) := by
    rw [hm2, hnext, hcurS]
  refine ⟨hu1, ?_⟩
  rcases hu4 with ⟨hlt, hbs, hbd⟩ | ⟨hnot, hbs, hbd⟩
  · have hbS : (step env mode transportMethod s).bestSolution = orders (k + 1) := by
      rw [hnext, hcurS]
      exact hbs
    have hbD : (step env mode transportMethod s).bestDistance
        = orderCost env.api mode transportMethod c0 (orders (k + 1)) := by
      rw [← hcost]
      exact hbd
    have hlt2 : orderCost env.api mode transportMethod c0 (orders (k + 1)) < s.bestDistance := by
      rw [← hcost, ← hm4]
      exact hlt
    have hbelow : ∀ i, i ≤ k → orderCost env.api mode transportMethod c0 (orders (k + 1))
        < orderCost env.api mode transportMethod c0 (orders i) :=
      fun i hi => JSNum.lt_le_trans _ _ _ hlt2 (h.least i hi)
    refine ⟨hnext.symm, ?_, ?_, ?_, ?_⟩
    · rw [hcurD, hcurS, hm2]
    · rw [hbD, hbS]
    · intro i hi
      rw [hbD]
      rcases Nat.lt_succ_iff_lt_or_eq.mp (Nat.lt_succ_of_le hi) with hlt3 | heq
      · exact JSNum.le_of_lt (hbelow i (Nat.lt_succ_iff.mp hlt3))
      · rw [heq]
        exact JSNum.le_rfl _
    · refine ⟨k + 1, Nat.le_refl _, hbS, ?_⟩
      intro j hj
      rw [hbD]
      exact hbelow j (Nat.lt_succ_iff.mp hj)
  · have hbS : (step env mode transportMethod s).bestSolution = s.bestSolution := by
      rw [← hm3]
      exact hbs
    have hbD : (step env mode transportMethod s).bestDistance = s.bestDistance := by
      rw [← hm4]
      exact hbd
    have hle : s.bestDistance ≤ orderCost env.api mode transportMethod c0 (orders (k + 1)) := by
      rw [← hcost, ← hm4]
      exact JSNum.le_of_not_lt _ _ hnot
    refine ⟨hnext.symm, ?_, ?_, ?_, ?_⟩
    · rw [hcurD, hcurS, hm2]
    · rw [hbD, hbS]
      exact h.bestCost
    · intro i hi
      rw [hbD]
      rcases Nat.lt_succ_iff_lt_or_eq.mp (Nat.lt_succ_of_le hi) with hlt3 | heq
      · exact h.least i (Nat.lt_succ_iff.mp hlt3)
      · rw [heq]
        exact hle
    · obtain ⟨i, hi, hbi, hfirst⟩ := h.first
      refine ⟨i, Nat.le_succ_of_le hi, ?_, ?_⟩
      · rw [hbS]
        exact hbi
      · intro j hj
        rw [hbD]
        exact hfirst j hj

end SimulatedAnnealing

namespace SimulatedAnnealing

theorem iterate_tracked (env : Env) (hconst : ∀ t u q, env.api t q = env.api u q)
    (mode transportMethod : String) (c0 : Cache) (s0 : State)
    (hcache : SameAnswers env.api mode transportMethod c0 s0.world.distanceCache)
    (hcur : s0.currentDistance = orderCost env.api mode transportMethod c0 s0.currentSolution)
    (hbest : s0.bestSolution = s0.currentSolution)
    (hbd : s0.bestDistance = s0.currentDistance) :
    ∀ k, SameAnswers env.api mode transportMethod c0
        ((step env mode transportMethod)^[k] s0).world.distanceCache ∧
      ((step env mode transportMethod)^[k] s0).Tracked
        (orderCost env.api mode transportMethod c0) (visited env mode transportMethod s0) k := by
  intro k
  induction k with
  | zero =>
    refine ⟨hcache, rfl, hcur, ?_, ?_, ?_⟩
    · show s0.bestDistance = orderCost env.api mode transportMethod c0 s0.bestSolution
      rw [hbd, hbest, hcur]
    · intro i hi
      have hi0 : i = 0 := Nat.le_zero.mp hi
      subst hi0
      show s0.bestDistance ≤ orderCost env.api mode transportMethod c0 s0.currentSolution
      rw [hbd, hcur]
      exact JSNum.le_rfl _
    · exact ⟨0, Nat.le_refl 0, hbest, fun j hj => absurd hj (Nat.not_lt_zero j)⟩
  | succ k ih =>
    rw [Function.iterate_succ_apply']
    refine step_tracked env hconst mode transportMethod c0 (visited env mode transportMethod s0)
      k _ ih.1 ih.2 ?_
    rw [visited, Function.iterate_succ_apply']

/-- A pass keeps the current order or replaces it by its neighbour. -/
theorem visited_succ (env : Env) (mode transportMethod : String) (s0 : State) (i : Nat) :
    visited env mode transportMethod s0 (i + 1) = visited env mode transportMethod s0 i ∨
      visited env mode transportMethod s0 (i + 1)
        = newSolution env ((step env mode transportMethod)^[i] s0) := by
  have hstep : ∀ s : State, (step env mode transportMethod s).currentSolution = s.currentSolution ∨
      (step env mode transportMethod s).currentSolution = newSolution env s := by
    intro s
    have hm : (move env mode transportMethod s).currentSolution = s.currentSolution ∨
        (move env mode transportMethod s).currentSolution = newSolution env s := by
      simp only [move]
      split
      · exact Or.inr rfl
      · exact Or.inl rfl
    have hu : (step env mode transportMethod s).currentSolution
        = (move env mode transportMethod s).currentSolution := by
      simp only [step, updateBest]
      split <;> rfl
    rw [hu]
    exact hm
  rw [visited, visited, Function.iterate_succ_apply']
  exact hstep _

/-- For a non-empty route the result of `simulatedAnnealingSolution` is read off
the state after 3066 passes. -/
theorem result_after_passes (env : Env) (w : World) (route : List Destination)
    (mode transportMethod : String) (hroute : route ≠ []) :
    ∃ s : State,
      s = (step env mode transportMethod)^[3066] (initialState env w route mode transportMethod) ∧
      simulatedAnnealingSolution env w route mode transportMethod
        = .ok (⟨s.bestSolution, s.bestDistance, s.bestTime, s.optimizedRouteMethods⟩,
            s.world) := by
  have e := anneal_from_initial_temperature env mode transportMethod
    (initialState env w route mode transportMethod) rfl
  refine ⟨_, rfl, ?_⟩
  have hlen : ¬ route.length = 0 := fun h => hroute (List.length_eq_zero.mp h)
  unfold simulatedAnnealingSolution
  rw [if_neg hlen]
  simp only [e]

theorem initialState_tracked (env : Env) (hconst : ∀ t u q, env.api t q = env.api u q)
    (w : World) (route : List Destination) (mode transportMethod : String) :
    SameAnswers env.api mode transportMethod w.distanceCache
        (initialState env w route mode transportMethod).world.distanceCache ∧
      (initialState env w route mode transportMethod).currentDistance
        = orderCost env.api mode transportMethod w.distanceCache
            (initialState env w route mode transportMethod).currentSolution ∧
      (initialState env w route mode transportMethod).bestSolution
        = (initialState env w route mode transportMethod).currentSolution ∧
      (initialState env w route mode transportMethod).bestDistance
        = (initialState env w route mode transportMethod).currentDistance ∧
      (initialState env w route mode transportMethod).currentSolution = route := by
  obtain ⟨hd1, hd2⟩ := calculateTotalDistance_cost env.api hconst mode transportMethod
    w.distanceCache route w (SameAnswers.rfl _ _ _ _)
  exact ⟨initMethodsLoop_sameAnswers env.api hconst mode transportMethod w.distanceCache route 0
    _ hd2, hd1, rfl, rfl, rfl⟩

end SimulatedAnnealing

/-- C30: with a routing service whose answers do not change over time, a run of
`simulatedAnnealingSolution` on a non-empty route returns a `totalDistance` that
is `calculateTotalDistance` of the returned order (computed after the run, which
for every order gives what it gives before the run).  The orders visited are the
input order and, pass by pass, the neighbour when it is accepted; the returned
`totalDistance` is at most the cost of every order visited during the 3066
passes, and the returned order is an order visited all of whose predecessors
cost strictly more. -/
theorem simulatedAnnealing_returns_first_cheapest_visited (env : Env)
    (hconst : ∀ t u q, env.api t q = env.api u q) (w : World) (route : List Destination)
    (mode transportMethod : String) (hroute : route ≠ []) :
    ∃ r w2,
      SimulatedAnnealing.simulatedAnnealingSolution env w route mode transportMethod
        = .ok (r, w2) ∧
      r.totalDistance
        = (SimulatedAnnealing.calculateTotalDistance env.api r.optimizedRoute mode
            transportMethod w2).1 ∧
      (∀ order,
        (SimulatedAnnealing.calculateTotalDistance env.api order mode transportMethod w2).1
          = (SimulatedAnnealing.calculateTotalDistance env.api order mode transportMethod w).1) ∧
      SimulatedAnnealing.visited env mode transportMethod
        (SimulatedAnnealing.initialState env w route mode transportMethod) 0 = route ∧
      (∀ i,
        SimulatedAnnealing.visited env mode transportMethod
            (SimulatedAnnealing.initialState env w route mode transportMethod) (i + 1)
          = SimulatedAnnealing.visited env mode transportMethod
            (SimulatedAnnealing.initialState env w route mode transportMethod) i ∨
        SimulatedAnnealing.visited env mode transportMethod
            (SimulatedAnnealing.initialState env w route mode transportMethod) (i + 1)
          = SimulatedAnnealing.newSolution env
            ((SimulatedAnnealing.step env mode transportMethod)^[i]
              (SimulatedAnnealing.initialState env w route mode transportMethod))) ∧
      (∀ i, i ≤ 3066 →
        r.totalDistance ≤ (SimulatedAnnealing.calculateTotalDistance env.api
          (SimulatedAnnealing.visited env mode transportMethod
            (SimulatedAnnealing.initialState env w route mode transportMethod) i)
          mode transportMethod w2).1) ∧
      ∃ i, i ≤ 3066 ∧
        r.optimizedRoute = SimulatedAnnealing.visited env mode transportMethod
          (SimulatedAnnealing.initialState env w route mode transportMethod) i ∧
        ∀ j, j < i →
          r.totalDistance < (SimulatedAnnealing.calculateTotalDistance env.api
            (SimulatedAnnealing.visited env mode transportMethod
              (SimulatedAnnealing.initialState env w route mode transportMethod) j)
            mode transportMethod w2).1 := by
  obtain ⟨s, hs, hres⟩ := SimulatedAnnealing.result_after_passes env w route mode
    transportMethod hroute
  obtain ⟨h0cache, h0cur, h0best, h0bd, h0route⟩ := SimulatedAnnealing.initialState_tracked env
    hconst w route mode transportMethod
  have htr := SimulatedAnnealing.iterate_tracked env hconst mode transportMethod
    w.distanceCache (SimulatedAnnealing.initialState env w route mode transportMethod)
    h0cache h0cur h0best h0bd 3066
  rw [← hs] at htr
  obtain ⟨hcache, htracked⟩ := htr
  have hcost2 : ∀ order,
      (SimulatedAnnealing.calculateTotalDistance env.api order mode transportMethod s.world).1
        = SimulatedAnnealing.orderCost env.api mode transportMethod w.distanceCache order :=
    fun order => (SimulatedAnnealing.calculateTotalDistance_cost env.api hconst mode
      transportMethod w.distanceCache order s.world hcache).1
  have hcost1 : ∀ order,
      (SimulatedAnnealing.calculateTotalDistance env.api order mode transportMethod w).1
        = SimulatedAnnealing.orderCost env.api mode transportMethod w.distanceCache order :=
    fun order => (SimulatedAnnealing.calculateTotalDistance_cost env.api hconst mode
      transportMethod w.distanceCache order w (SimulatedAnnealing.SameAnswers.rfl _ _ _ _)).1
  refine ⟨⟨s.bestSolution, s.bestDistance, s.bestTime, s.optimizedRouteMethods⟩, s.world, hres,
    ?_, ?_, h0route, ?_, ?_, ?_⟩
  · show s.bestDistance = _
    rw [hcost2]
    exact htracked.bestCost
  · intro order
    rw [hcost2, hcost1]
  · exact fun i => SimulatedAnnealing.visited_succ env mode transportMethod _ i
  · intro i hi
    show s.bestDistance ≤ _
    rw [hcost2]
    exact htracked.least i hi
  · obtain ⟨i, hi, hbi, hfirst⟩ := htracked.first
    refine ⟨i, hi, hbi, ?_⟩
    intro j hj
    show s.bestDistance < _
    rw [hcost2]
    exact hfirst j hj

/-- C30 at the route B, C over `exampleEnv`. -/
theorem simulatedAnnealing_returns_first_cheapest_witness :
    (∀ t u q, exampleEnv.api t q = exampleEnv.api u q) ∧ [stopB, stopC] ≠ [] ∧
      ∃ r w2,
        SimulatedAnnealing.simulatedAnnealingSolution exampleEnv emptyWorld [stopB, stopC]
          "time" "driving" = .ok (r, w2) ∧
        r.totalDistance
          = (SimulatedAnnealing.calculateTotalDistance exampleEnv.api r.optimizedRoute "time"
              "driving" w2).1 := by
  refine ⟨fun _ _ _ => rfl, by decide, ?_⟩
  obtain ⟨r, w2, h1, h2, _⟩ := simulatedAnnealing_returns_first_cheapest_visited exampleEnv
    (fun _ _ _ => rfl) emptyWorld [stopB, stopC] "time" "driving" (by decide)
  exact ⟨r, w2, h1, h2⟩
